import Mathlib

/-!
# Verification development for the opensearch Go client

A shallow embedding of `retry.go` (the retry executor),
`bulk_update_request.go` (the bulk update action encoder) and `errors.go` (the
response errors), together with the bulk accumulator and the bulk response
described in the specification.

Conventions of the embedding:

* Go closures and interface values with side effects are functions on an
  explicit world state `σ` (state passing).
* The unbounded `for` loop of `RetryNotify` is run with a fuel argument; a run
  that is still looping when the fuel is used up has `result = none`.
* Every run carries a trace of the observable events (operation calls, policy
  queries, notifications, sleeps) so that "how often" and "in which order" can
  be stated.
* Go `int` is a 64-bit two's complement integer (`wrapInt64`).
-/

namespace Opensearch

/-! ## retry.go -/

/-- Two's complement wrap-around of a Go `int` (64 bit). -/
def wrapInt64 (n : Int) : Int := (n + 2 ^ 63) % 2 ^ 64 - 2 ^ 63

/-- Largest Go `int`. -/
def maxInt : Int := 2 ^ 63 - 1

/-- Observable events of one run of the retry loop. -/
inductive Event (ε : Type) where
  /-- The call `operation()` returned `result` (`none` is the nil error). -/
  | call (result : Option ε)
  /-- The query `b.Next(n)` returned `(wait, retry)`. -/
  | next (n : Int) (wait : Int) (retry : Bool)
  /-- The call `notify(err)`. -/
  | notify (err : ε)
  /-- The call `time.Sleep(wait)`. -/
  | sleep (wait : Int)
  deriving DecidableEq, Repr

/-- `type Operation func() error`: a closure acting on the world state; `none` is nil. -/
abbrev Operation (σ ε : Type) := σ → Option ε × σ

/-- `type Notify func(error)`: a closure acting on the world state. -/
abbrev Notify (σ ε : Type) := ε → σ → σ

/-- The `Backoff` interface: `Next(retry int) (time.Duration, bool)`. -/
structure Backoff (σ : Type) where
  Next : Int → σ → (Int × Bool) × σ

/-- Outcome of a run: `result = none` while the loop has not returned within the
fuel, `result = some err` when the function returned `err`. -/
structure Outcome (σ ε : Type) where
  result : Option (Option ε)
  state : σ
  trace : List (Event ε)

/-- Events of the `if notify != nil { notify(err) }` statement. -/
def notifyEvents {σ ε : Type} (notify : Option (Notify σ ε)) (err : ε) : List (Event ε) :=
  match notify with
  | none => []
  | some _ => [Event.notify err]

/-- State after the `if notify != nil { notify(err) }` statement. -/
def notifyState {σ ε : Type} (notify : Option (Notify σ ε)) (err : ε) (s : σ) : σ :=
  match notify with
  | none => s
  | some f => f err s

/-- The `for { ... }` loop of `RetryNotify`; `n` is the local attempt counter. -/
def retryLoop {σ ε : Type} (operation : Operation σ ε) (b : Backoff σ)
    (notify : Option (Notify σ ε)) : Nat → Int → σ → Outcome σ ε
  | 0, _, s => { result := none, state := s, trace := [] }
  | fuel + 1, n, s =>
    match operation s with
    | (none, s1) => { result := some none, state := s1, trace := [Event.call none] }
    | (some err, s1) =>
      let n1 := wrapInt64 (n + 1)
      match b.Next n1 s1 with
      | ((wait, false), s2) =>
        { result := some (some err), state := s2,
          trace := [Event.call (some err), Event.next n1 wait false] }
      | ((wait, true), s2) =>
        let rest := retryLoop operation b notify fuel n1 (notifyState notify err s2)
        { rest with
          trace := [Event.call (some err), Event.next n1 wait true] ++ notifyEvents notify err
            ++ [Event.sleep wait] ++ rest.trace }

/-- `func RetryNotify(operation Operation, b Backoff, notify Notify) error`. -/
def RetryNotify {σ ε : Type} (operation : Operation σ ε) (b : Backoff σ)
    (notify : Option (Notify σ ε)) (fuel : Nat) (s : σ) : Outcome σ ε :=
  retryLoop operation b notify fuel 0 s

/-- `func Retry(o Operation, b Backoff) error { return RetryNotify(o, b, nil) }`. -/
def Retry {σ ε : Type} (o : Operation σ ε) (b : Backoff σ) (fuel : Nat) (s : σ) : Outcome σ ε :=
  RetryNotify o b none fuel s

/-- Whether an event is an invocation of the operation. -/
def Event.isCall {ε : Type} : Event ε → Bool
  | Event.call _ => true
  | _ => false

/-- Whether an event is a query of the backoff policy. -/
def Event.isNext {ε : Type} : Event ε → Bool
  | Event.next _ _ _ => true
  | _ => false

/-- Number of invocations of the operation in a trace. -/
def invocations {ε : Type} (t : List (Event ε)) : Nat := t.countP Event.isCall

/-- Number of policy queries in a trace. -/
def policyQueries {ε : Type} (t : List (Event ε)) : Nat := t.countP Event.isNext

/-- The run returned the error of its last invocation after exactly `K + 1`
invocations, the last policy query being `Next(K+1)` with answer "stop". -/
def Outcome.ExhaustedAfter {σ ε : Type} (out : Outcome σ ε) (K : Nat) : Prop :=
  ∃ (pre : List (Event ε)) (err : ε) (wait : Int),
    out.trace = pre ++ [Event.call (some err), Event.next ((K : Int) + 1) wait false]
      ∧ out.result = some (some err)
      ∧ invocations out.trace = K + 1

/-- The run returned nil after exactly `m` invocations, the successful call
being the last event, with `m - 1` policy queries (one per failure). -/
def Outcome.SucceededAfter {σ ε : Type} (out : Outcome σ ε) (m : Nat) : Prop :=
  out.result = some none
    ∧ invocations out.trace = m
    ∧ out.trace.getLast? = some (Event.call none)
    ∧ policyQueries out.trace + 1 = m

/-! ## encoding/json, as far as the bulk encoders use it

`json.Marshal` is applied to caller-supplied `interface{}` values, which are
represented by `GoValue`, and to values of the command types of
`bulk_update_request.go`, which carry a generated `MarshalJSON`. Strings are
valid Unicode, so the replacement of invalid UTF-8 bytes by `\ufffd` does not
occur. Errors are represented by their message; for a `json.RawMessage` inside
a caller's value the detail of the syntax error is abridged. A call that does
not complete normally ends with a `Failure`: a returned `error`, or a panic. -/

/-- How a call ends that does not complete normally: it returns a Go `error`
with the given message, or it panics with the given value. -/
inductive Failure where
  | error (msg : String)
  | panic (value : String)
  deriving DecidableEq, Repr

/-- Go strings have byte length. -/
def len (s : String) : Nat := s.utf8ByteSize

/-- `strings.Join(elems, sep)`. -/
def stringsJoin : List String → String → String
  | [], _ => ""
  | [a], _ => a
  | a :: b :: rest, sep => a ++ sep ++ stringsJoin (b :: rest) sep

/-- The digit of `hex = "0123456789abcdef"` at index `n % 16`. -/
def hexDigit (n : Nat) : Char :=
  match n % 16 with
  | 0 => '0' | 1 => '1' | 2 => '2' | 3 => '3' | 4 => '4' | 5 => '5' | 6 => '6' | 7 => '7'
  | 8 => '8' | 9 => '9' | 10 => 'a' | 11 => 'b' | 12 => 'c' | 13 => 'd' | 14 => 'e' | _ => 'f'

/-- The escape `\u00XX` of a character below 0x100. -/
def escapeU00 (c : Char) : List Char :=
  ['\\', 'u', '0', '0', hexDigit (c.toNat / 16), hexDigit c.toNat]

/-- One character of a JSON string literal as written by `appendString` with
`escapeHTML = true`. -/
def escapeChar (c : Char) : List Char :=
  if c = '\\' ∨ c = '"' then ['\\', c]
  else if c = '\x08' then ['\\', 'b']
  else if c = '\x0c' then ['\\', 'f']
  else if c = '\n' then ['\\', 'n']
  else if c = '\r' then ['\\', 'r']
  else if c = '\t' then ['\\', 't']
  else if c.toNat < 0x20 ∨ c = '<' ∨ c = '>' ∨ c = '&' then escapeU00 c
  else if c = '\u2028' then ['\\', 'u', '2', '0', '2', '8']
  else if c = '\u2029' then ['\\', 'u', '2', '0', '2', '9']
  else [c]

/-- A Go string as a JSON string literal (`appendString`, HTML escaping on). -/
def encodeString (s : String) : String :=
  String.mk ('"' :: (s.data.flatMap escapeChar ++ ['"']))

/-! ### The scanner behind `json.Compact` -/

/-- The step functions of the JSON scanner (`stateBeginValue`, ...). -/
inductive ScanStep where
  | beginValue | beginValueOrEmpty | beginStringOrEmpty | beginString | endValue
  | inString | inStringEsc
  /-- Inside `\uXXXX`, with `k` hex digits still to come. -/
  | inStringEscU (k : Nat)
  | neg | num1 | num0 | dot | dot0 | exp | expSign | exp0
  /-- Inside `true`, `false` or `null`, with `rest` still to come. -/
  | literal (rest : List Char)
  deriving DecidableEq, Repr

/-- Entries of the scanner's `parseState` stack. -/
inductive ParseState where
  | objectKey | objectValue | arrayValue
  deriving DecidableEq, Repr

/-- `maxNestingDepth` of the scanner. -/
def maxNestingDepth : Nat := 10000

def isSpace (c : Char) : Bool := c = ' ' || c = '\t' || c = '\r' || c = '\n'

def isDigit (c : Char) : Bool := '0'.toNat ≤ c.toNat && c.toNat ≤ '9'.toNat

def isDigit19 (c : Char) : Bool := '1'.toNat ≤ c.toNat && c.toNat ≤ '9'.toNat

def isHex (c : Char) : Bool :=
  isDigit c || ('a'.toNat ≤ c.toNat && c.toNat ≤ 'f'.toNat)
    || ('A'.toNat ≤ c.toNat && c.toNat ≤ 'F'.toNat)

/-- `pushParseState`: fails beyond the maximal nesting depth. -/
def pushParseState (stack : List ParseState) (p : ParseState) (next : ScanStep) :
    Option (ScanStep × List ParseState × Bool) :=
  if stack.length + 1 ≤ maxNestingDepth then some (next, p :: stack, false) else none

/-- `stateEndValue` (and `stateEndTop` when the stack is empty). The result is
the next step, the stack, and whether the character was skipped as space;
`none` is a syntax error. -/
def stateEndValue (stack : List ParseState) (c : Char) :
    Option (ScanStep × List ParseState × Bool) :=
  match stack with
  | [] => if isSpace c then some (ScanStep.endValue, [], true) else none
  | top :: rest =>
    if isSpace c then some (ScanStep.endValue, stack, true)
    else match top with
      | ParseState.objectKey =>
        if c = ':' then some (ScanStep.beginValue, ParseState.objectValue :: rest, false) else none
      | ParseState.objectValue =>
        if c = ',' then some (ScanStep.beginString, ParseState.objectKey :: rest, false)
        else if c = '}' then some (ScanStep.endValue, rest, false)
        else none
      | ParseState.arrayValue =>
        if c = ',' then some (ScanStep.beginValue, stack, false)
        else if c = ']' then some (ScanStep.endValue, rest, false)
        else none

/-- `stateBeginString`. -/
def stateBeginString (stack : List ParseState) (c : Char) :
    Option (ScanStep × List ParseState × Bool) :=
  if isSpace c then some (ScanStep.beginString, stack, true)
  else if c = '"' then some (ScanStep.inString, stack, false)
  else none

/-- `stateBeginValue`; `self` is the step to stay in on white space. -/
def stateBeginValue (self : ScanStep) (stack : List ParseState) (c : Char) :
    Option (ScanStep × List ParseState × Bool) :=
  if isSpace c then some (self, stack, true)
  else if c = '{' then pushParseState stack ParseState.objectKey ScanStep.beginStringOrEmpty
  else if c = '[' then pushParseState stack ParseState.arrayValue ScanStep.beginValueOrEmpty
  else if c = '"' then some (ScanStep.inString, stack, false)
  else if c = '-' then some (ScanStep.neg, stack, false)
  else if c = '0' then some (ScanStep.num0, stack, false)
  else if c = 't' then some (ScanStep.literal ['r', 'u', 'e'], stack, false)
  else if c = 'f' then some (ScanStep.literal ['a', 'l', 's', 'e'], stack, false)
  else if c = 'n' then some (ScanStep.literal ['u', 'l', 'l'], stack, false)
  else if isDigit19 c then some (ScanStep.num1, stack, false)
  else none

/-- `state0`: after the integer part of a number. -/
def state0 (stack : List ParseState) (c : Char) : Option (ScanStep × List ParseState × Bool) :=
  if c = '.' then some (ScanStep.dot, stack, false)
  else if c = 'e' ∨ c = 'E' then some (ScanStep.exp, stack, false)
  else stateEndValue stack c

/-- One call `s.step(s, c)` of the scanner. -/
def scanStep (step : ScanStep) (stack : List ParseState) (c : Char) :
    Option (ScanStep × List ParseState × Bool) :=
  match step with
  | ScanStep.beginValue => stateBeginValue ScanStep.beginValue stack c
  | ScanStep.beginValueOrEmpty =>
    if isSpace c then some (ScanStep.beginValueOrEmpty, stack, true)
    else if c = ']' then stateEndValue stack c
    else stateBeginValue ScanStep.beginValueOrEmpty stack c
  | ScanStep.beginStringOrEmpty =>
    if isSpace c then some (ScanStep.beginStringOrEmpty, stack, true)
    else if c = '}' then stateEndValue (ParseState.objectValue :: stack.tail) c
    else stateBeginString stack c
  | ScanStep.beginString => stateBeginString stack c
  | ScanStep.endValue => stateEndValue stack c
  | ScanStep.inString =>
    if c = '"' then some (ScanStep.endValue, stack, false)
    else if c = '\\' then some (ScanStep.inStringEsc, stack, false)
    else if c.toNat < 0x20 then none
    else some (ScanStep.inString, stack, false)
  | ScanStep.inStringEsc =>
    if c = 'b' ∨ c = 'f' ∨ c = 'n' ∨ c = 'r' ∨ c = 't' ∨ c = '\\' ∨ c = '/' ∨ c = '"' then
      some (ScanStep.inString, stack, false)
    else if c = 'u' then some (ScanStep.inStringEscU 4, stack, false)
    else none
  | ScanStep.inStringEscU k =>
    if isHex c then
      some (if k ≤ 1 then ScanStep.inString else ScanStep.inStringEscU (k - 1), stack, false)
    else none
  | ScanStep.neg =>
    if c = '0' then some (ScanStep.num0, stack, false)
    else if isDigit19 c then some (ScanStep.num1, stack, false)
    else none
  | ScanStep.num1 => if isDigit c then some (ScanStep.num1, stack, false) else state0 stack c
  | ScanStep.num0 => state0 stack c
  | ScanStep.dot => if isDigit c then some (ScanStep.dot0, stack, false) else none
  | ScanStep.dot0 =>
    if isDigit c then some (ScanStep.dot0, stack, false)
    else if c = 'e' ∨ c = 'E' then some (ScanStep.exp, stack, false)
    else stateEndValue stack c
  | ScanStep.exp =>
    if c = '+' ∨ c = '-' then some (ScanStep.expSign, stack, false)
    else if isDigit c then some (ScanStep.exp0, stack, false)
    else none
  | ScanStep.expSign => if isDigit c then some (ScanStep.exp0, stack, false) else none
  | ScanStep.exp0 =>
    if isDigit c then some (ScanStep.exp0, stack, false) else stateEndValue stack c
  | ScanStep.literal [] => none
  | ScanStep.literal (x :: rest) =>
    if c = x then
      some (if rest = [] then ScanStep.endValue else ScanStep.literal rest, stack, false)
    else none

/-- What `appendCompact` (with `escape = true`) writes for a character it keeps. -/
def compactChar (c : Char) : List Char :=
  if c = '<' ∨ c = '>' ∨ c = '&' then escapeU00 c
  else if c = '\u2028' then ['\\', 'u', '2', '0', '2', '8']
  else if c = '\u2029' then ['\\', 'u', '2', '0', '2', '9']
  else [c]

/-- The loop of `appendCompact`, followed by `scan.eof()`: the input without
insignificant white space, or `none` when it is not one valid JSON value. -/
def compactLoop : ScanStep → List ParseState → List Char → Option (List Char)
  | step, stack, [] =>
    match scanStep step stack ' ' with
    | some (ScanStep.endValue, [], _) => some []
    | _ => none
  | step, stack, c :: cs =>
    match scanStep step stack c with
    | none => none
    | some (step1, stack1, skipped) =>
      match compactLoop step1 stack1 cs with
      | none => none
      | some out => some (if skipped then out else compactChar c ++ out)

/-- The JSON written for a non-nil `json.RawMessage` by `json.Marshal`. -/
def compact (src : String) : Option String :=
  (compactLoop ScanStep.beginValue [] src.data).map String.mk

/-- Go values handed to the encoder through `interface{}`. -/
inductive GoValue where
  /-- A nil pointer, map or slice held in a non-nil interface, of a type
  without a `MarshalJSON` method. -/
  | null
  | bool (b : Bool)
  /-- Any integer type. -/
  | int (n : Int)
  | string (s : String)
  /-- A `*string`; `none` is the nil pointer. -/
  | stringPtr (p : Option String)
  /-- A non-nil `json.RawMessage`. -/
  | rawMessage (s : String)
  /-- A struct (fields in declaration order, as named by their tags) or a map
  with string keys (in sorted key order). -/
  | object (fields : List (String × GoValue))
  /-- A slice or array. -/
  | array (elems : List GoValue)
  /-- A value of a type the encoder rejects, such as a channel or a function. -/
  | unsupported (typ : String)
  /-- A value of a caller's type whose method `MarshalJSON` panics with the
  given value. -/
  | panicking (value : String)

/-- A JSON object from its already encoded members. -/
def jsonObject (members : List (String × String)) : String :=
  "\x7b" ++ stringsJoin (members.map (fun m => encodeString m.1 ++ ":" ++ m.2)) "," ++ "\x7d"

mutual
/-- `json.Marshal(v)`: the JSON text, or how the call fails. `encoding/json`
recovers its own errors only, so the panic of a `MarshalJSON` method passes
through `json.Marshal`. -/
def jsonMarshal : GoValue → Except Failure String
  | GoValue.null => Except.ok "null"
  | GoValue.bool b => Except.ok (if b then "true" else "false")
  | GoValue.int n => Except.ok (toString n)
  | GoValue.string s => Except.ok (encodeString s)
  | GoValue.stringPtr none => Except.ok "null"
  | GoValue.stringPtr (some s) => Except.ok (encodeString s)
  | GoValue.rawMessage s =>
    match compact s with
    | some out => Except.ok out
    | none =>
      Except.error
        (Failure.error "json: error calling MarshalJSON for type json.RawMessage: invalid JSON")
  | GoValue.object fields =>
    match jsonMarshalFields fields with
    | Except.ok members => Except.ok (jsonObject members)
    | Except.error err => Except.error err
  | GoValue.array elems =>
    match jsonMarshalElems elems with
    | Except.ok items => Except.ok ("[" ++ stringsJoin items "," ++ "]")
    | Except.error err => Except.error err
  | GoValue.unsupported typ => Except.error (Failure.error ("json: unsupported type: " ++ typ))
  | GoValue.panicking value => Except.error (Failure.panic value)
/-- The members of an object, in order; the first failure aborts. -/
def jsonMarshalFields : List (String × GoValue) → Except Failure (List (String × String))
  | [] => Except.ok []
  | (k, v) :: rest =>
    match jsonMarshal v with
    | Except.error err => Except.error err
    | Except.ok j =>
      match jsonMarshalFields rest with
      | Except.error err => Except.error err
      | Except.ok members => Except.ok ((k, j) :: members)
/-- The elements of an array, in order; the first failure aborts. -/
def jsonMarshalElems : List GoValue → Except Failure (List String)
  | [] => Except.ok []
  | v :: rest =>
    match jsonMarshal v with
    | Except.error err => Except.error err
    | Except.ok j =>
      match jsonMarshalElems rest with
      | Except.error err => Except.error err
      | Except.ok items => Except.ok (j :: items)
end

/-! ## bulk_update_request.go -/

/-- The `Script` type is declared in a file that is not part of this
development. `Source` is what `script.Source()` returns: an error, or the
`interface{}` value to put under `"script"` (`none` is the nil interface). -/
structure Script where
  Source : Except String (Option GoValue)

/-- `type BulkUpdateRequest struct`. Pointer fields are options (`none` is
nil), `interface{}` fields are optional Go values (`none` is the nil
interface), and `source = none` is the nil slice. -/
structure BulkUpdateRequest where
  index : String := ""
  typ : String := ""
  id : String := ""
  routing : String := ""
  parent : String := ""
  script : Option Script := none
  scriptedUpsert : Option Bool := none
  version : Int := 0
  versionType : String := ""
  retryOnConflict : Option Int := none
  upsert : Option GoValue := none
  docAsUpsert : Option Bool := none
  detectNoop : Option Bool := none
  doc : Option GoValue := none
  returnSource : Option Bool := none
  ifSeqNo : Option Int := none
  ifPrimaryTerm : Option Int := none
  source : Option (List String) := none
  useEasyJSON : Bool := false

/-- `type bulkUpdateRequestCommandOp struct` (the field `Type` is `Typ` here). -/
structure bulkUpdateRequestCommandOp where
  Index : String
  Typ : String
  Id : String
  Parent : String
  RetryOnConflict : Option Int
  Routing : String
  Version : Int
  VersionType : String
  IfSeqNo : Option Int
  IfPrimaryTerm : Option Int

/-- `type bulkUpdateRequestCommand map[string]bulkUpdateRequestCommandOp`,
as the list of its entries in key order. -/
abbrev bulkUpdateRequestCommand := List (String × bulkUpdateRequestCommandOp)

/-- `type bulkUpdateRequestCommandData struct`. -/
structure bulkUpdateRequestCommandData where
  DetectNoop : Option Bool
  Doc : Option GoValue
  DocAsUpsert : Option Bool
  Script : Option GoValue
  ScriptedUpsert : Option Bool
  Upsert : Option GoValue
  Source : Option Bool

/-- What is taken from outside the sources at hand about the encoding of the
command types: the `MarshalJSON` methods that easyjson generates for them (the
generated file is not part of this development), the names by which
`encoding/json` calls the two types in a `MarshalerError`, and the message of
the `SyntaxError` it reports for a text that is not valid JSON (the scanner of
this development only decides validity). -/
structure EasyJSON where
  commandMarshalJSON : bulkUpdateRequestCommand → Except Failure String
  dataMarshalJSON : bulkUpdateRequestCommandData → Except Failure String
  commandType : String
  dataType : String
  syntaxError : String → String

/-- `json.Marshal(v)` for a value whose type has a generated `MarshalJSON`, of
which `res` is the result: `encoding/json` calls the method, reports its error
as a `MarshalerError` naming the type, and otherwise compacts what the method
wrote (HTML escaping on), reporting a text that is not valid JSON likewise; a
panic of the method passes through. -/
def jsonMarshalMarshaler (E : EasyJSON) (typ : String) (res : Except Failure String) :
    Except Failure String :=
  match res with
  | Except.error (Failure.panic value) => Except.error (Failure.panic value)
  | Except.error (Failure.error err) =>
    Except.error
      (Failure.error ("json: error calling MarshalJSON for type " ++ typ ++ ": " ++ err))
  | Except.ok text =>
    match compact text with
    | some out => Except.ok out
    | none =>
      Except.error
        (Failure.error
          ("json: error calling MarshalJSON for type " ++ typ ++ ": " ++ E.syntaxError text))

/-! ### What easyjson writes

The writer of the generated marshallers (`jwriter.Writer` of the easyjson
library) and the shape of the generated code, by which the hypothesis
`EasyJSON.Generated` and the sample marshallers describe the generated file. -/

/-- One character of a string as `jwriter.Writer.String` writes it (HTML
escaping on): control characters other than `\n`, `\r`, `\t` are written as
`\u00XX`. -/
def easyjsonEscapeChar (c : Char) : List Char :=
  if c = '\\' ∨ c = '"' then ['\\', c]
  else if c = '\n' then ['\\', 'n']
  else if c = '\r' then ['\\', 'r']
  else if c = '\t' then ['\\', 't']
  else if c.toNat < 0x20 ∨ c = '<' ∨ c = '>' ∨ c = '&' then escapeU00 c
  else if c = '\u2028' then ['\\', 'u', '2', '0', '2', '8']
  else if c = '\u2029' then ['\\', 'u', '2', '0', '2', '9']
  else [c]

/-- A Go string as `jwriter.Writer.String` writes it. -/
def easyjsonString (s : String) : String :=
  String.mk ('"' :: (s.data.flatMap easyjsonEscapeChar ++ ['"']))

/-- One member `"key":value` of an object. -/
def easyjsonMember (m : String × String) : List Char :=
  (easyjsonString m.1).data ++ ':' :: m.2.data

/-- The members of an object, separated by commas. -/
def easyjsonMembers : List (String × String) → List Char
  | [] => []
  | [m] => easyjsonMember m
  | m :: rest => easyjsonMember m ++ ',' :: easyjsonMembers rest

/-- A JSON object as the generated code writes it, from its already encoded
members. -/
def easyjsonObject (members : List (String × String)) : String :=
  String.mk ('\x7b' :: (easyjsonMembers members ++ ['\x7d']))

/-- A string field tagged `omitempty` in the generated code: left out when
empty. -/
def omitEmptyEasyString (key : String) (v : String) : List (String × String) :=
  if v = "" then [] else [(key, easyjsonString v)]

/-- A string field tagged `omitempty`: left out when empty. -/
def omitEmptyString (key : String) (v : String) : List (String × String) :=
  if v = "" then [] else [(key, encodeString v)]

/-- An `int64` field tagged `omitempty`: left out when zero. -/
def omitEmptyInt (key : String) (v : Int) : List (String × String) :=
  if v = 0 then [] else [(key, toString v)]

/-- A `*int` or `*int64` field tagged `omitempty`: left out when nil. -/
def omitEmptyIntPtr (key : String) (v : Option Int) : List (String × String) :=
  match v with
  | none => []
  | some n => [(key, toString n)]

/-- A `*bool` field tagged `omitempty`: left out when nil. -/
def omitEmptyBoolPtr (key : String) (v : Option Bool) : List (String × String) :=
  match v with
  | none => []
  | some b => [(key, if b then "true" else "false")]

/-- An `interface{}` value as the generated code writes it: a `json.RawMessage`
is a `json.Marshaler` and what its `MarshalJSON` returns is pasted as it is
(`null` for no bytes); the `MarshalJSON` of a caller's type is called likewise,
and its panic ends the call; every other value goes through `json.Marshal`. -/
def easyjsonInterface : GoValue → Except Failure String
  | GoValue.rawMessage s => Except.ok (if s = "" then "null" else s)
  | GoValue.panicking value => Except.error (Failure.panic value)
  | v => jsonMarshal v

/-- An `interface{}` field tagged `omitempty` in the generated code: left out
when nil, else written by `easyjsonInterface`. -/
def omitEmptyInterface (key : String) (v : Option GoValue) :
    Except Failure (List (String × String)) :=
  match v with
  | none => Except.ok []
  | some x =>
    match easyjsonInterface x with
    | Except.ok j => Except.ok [(key, j)]
    | Except.error err => Except.error err

/-- The members the generated code writes for a `bulkUpdateRequestCommandOp`,
in the order of the struct's fields. -/
def bulkUpdateRequestCommandOp.members (op : bulkUpdateRequestCommandOp) :
    List (String × String) :=
  omitEmptyEasyString "_index" op.Index
    ++ omitEmptyEasyString "_type" op.Typ
    ++ omitEmptyEasyString "_id" op.Id
    ++ omitEmptyEasyString "parent" op.Parent
    ++ omitEmptyIntPtr "retry_on_conflict" op.RetryOnConflict
    ++ omitEmptyEasyString "routing" op.Routing
    ++ omitEmptyInt "version" op.Version
    ++ omitEmptyEasyString "version_type" op.VersionType
    ++ omitEmptyIntPtr "if_seq_no" op.IfSeqNo
    ++ omitEmptyIntPtr "if_primary_term" op.IfPrimaryTerm

/-- What the generated `MarshalJSON` writes for the command
`{"update": op}`; it cannot fail. -/
def easyjsonCommand (op : bulkUpdateRequestCommandOp) : String :=
  easyjsonObject [("update", easyjsonObject op.members)]

/-- Two steps of the generated code, one after the other, on the same writer:
a panic of the first ends the call; an error of the first is kept by the
writer, which then writes nothing more, but the second step still runs and may
panic. -/
def writerThen {α β γ : Type} (first : Except Failure α) (second : Except Failure β)
    (f : α → β → γ) : Except Failure γ :=
  match first with
  | Except.error (Failure.panic value) => Except.error (Failure.panic value)
  | Except.error (Failure.error err) =>
    match second with
    | Except.error (Failure.panic value) => Except.error (Failure.panic value)
    | _ => Except.error (Failure.error err)
  | Except.ok a =>
    match second with
    | Except.error failure => Except.error failure
    | Except.ok b => Except.ok (f a b)

/-- The members the generated code writes for a `bulkUpdateRequestCommandData`,
in the order of the struct's fields. The values of `doc`, `script` and `upsert`
are marshalled in this order; the error is that of the first of them that is
rejected, unless the marshalling of one of them panics. -/
def bulkUpdateRequestCommandData.members (data : bulkUpdateRequestCommandData) :
    Except Failure (List (String × String)) :=
  writerThen (omitEmptyInterface "doc" data.Doc)
    (writerThen (omitEmptyInterface "script" data.Script)
      (omitEmptyInterface "upsert" data.Upsert) (fun script upsert => (script, upsert)))
    (fun doc rest =>
      omitEmptyBoolPtr "detect_noop" data.DetectNoop
        ++ doc
        ++ omitEmptyBoolPtr "doc_as_upsert" data.DocAsUpsert
        ++ rest.1
        ++ omitEmptyBoolPtr "scripted_upsert" data.ScriptedUpsert
        ++ rest.2
        ++ omitEmptyBoolPtr "_source" data.Source)

/-- What the generated `MarshalJSON` returns for a
`bulkUpdateRequestCommandData`. -/
def easyjsonData (data : bulkUpdateRequestCommandData) : Except Failure String :=
  match data.members with
  | Except.ok members => Except.ok (easyjsonObject members)
  | Except.error err => Except.error err

/-- `func NewBulkUpdateRequest() *BulkUpdateRequest`. -/
def NewBulkUpdateRequest : BulkUpdateRequest := {}

def BulkUpdateRequest.UseEasyJSON (r : BulkUpdateRequest) (enable : Bool) : BulkUpdateRequest :=
  { r with useEasyJSON := enable }

def BulkUpdateRequest.Index (r : BulkUpdateRequest) (index : String) : BulkUpdateRequest :=
  { r with index := index, source := none }

/-- The method `Type`. -/
def BulkUpdateRequest.Typ (r : BulkUpdateRequest) (typ : String) : BulkUpdateRequest :=
  { r with typ := typ, source := none }

def BulkUpdateRequest.Id (r : BulkUpdateRequest) (id : String) : BulkUpdateRequest :=
  { r with id := id, source := none }

def BulkUpdateRequest.Routing (r : BulkUpdateRequest) (routing : String) : BulkUpdateRequest :=
  { r with routing := routing, source := none }

def BulkUpdateRequest.Parent (r : BulkUpdateRequest) (parent : String) : BulkUpdateRequest :=
  { r with parent := parent, source := none }

/-- The argument `none` is the nil pointer. -/
def BulkUpdateRequest.Script (r : BulkUpdateRequest) (script : Option Script) : BulkUpdateRequest :=
  { r with script := script, source := none }

def BulkUpdateRequest.ScriptedUpsert (r : BulkUpdateRequest) (upsert : Bool) : BulkUpdateRequest :=
  { r with scriptedUpsert := some upsert, source := none }

def BulkUpdateRequest.RetryOnConflict (r : BulkUpdateRequest) (retryOnConflict : Int) : BulkUpdateRequest :=
  { r with retryOnConflict := some retryOnConflict, source := none }

def BulkUpdateRequest.Version (r : BulkUpdateRequest) (version : Int) : BulkUpdateRequest :=
  { r with version := version, source := none }

def BulkUpdateRequest.VersionType (r : BulkUpdateRequest) (versionType : String) : BulkUpdateRequest :=
  { r with versionType := versionType, source := none }

/-- `IfSeqNo` assigns the field and returns; it does not touch `source`. -/
def BulkUpdateRequest.IfSeqNo (r : BulkUpdateRequest) (ifSeqNo : Int) : BulkUpdateRequest :=
  { r with ifSeqNo := some ifSeqNo }

/-- `IfPrimaryTerm` assigns the field and returns; it does not touch `source`. -/
def BulkUpdateRequest.IfPrimaryTerm (r : BulkUpdateRequest) (ifPrimaryTerm : Int) : BulkUpdateRequest :=
  { r with ifPrimaryTerm := some ifPrimaryTerm }

def BulkUpdateRequest.Doc (r : BulkUpdateRequest) (doc : Option GoValue) : BulkUpdateRequest :=
  { r with doc := doc, source := none }

def BulkUpdateRequest.DocAsUpsert (r : BulkUpdateRequest) (docAsUpsert : Bool) : BulkUpdateRequest :=
  { r with docAsUpsert := some docAsUpsert, source := none }

def BulkUpdateRequest.DetectNoop (r : BulkUpdateRequest) (detectNoop : Bool) : BulkUpdateRequest :=
  { r with detectNoop := some detectNoop, source := none }

def BulkUpdateRequest.Upsert (r : BulkUpdateRequest) (doc : Option GoValue) : BulkUpdateRequest :=
  { r with upsert := doc, source := none }

def BulkUpdateRequest.ReturnSource (r : BulkUpdateRequest) (source : Bool) : BulkUpdateRequest :=
  { r with returnSource := some source, source := none }

/-- The `updateCommand` literal of `Source`. -/
def BulkUpdateRequest.updateCommand (r : BulkUpdateRequest) : bulkUpdateRequestCommandOp :=
  { Index := r.index, Typ := r.typ, Id := r.id, Routing := r.routing, Parent := r.parent,
    Version := r.version, VersionType := r.versionType, RetryOnConflict := r.retryOnConflict,
    IfSeqNo := r.ifSeqNo, IfPrimaryTerm := r.ifPrimaryTerm }

/-- The local `doc` of `Source` after the type switch on `r.doc`: strings and
string pointers become raw JSON when non-empty and are dropped otherwise. -/
def BulkUpdateRequest.docValue (r : BulkUpdateRequest) : Option GoValue :=
  match r.doc with
  | none => none
  | some (GoValue.string t) => if len t > 0 then some (GoValue.rawMessage t) else none
  | some (GoValue.stringPtr none) => none
  | some (GoValue.stringPtr (some t)) => if len t > 0 then some (GoValue.rawMessage t) else none
  | some v => some v

/-- The `data` literal of `Source`, before `data.Script` is assigned. -/
def BulkUpdateRequest.commandData (r : BulkUpdateRequest) : bulkUpdateRequestCommandData :=
  { DocAsUpsert := r.docAsUpsert, DetectNoop := r.detectNoop, Upsert := r.upsert,
    ScriptedUpsert := r.scriptedUpsert, Doc := r.docValue, Source := r.returnSource,
    Script := none }

/-- `func (r *BulkUpdateRequest) Source() ([]string, error)` on the request `r`
that a non-nil receiver points to: the lines, the returned error
(`Failure.error`) or the panic that ends the call (`Failure.panic`), and the
request afterwards (its cache may have been filled). `Source` has no
`recover`, so a panic of a marshaller ends it. -/
def BulkUpdateRequest.Source (E : EasyJSON) (r : BulkUpdateRequest) :
    Except Failure (List String) × BulkUpdateRequest :=
  match r.source with
  | some lines => (Except.ok lines, r)
  | none =>
    let command : bulkUpdateRequestCommand := [("update", r.updateCommand)]
    let body : Except Failure String :=
      if r.useEasyJSON then E.commandMarshalJSON command
      else jsonMarshalMarshaler E E.commandType (E.commandMarshalJSON command)
    match body with
    | Except.error err => (Except.error err, r)
    | Except.ok line0 =>
      let data : Except Failure bulkUpdateRequestCommandData :=
        match r.script with
        | none => Except.ok r.commandData
        | some script =>
          match script.Source with
          | Except.error err => Except.error (Failure.error err)
          | Except.ok v => Except.ok { r.commandData with Script := v }
      match data with
      | Except.error err => (Except.error err, r)
      | Except.ok data =>
        let body : Except Failure String :=
          if r.useEasyJSON then E.dataMarshalJSON data
          else jsonMarshalMarshaler E E.dataType (E.dataMarshalJSON data)
        match body with
        | Except.error err => (Except.error err, r)
        | Except.ok line1 =>
          (Except.ok [line0, line1], { r with source := some [line0, line1] })

/-- The script part of `Source`: what `r.script.Source()` yields, or the nil
interface when no script is set. -/
def BulkUpdateRequest.scriptValue (r : BulkUpdateRequest) : Except String (Option GoValue) :=
  match r.script with
  | none => Except.ok none
  | some script => script.Source

/-- The keys of the metadata object of a request. -/
def BulkUpdateRequest.metadataKeys (r : BulkUpdateRequest) : List String :=
  r.updateCommand.members.map Prod.fst

/-- `func (r *BulkUpdateRequest) String() string`, with the request afterwards.
`String` returns no error: `Except.error` is the panic of `Source`, which
passes through `String`, with its value. -/
def BulkUpdateRequest.String (E : EasyJSON) (r : BulkUpdateRequest) :
    Except String String × BulkUpdateRequest :=
  match r.Source E with
  | (Except.error (Failure.panic value), r1) => (Except.error value, r1)
  | (Except.error (Failure.error err), r1) => (Except.ok ("error: " ++ err), r1)
  | (Except.ok lines, r1) => (Except.ok (stringsJoin lines "\n"), r1)

/-- What the generated code writes for an optional `interface{}` value:
nothing for nil. -/
def marshalOptional (v : Option GoValue) : Except Failure (Option String) :=
  match v with
  | none => Except.ok none
  | some x =>
    match easyjsonInterface x with
    | Except.ok j => Except.ok (some j)
    | Except.error err => Except.error err

/-- The member of an object for an optional encoded value. -/
def optionalMember (key : String) (j : Option String) : List (String × String) :=
  match j with
  | none => []
  | some v => [(key, v)]

/-! ### The scanner on what the generated code writes -/

/-- The scanner takes the characters `cs` from the state `(step, stack)` to the
state `(step1, stack1)`, and `appendCompact` copies them as they are. -/
def Passes (step : ScanStep) (stack : List ParseState) (cs : List Char)
    (step1 : ScanStep) (stack1 : List ParseState) : Prop :=
  ∀ rest, compactLoop step stack (cs ++ rest)
    = (compactLoop step1 stack1 rest).map (fun out => cs ++ out)

/-- The states in which a value may be complete: after a string, literal,
object or array, and inside the integer part of a number. -/
def ValueEnd (step : ScanStep) : Prop :=
  step = ScanStep.endValue ∨ step = ScanStep.num0 ∨ step = ScanStep.num1

/-- The text is scanned as one value and copied as it is, whatever surrounds it. -/
def PassesAsValue (stack : List ParseState) (cs : List Char) : Prop :=
  ∃ step1, ValueEnd step1 ∧ Passes ScanStep.beginValue stack cs step1 stack

/-! ## The bulk accumulator

`bulk.go`, `bulk_index_request.go` and `bulk_delete_request.go` are not among
the sources at hand; their behaviour is taken from the specification. -/

/-- Modelled from the spec: the target identity of an index, create or delete
action of `bulk_index_request.go` / `bulk_delete_request.go` ("index name,
document id, routing key, primary-term/sequence-number tokens"; empty and unset
values are omitted from the metadata line). -/
structure ActionTarget where
  index : String := ""
  id : String := ""
  routing : String := ""
  ifSeqNo : Option Int := none
  ifPrimaryTerm : Option Int := none

/-- Modelled from the spec: the identity fields of the metadata line of an
index, create or delete action (`bulk_index_request.go`,
`bulk_delete_request.go`), with the keys of `bulkUpdateRequestCommandOp`. -/
def ActionTarget.members (t : ActionTarget) : List (String × String) :=
  omitEmptyString "_index" t.index
    ++ omitEmptyString "_id" t.id
    ++ omitEmptyString "routing" t.routing
    ++ omitEmptyIntPtr "if_seq_no" t.ifSeqNo
    ++ omitEmptyIntPtr "if_primary_term" t.ifPrimaryTerm

/-- Modelled from the spec: the `BulkableRequest` interface of `bulk.go` as the
"tagged union over {Index, Create, Update, Delete}"; the update variant is the
`BulkUpdateRequest` of the source. -/
inductive BulkableRequest where
  | index (target : ActionTarget) (doc : GoValue)
  | create (target : ActionTarget) (doc : GoValue)
  | delete (target : ActionTarget)
  | update (r : BulkUpdateRequest)

/-- Modelled from the spec: the payload line of an index or create action of
`bulk_index_request.go`: "the caller's document as-is", a pre-encoded JSON
string being "embedded verbatim/unescaped as raw JSON". -/
def payloadLine (doc : GoValue) : Except Failure String :=
  match doc with
  | GoValue.string t => Except.ok t
  | v => jsonMarshal v

/-- Modelled from the spec: the wire lines of an index or create action of
`bulk_index_request.go`: the metadata line under the action verb, then the
payload line. -/
def indexLines (verb : String) (target : ActionTarget) (doc : GoValue) :
    Except Failure (List String) :=
  match payloadLine doc with
  | Except.ok line1 => Except.ok [jsonObject [(verb, jsonObject target.members)], line1]
  | Except.error err => Except.error err

/-- Modelled from the spec: the accumulator is described for encodings that
yield lines or an error ("encoding fails (returns an error, does not
panic/throw uncontrolled)"), so a failure is taken with its message, a panic
raised by a caller's marshaller included. -/
def encodingResult {α : Type} (res : Except Failure α) : Except String α :=
  match res with
  | Except.ok a => Except.ok a
  | Except.error (Failure.error err) => Except.error err
  | Except.error (Failure.panic value) => Except.error ("panic: " ++ value)

/-- Modelled from the spec: `Source()` of the `BulkableRequest` interface of
`bulk.go` (section 4.1), with the request afterwards; only an update request
has a cache to fill. -/
def BulkableRequest.Source (E : EasyJSON) (r : BulkableRequest) :
    Except String (List String) × BulkableRequest :=
  match r with
  | BulkableRequest.index target doc => (encodingResult (indexLines "index" target doc), r)
  | BulkableRequest.create target doc => (encodingResult (indexLines "create" target doc), r)
  | BulkableRequest.delete target =>
    (Except.ok [jsonObject [("delete", jsonObject target.members)]], r)
  | BulkableRequest.update u =>
    (encodingResult (u.Source E).1, BulkableRequest.update (u.Source E).2)

/-- Modelled from the spec: `String()` of the `BulkableRequest` interface of
`bulk.go`, the lines joined by a newline as in `BulkUpdateRequest.String`. -/
def BulkableRequest.String (E : EasyJSON) (r : BulkableRequest) : String × BulkableRequest :=
  match r.Source E with
  | (Except.error err, r1) => ("error: " ++ err, r1)
  | (Except.ok lines, r1) => (stringsJoin lines "\n", r1)

/-- Modelled from the spec: the `BulkService` of `bulk.go`, "an ordered
sequence of BulkableAction" with the running "estimated size in bytes". -/
structure BulkService where
  requests : List BulkableRequest := []
  sizeInBytes : Nat := 0

/-- Modelled from the spec: a new, empty `BulkService` (`client.Bulk()` of `bulk.go`). -/
def NewBulkService : BulkService := {}

/-- Modelled from the spec: `estimateSizeInBytes` of `bulk.go`, the summand
"len(encode(action)) + 1" of `Add`, which the test states as
`1 + len(r.String())`. -/
def BulkService.estimateSizeInBytes (E : EasyJSON) (r : BulkableRequest) : Nat :=
  1 + len (r.String E).1

/-- Modelled from the spec: `Add` of `bulk.go`: "appends one action; recomputes
estimated_size += len(encode(action)) + 1", encoding at add-time so that the
lines are cached. -/
def BulkService.Add (E : EasyJSON) (s : BulkService) (r : BulkableRequest) : BulkService :=
  { requests := s.requests ++ [(r.String E).2],
    sizeInBytes := s.sizeInBytes + BulkService.estimateSizeInBytes E r }

/-- Modelled from the spec: `NumberOfActions` of `bulk.go`, the "count of
pending (not yet sent) actions". -/
def BulkService.NumberOfActions (s : BulkService) : Nat := s.requests.length

/-- Modelled from the spec: `EstimatedSizeInBytes` of `bulk.go`, the "running total". -/
def BulkService.EstimatedSizeInBytes (s : BulkService) : Nat := s.sizeInBytes

/-- Modelled from the spec: `Reset` of `bulk.go`: "discards all pending actions
and zeroes the size counter without sending". -/
def BulkService.Reset (_s : BulkService) : BulkService := { requests := [], sizeInBytes := 0 }

/-- Modelled from the spec: the inner loop of `bodyAsString` of `bulk.go`:
every line is written to the buffer "terminated by a single newline". -/
def writeLines (buf : String) : List String → String
  | [] => buf
  | line :: rest => writeLines (buf ++ line ++ "\n") rest

/-- Modelled from the spec: the outer loop of `bodyAsString` of `bulk.go` over
the actions "in insertion order"; an action that fails to encode ends the loop
with its error. The second component is the list of requests afterwards. -/
def bodyLoop (E : EasyJSON) (buf : String) :
    List BulkableRequest → Except String String × List BulkableRequest
  | [] => (Except.ok buf, [])
  | r :: rest =>
    match r.Source E with
    | (Except.error err, r1) => (Except.error err, r1 :: rest)
    | (Except.ok lines, r1) =>
      ((bodyLoop E (writeLines buf lines) rest).1, r1 :: (bodyLoop E (writeLines buf lines) rest).2)

/-- Modelled from the spec: `bodyAsString` of `bulk.go`, with the accumulator afterwards. -/
def BulkService.bodyAsString (E : EasyJSON) (s : BulkService) :
    Except String String × BulkService :=
  ((bodyLoop E "" s.requests).1, { s with requests := (bodyLoop E "" s.requests).2 })

/-- Modelled from the spec: `Do` of `bulk.go`: "builds the body, issues a POST
to the bulk endpoint, parses the response, and on success clears all pending
actions and resets the size counter"; a failure "leaves the accumulator
unchanged". `transport` is the exchange with the server including the parsing
of the response, `ρ` the type of the parsed response. -/
def BulkService.Do {ρ : Type} (E : EasyJSON) (transport : String → Except String ρ)
    (s : BulkService) : Except String ρ × BulkService :=
  match s.bodyAsString E with
  | (Except.error err, s1) => (Except.error err, s1)
  | (Except.ok body, s1) =>
    match transport body with
    | Except.error err => (Except.error err, s1)
    | Except.ok res => (Except.ok res, s1.Reset)

/-- All lines, each followed by one newline, in order. -/
def concatLines (lines : List String) : String :=
  lines.foldr (fun line acc => line ++ "\n" ++ acc) ""

/-- What `bodyAsString` returns as its string (the empty string on error). -/
def bodyLength (res : Except String String) : Nat :=
  match res with
  | Except.ok body => len body
  | Except.error _ => 0

/-! ### Sample requests -/

/-- Sample marshallers that write what easyjson generates for the command
types; an invalid text in the examples ends before its value is complete, for
which the scanner reports "unexpected end of JSON input". -/
def generatedEasyJSON : EasyJSON :=
  { commandMarshalJSON := fun command =>
      Except.ok (easyjsonObject (command.map (fun kv => (kv.1, easyjsonObject kv.2.members)))),
    dataMarshalJSON := easyjsonData,
    commandType := "*opensearch.bulkUpdateRequestCommand",
    dataType := "*opensearch.bulkUpdateRequestCommandData",
    syntaxError := fun _ => "unexpected end of JSON input" }

/-- The update request of `TestBulkIndexDeleteUpdate`, with a sample index name. -/
def update2Req : BulkUpdateRequest :=
  (((NewBulkUpdateRequest.Index "opensearch-test").Id "2").ReturnSource true).Doc
    (some (GoValue.object [("retweets", GoValue.int 42)]))

/-- A request with identity fields only, as built by `Index(..).Id("1")`. -/
def update1Req : BulkUpdateRequest :=
  (NewBulkUpdateRequest.Index "opensearch-test").Id "1"

/-- The request `update1Req` after a call of `Source()` has cached its lines. -/
def update1ReqCached : BulkUpdateRequest := (update1Req.Source generatedEasyJSON).2

/-- The request with the same field values and no cached lines. -/
def BulkUpdateRequest.fresh (r : BulkUpdateRequest) : BulkUpdateRequest :=
  { r with source := none }

/-- The marshallers are the generated ones: for the command of `Source` they
write `easyjsonCommand`, and for the data they write what `easyjsonData` gives,
return an error where it gives one, and panic where it panics. -/
def EasyJSON.Generated (E : EasyJSON) : Prop :=
  (∀ op, E.commandMarshalJSON [("update", op)] = Except.ok (easyjsonCommand op))
    ∧ (∀ data text, easyjsonData data = Except.ok text → E.dataMarshalJSON data = Except.ok text)
    ∧ (∀ data err, easyjsonData data = Except.error (Failure.error err) →
        ∃ err2, E.dataMarshalJSON data = Except.error (Failure.error err2))
    ∧ (∀ data value, easyjsonData data = Except.error (Failure.panic value) →
        E.dataMarshalJSON data = Except.error (Failure.panic value))

/-- Modelled from the spec: the accumulator after `Add` of each action in turn
(`bulk.go`). -/
def addAll (E : EasyJSON) (actions : List BulkableRequest) : BulkService :=
  actions.foldl (BulkService.Add E) NewBulkService

/-- The bytes a list of lines takes on the wire: each line and its newline. -/
def wireSize (lines : List String) : Nat := (lines.map (fun line => len line + 1)).sum

/-- The document `tweet1` of the tests, by its JSON members. -/
def tweet1 : GoValue :=
  GoValue.object [("user", GoValue.string "olivere"),
    ("message", GoValue.string "Welcome to Golang and Opensearch."),
    ("retweets", GoValue.int 0), ("created", GoValue.string "0001-01-01T00:00:00Z")]

/-- The document `tweet2` of the tests, by its JSON members. -/
def tweet2 : GoValue :=
  GoValue.object [("user", GoValue.string "sandrae"),
    ("message", GoValue.string "Dancing all night long. Yeah."),
    ("retweets", GoValue.int 0), ("created", GoValue.string "0001-01-01T00:00:00Z")]

/-- The batch of `TestBulkIndexDeleteUpdate`: index(id 1), create(id 2),
delete(id 1), update(id 2). -/
def sampleBatch : List BulkableRequest :=
  [ BulkableRequest.index { index := "opensearch-test", id := "1" } tweet1,
    BulkableRequest.create { index := "opensearch-test", id := "2" } tweet2,
    BulkableRequest.delete { index := "opensearch-test", id := "1" },
    BulkableRequest.update update2Req ]

/-- The wire lines of `sampleBatch`, action by action. -/
def sampleSources : List (List String) :=
  [ [ "\x7b\"index\":\x7b\"_index\":\"opensearch-test\",\"_id\":\"1\"\x7d\x7d",
      "\x7b\"user\":\"olivere\",\"message\":\"Welcome to Golang and Opensearch.\",\"retweets\":0,\"created\":\"0001-01-01T00:00:00Z\"\x7d" ],
    [ "\x7b\"create\":\x7b\"_index\":\"opensearch-test\",\"_id\":\"2\"\x7d\x7d",
      "\x7b\"user\":\"sandrae\",\"message\":\"Dancing all night long. Yeah.\",\"retweets\":0,\"created\":\"0001-01-01T00:00:00Z\"\x7d" ],
    [ "\x7b\"delete\":\x7b\"_index\":\"opensearch-test\",\"_id\":\"1\"\x7d\x7d" ],
    [ "\x7b\"update\":\x7b\"_index\":\"opensearch-test\",\"_id\":\"2\"\x7d\x7d",
      "\x7b\"doc\":\x7b\"retweets\":42\x7d,\"_source\":true\x7d" ] ]

/-- A transport that answers every request with the response `res`. -/
def respondingTransport (res : String) : String → Except String String :=
  fun _ => Except.ok res

/-- A transport that fails with a connection error. -/
def failingTransport : String → Except String String :=
  fun _ => Except.error "connection refused"

/-- The marshalling of an optional `interface{}` value panics. -/
def marshalPanics (v : Option GoValue) : Prop :=
  ∃ value, marshalOptional v = Except.error (Failure.panic value)

/-- The marshalling of an optional `interface{}` value returns an error. -/
def marshalRejected (v : Option GoValue) : Prop :=
  ∃ err, marshalOptional v = Except.error (Failure.error err)

/-- A request whose document is of a caller's type whose `MarshalJSON` panics. -/
def panickingDocReq : BulkUpdateRequest :=
  update1Req.Doc (some (GoValue.panicking "boom"))

/-! ### Sample operations and policies -/

/-- An operation that fails on every call; the error is the number of earlier
calls, which the world state counts. -/
def alwaysFails : Operation Nat Nat := fun s => (some s, s + 1)

/-- An operation that fails on its first `k` calls and then succeeds. -/
def failsFirst (k : Nat) : Operation Nat Nat :=
  fun s => (if s < k then some s else none, s + 1)

/-- A policy that refuses every retry. -/
def noRetries : Backoff Nat :=
  { Next := fun _ s => ((0, false), s) }

/-- A policy that allows `K` retries and waits 10 each time. -/
def maxRetries (K : Nat) : Backoff Nat :=
  { Next := fun n s => ((10, decide (n ≤ (K : Int))), s) }

/-- Whether an event is a call of the notify callback. -/
def Event.isNotify {ε : Type} : Event ε → Bool
  | Event.notify _ => true
  | _ => false

/-- Whether an event is a policy decision to continue. -/
def Event.isRetry {ε : Type} : Event ε → Bool
  | Event.next _ _ true => true
  | _ => false

/-- Number of calls of the notify callback in a trace. -/
def notifications {ε : Type} (t : List (Event ε)) : Nat := t.countP Event.isNotify

/-- Number of retries the policy granted in a trace. -/
def retries {ε : Type} (t : List (Event ε)) : Nat := t.countP Event.isRetry

/-- The shape of a run with a notify callback: every failed attempt that the
policy lets continue is followed by the policy decision, then exactly one
`notify` with the error of that attempt, then the sleep and the next attempt;
a success, or a failure on which the policy stops, ends the run without
`notify`. The empty trace is a run cut off by the fuel between two attempts. -/
inductive NotifyDiscipline {ε : Type} : List (Event ε) → Prop where
  | unfinished : NotifyDiscipline []
  | success : NotifyDiscipline [Event.call none]
  | stop (err : ε) (n wait : Int) :
      NotifyDiscipline [Event.call (some err), Event.next n wait false]
  | retry (err : ε) (n wait : Int) (rest : List (Event ε)) :
      NotifyDiscipline rest →
      NotifyDiscipline (Event.call (some err) :: Event.next n wait true :: Event.notify err
        :: Event.sleep wait :: rest)

/-- An operation on a state with a call counter and a log: it fails on every
call, the error being the number of earlier calls. -/
def loggedFailure : Operation (Nat × List Nat) Nat := fun s => (some s.1, (s.1 + 1, s.2))

/-- A policy on the same state that allows `K` retries and waits 10 each time. -/
def loggedMaxRetries (K : Nat) : Backoff (Nat × List Nat) :=
  { Next := fun n s => ((10, decide (n ≤ (K : Int))), s) }

/-- A notify callback that appends the error to the log. -/
def logError : Notify (Nat × List Nat) Nat := fun err s => (s.1, s.2 ++ [err])

/-- The members of the payload object of a request, given the encodings of its
doc, script and upsert (`none` where the value is absent). -/
def payloadMembers (r : BulkUpdateRequest) (dj sj uj : Option String) : List (String × String) :=
  omitEmptyBoolPtr "detect_noop" r.detectNoop
    ++ optionalMember "doc" dj
    ++ omitEmptyBoolPtr "doc_as_upsert" r.docAsUpsert
    ++ optionalMember "script" sj
    ++ omitEmptyBoolPtr "scripted_upsert" r.scriptedUpsert
    ++ optionalMember "upsert" uj
    ++ omitEmptyBoolPtr "_source" r.returnSource

/-- A request whose upsert document is a channel, which `encoding/json` rejects. -/
def badUpsertReq : BulkUpdateRequest :=
  update1Req.Upsert (some (GoValue.unsupported "chan int"))

/-- A script whose `Source()` fails. -/
def badScript : Script := { Source := Except.error "script: no source" }

/-- A request whose document is the pre-encoded JSON text `t`. -/
def rawDocReq (t : String) : BulkUpdateRequest :=
  NewBulkUpdateRequest.Doc (some (GoValue.string t))

/-- The request `Index(X).Id("2").ReturnSource(true).Doc(..)` with `retweets: 42`. -/
def updateReqFor (X : String) : BulkUpdateRequest :=
  (((NewBulkUpdateRequest.Index X).Id "2").ReturnSource true).Doc
    (some (GoValue.object [("retweets", GoValue.int 42)]))

/-- A script whose `Source()` is an object with the script text. -/
def sampleScript : Script :=
  { Source := Except.ok (some (GoValue.object [("source", GoValue.string "ctx.n++")])) }

/-- A request with every field set. -/
def fullUpdateReq : BulkUpdateRequest :=
  (((((((((((((((((NewBulkUpdateRequest.Index "i").Typ "t").Id "1").Routing "r").Parent "p").Script
    (some sampleScript)).ScriptedUpsert true).RetryOnConflict 3).Version 7).VersionType
    "external").IfSeqNo 5).IfPrimaryTerm 6).Doc (some (GoValue.object [("a", GoValue.int 1)]))).DocAsUpsert
    false).DetectNoop true).Upsert (some (GoValue.object [("b", GoValue.int 2)]))).ReturnSource true)

/-! ## errors.go

`*Error` values returned as `error` are `Option Error` (`none` is the nil
error). A panic is an error result with the message of the runtime. The
decoder `json.Unmarshal` is a parameter: the embedding fixes what the code does
with its result, not how `encoding/json` decodes. -/

/-- A decoded `interface{}` value; a number keeps its literal text. -/
inductive JSONValue where
  | null
  | bool (b : Bool)
  | number (text : String)
  | string (s : String)
  | array (elems : List JSONValue)
  | object (members : List (String × JSONValue))

/-- `type ScriptErrorPosition struct`. -/
structure ScriptErrorPosition where
  Offset : Int
  Start : Int
  End : Int

/-- `type ErrorDetails struct` (the field `Type` is `Typ` here); maps are the
lists of their entries, `none` is a nil map or pointer. -/
structure ErrorDetails where
  Typ : String
  Reason : String
  ResourceType : String
  ResourceId : String
  Index : String
  Phase : String
  Grouped : Bool
  CausedBy : Option (List (String × JSONValue))
  RootCause : List ErrorDetails
  Suppressed : List ErrorDetails
  FailedShards : List (List (String × JSONValue))
  Header : Option (List (String × JSONValue))
  ScriptStack : List String
  Script : String
  Lang : String
  Position : Option ScriptErrorPosition

/-- The zero value `ErrorDetails{}`. -/
def zeroErrorDetails : ErrorDetails :=
  { Typ := "", Reason := "", ResourceType := "", ResourceId := "", Index := "", Phase := "",
    Grouped := false, CausedBy := none, RootCause := [], Suppressed := [], FailedShards := [],
    Header := none, ScriptStack := [], Script := "", Lang := "", Position := none }

/-- `type Error struct`. -/
structure Error where
  Status : Int
  Details : Option ErrorDetails

/-- An `*http.Request`; `checkResponse` does not look at it. -/
structure Request where
  Method : String
  URL : String

/-- The part of `http.Response` the code reads. `Body = none` is the nil body;
otherwise `Body` holds what `io.ReadAll(res.Body)` returns, the remaining data
or a read error. -/
structure Response where
  StatusCode : Int
  Body : Option (Except String String)

/-- The decoder: `Unmarshal data` is the outcome of
`json.Unmarshal(data, errReply)` for `errReply = new(Error)`, the filled-in
`Error` or the decoder's error. -/
structure Decoder where
  Unmarshal : String → Except String Error

/-- `func createResponseError(res *http.Response) error`, with the response
afterwards (a body that was read is used up). The result is never nil. -/
def createResponseError (D : Decoder) (res : Response) : Error × Response :=
  match res.Body with
  | none => ({ Status := res.StatusCode, Details := none }, res)
  | some (Except.error _) => ({ Status := res.StatusCode, Details := none }, res)
  | some (Except.ok data) =>
    let res1 : Response := { res with Body := some (Except.ok "") }
    match D.Unmarshal data with
    | Except.error _ => ({ Status := res.StatusCode, Details := none }, res1)
    | Except.ok errReply =>
      if errReply.Status = 0 then ({ errReply with Status := res.StatusCode }, res1)
      else (errReply, res1)

/-- The loop `for _, code := range ignoreErrors` of `checkResponse`: whether
it returns nil. -/
def ignored (statusCode : Int) : List Int → Bool
  | [] => false
  | code :: rest => if code = statusCode then true else ignored statusCode rest

/-- `func checkResponse(req *http.Request, res *http.Response, ignoreErrors ...int) error`,
with the response afterwards; `none` is the nil error. -/
def checkResponse (D : Decoder) (_req : Request) (res : Response) (ignoreErrors : List Int) :
    Option Error × Response :=
  if res.StatusCode ≥ 200 ∧ res.StatusCode ≤ 299 then (none, res)
  else if ignored res.StatusCode ignoreErrors then (none, res)
  else (some (createResponseError D res).1, (createResponseError D res).2)

/-- `http.StatusText(code)`: the table of `net/http`. -/
def StatusText (code : Int) : String :=
  match code with
  | 100 => "Continue" | 101 => "Switching Protocols" | 102 => "Processing"
  | 103 => "Early Hints"
  | 200 => "OK" | 201 => "Created" | 202 => "Accepted"
  | 203 => "Non-Authoritative Information" | 204 => "No Content" | 205 => "Reset Content"
  | 206 => "Partial Content" | 207 => "Multi-Status" | 208 => "Already Reported"
  | 226 => "IM Used"
  | 300 => "Multiple Choices" | 301 => "Moved Permanently" | 302 => "Found"
  | 303 => "See Other" | 304 => "Not Modified" | 305 => "Use Proxy"
  | 307 => "Temporary Redirect" | 308 => "Permanent Redirect"
  | 400 => "Bad Request" | 401 => "Unauthorized" | 402 => "Payment Required"
  | 403 => "Forbidden" | 404 => "Not Found" | 405 => "Method Not Allowed"
  | 406 => "Not Acceptable" | 407 => "Proxy Authentication Required"
  | 408 => "Request Timeout" | 409 => "Conflict" | 410 => "Gone"
  | 411 => "Length Required" | 412 => "Precondition Failed"
  | 413 => "Request Entity Too Large" | 414 => "Request URI Too Long"
  | 415 => "Unsupported Media Type" | 416 => "Requested Range Not Satisfiable"
  | 417 => "Expectation Failed" | 418 => "I\x27m a teapot" | 421 => "Misdirected Request"
  | 422 => "Unprocessable Entity" | 423 => "Locked" | 424 => "Failed Dependency"
  | 425 => "Too Early" | 426 => "Upgrade Required" | 428 => "Precondition Required"
  | 429 => "Too Many Requests" | 431 => "Request Header Fields Too Large"
  | 451 => "Unavailable For Legal Reasons"
  | 500 => "Internal Server Error" | 501 => "Not Implemented" | 502 => "Bad Gateway"
  | 503 => "Service Unavailable" | 504 => "Gateway Timeout"
  | 505 => "HTTP Version Not Supported" | 506 => "Variant Also Negotiates"
  | 507 => "Insufficient Storage" | 508 => "Loop Detected" | 510 => "Not Extended"
  | 511 => "Network Authentication Required"
  | _ => ""

/-- `func (e *Error) Error() string`, for a non-nil `e`. -/
def Error.Error (e : Error) : String :=
  match e.Details with
  | some details =>
    if details.Reason ≠ "" then
      "opensearch: Error " ++ toString e.Status ++ " (" ++ StatusText e.Status ++ "): "
        ++ details.Reason ++ " [type=" ++ details.Typ ++ "]"
    else "opensearch: Error " ++ toString e.Status ++ " (" ++ StatusText e.Status ++ ")"
  | none => "opensearch: Error " ++ toString e.Status ++ " (" ++ StatusText e.Status ++ ")"

/-- The values handed to `IsStatusCode` as `interface{}`, by dynamic type;
`none` under a pointer type is the nil pointer of that type. -/
inductive Dynamic where
  /-- The nil interface. -/
  | nil
  | responsePtr (p : Option Response)
  | errorPtr (p : Option Error)
  | error (e : Error)
  | int (n : Int)
  | string (s : String)
  /-- A value of any other type, named by `typ`. -/
  | other (typ : String)

/-- The message of the panic raised by a field access through a nil pointer. -/
def nilDereference : String :=
  "runtime error: invalid memory address or nil pointer dereference"

/-- `func IsStatusCode(err interface{}, code int) bool`; an error result is a panic. -/
def IsStatusCode (err : Dynamic) (code : Int) : Except String Bool :=
  match err with
  | Dynamic.responsePtr (some e) => Except.ok (decide (e.StatusCode = code))
  | Dynamic.responsePtr none => Except.error nilDereference
  | Dynamic.errorPtr (some e) => Except.ok (decide (e.Status = code))
  | Dynamic.errorPtr none => Except.error nilDereference
  | Dynamic.error e => Except.ok (decide (e.Status = code))
  | Dynamic.int e => Except.ok (decide (e = code))
  | _ => Except.ok false

/-- `http.StatusNotFound` and the other status constants used. -/
def StatusNotFound : Int := 404

def StatusRequestTimeout : Int := 408

def StatusConflict : Int := 409

def StatusUnauthorized : Int := 401

def StatusForbidden : Int := 403

def IsNotFound (err : Dynamic) : Except String Bool := IsStatusCode err StatusNotFound

def IsTimeout (err : Dynamic) : Except String Bool := IsStatusCode err StatusRequestTimeout

def IsConflict (err : Dynamic) : Except String Bool := IsStatusCode err StatusConflict

def IsUnauthorized (err : Dynamic) : Except String Bool := IsStatusCode err StatusUnauthorized

def IsForbidden (err : Dynamic) : Except String Bool := IsStatusCode err StatusForbidden

/-- Whether a value is a nil pointer of type `*http.Response` or `*Error`. -/
def Dynamic.isNilPointer : Dynamic → Bool
  | Dynamic.responsePtr none => true
  | Dynamic.errorPtr none => true
  | _ => false

/-- The status a value carries for `IsStatusCode`: the `StatusCode` of a
response, the `Status` of an error, or the integer itself. -/
def Dynamic.status : Dynamic → Option Int
  | Dynamic.responsePtr (some e) => some e.StatusCode
  | Dynamic.errorPtr (some e) => some e.Status
  | Dynamic.error e => some e.Status
  | Dynamic.int n => some n
  | _ => none

/-! ### Sample responses -/

/-- The body of the response of `TestResponseError`. -/
def notFoundBody : String :=
  "\x7b\"error\":\x7b\"root_cause\":[\x7b\"type\":\"index_missing_exception\",\"reason\":\"no such index\",\"index\":\"opensearch-test\"\x7d],\"type\":\"index_missing_exception\",\"reason\":\"no such index\",\"index\":\"opensearch-test\"\x7d,\"status\":404\x7d"

/-- The error details that body decodes to. -/
def notFoundDetails : ErrorDetails :=
  { zeroErrorDetails with
    Typ := "index_missing_exception", Reason := "no such index", Index := "opensearch-test",
    RootCause := [{ zeroErrorDetails with
      Typ := "index_missing_exception", Reason := "no such index", Index := "opensearch-test" }] }

/-- The body of the response of `TestResponseErrorHTML`. -/
def htmlBody : String :=
  "<html>\n<head><title>413 Request Entity Too Large</title></head>\n<body bgcolor=\"white\">\n<center><h1>413 Request Entity Too Large</h1></center>\n<hr><center>nginx/1.6.2</center>\n</body>\n</html>"

/-- What `json.Unmarshal` into an `Error` yields on the documents of the
examples: a text that is not JSON is rejected; of the JSON documents, the error
reply of `TestResponseError`, a document with only a status, and the document
of `TestResponseErrorWithIgnore` (no field of `Error` in it) are covered. -/
def sampleDecoder : Decoder :=
  { Unmarshal := fun data =>
      match compact data with
      | none => Except.error "invalid character looking for beginning of value"
      | some _ =>
        if data = notFoundBody then Except.ok { Status := 404, Details := some notFoundDetails }
        else if data = "\x7b\"status\":500\x7d" then Except.ok { Status := 500, Details := none }
        else if data = "\x7b\"some\":\"response\"\x7d" then
          Except.ok { Status := 0, Details := none }
        else Except.error "document not among the examples" }

/-- The details of a version conflict. -/
def conflictDetails : ErrorDetails :=
  { zeroErrorDetails with Typ := "version_conflict_engine_exception", Reason := "conflict" }

/-- A 409 error with those details. -/
def conflictError : Error := { Status := 409, Details := some conflictDetails }

/-- The request of the tests. -/
def sampleRequest : Request := { Method := "GET", URL := "/" }

/-- A response with the given status and body text. -/
def responseWith (statusCode : Int) (body : String) : Response :=
  { StatusCode := statusCode, Body := some (Except.ok body) }

/-! ## The bulk response

The response types and their accessors live in `bulk.go`, which is not among
the sources at hand; they are taken from the specification. -/

/-- Modelled from the spec: the "embedded fetched-document result" of an update
item (`"get": {"_source": ..., "found": bool}`), declared in `bulk.go`. -/
structure GetResult where
  Found : Bool
  Source : Option String

/-- Modelled from the spec: `BulkResponseItem` of `bulk.go`, one result "per
submitted action": index, id, version, sequence number and primary term as
reported by the server, the status code, the optional structured error and the
optional fetched document. -/
structure BulkResponseItem where
  Index : String := ""
  Id : String := ""
  Version : Int := 0
  Result : String := ""
  SeqNo : Int := 0
  PrimaryTerm : Int := 0
  Status : Int := 0
  Error : Option ErrorDetails := none
  GetResult : Option GetResult := none

/-- Modelled from the spec: `BulkResponse` of `bulk.go`: `took`, the `errors`
flag and the ordered `items`, "each holding exactly one of
index/create/delete/update keyed sub-objects": an item is the pair of its key
and its sub-object. -/
structure BulkResponse where
  Took : Int := 0
  Errors : Bool := false
  Items : List (String × BulkResponseItem) := []

/-- Modelled from the spec: the success rule of `bulk.go`, "status is in [200,299]". -/
def statusSucceeded (status : Int) : Bool := decide (200 ≤ status ∧ status ≤ 299)

/-- Modelled from the spec: the loop shared by the accessors of `bulk.go`:
walk the items in order and collect the results that `keep` selects. -/
def collectItems (keep : String × BulkResponseItem → Bool) :
    List (String × BulkResponseItem) → List BulkResponseItem → List BulkResponseItem
  | [], acc => acc
  | item :: rest, acc => collectItems keep rest (if keep item then acc ++ [item.2] else acc)

/-- Modelled from the spec: `ById` of `bulk.go`: "all items (index-preserving
order) whose target document id equals the given id". -/
def BulkResponse.ById (r : BulkResponse) (id : String) : List BulkResponseItem :=
  collectItems (fun item => decide (item.2.Id = id)) r.Items []

/-- Modelled from the spec: `Succeeded` of `bulk.go`: the items whose "status
is in [200,299]". -/
def BulkResponse.Succeeded (r : BulkResponse) : List BulkResponseItem :=
  collectItems (fun item => statusSucceeded item.2.Status) r.Items []

/-- Modelled from the spec: `Failed` of `bulk.go`: the "complement of
Succeeded()", the items "with status outside the success range". -/
def BulkResponse.Failed (r : BulkResponse) : List BulkResponseItem :=
  collectItems (fun item => !statusSucceeded item.2.Status) r.Items []

/-- Modelled from the spec: the accessors `Indexed`, `Created`, `Deleted` and
`Updated` of `bulk.go` "filter by the action-kind key present in each item". -/
def BulkResponse.byAction (r : BulkResponse) (action : String) : List BulkResponseItem :=
  collectItems (fun item => decide (item.1 = action)) r.Items []

/-- The results of a response in the order of its items. -/
def BulkResponse.results (r : BulkResponse) : List BulkResponseItem := r.Items.map Prod.snd

/-- The response of `TestFailedBulkRequests`, as decoded: index 201, create 423
with an error, delete 404, update 200. -/
def failedFixture : BulkResponse :=
  { Took := 2, Errors := true,
    Items :=
      [ ("index", { Index := "opensearch-test", Id := "1", Version := 1, Status := 201 }),
        ("create",
          { Index := "opensearch-test", Id := "2", Version := 1, Status := 423,
            Error := some { zeroErrorDetails with
              Typ := "routing_missing_exception",
              Reason := "routing is required for [opensearch-test2]/[comment]/[1]" } }),
        ("delete", { Index := "opensearch-test", Id := "1", Version := 2, Status := 404 }),
        ("update", { Index := "opensearch-test", Id := "2", Version := 2, Status := 200 }) ] }

/-- A response to the batch index(1), create(2), delete(1), update(2): the
document with id 1 is indexed (201, version 1) and later deleted (200, version 2). -/
def correlationFixture : BulkResponse :=
  { Took := 3, Errors := false,
    Items :=
      [ ("index",
          { Index := "opensearch-test", Id := "1", Version := 1, Status := 201,
            Result := "created" }),
        ("create",
          { Index := "opensearch-test", Id := "2", Version := 1, Status := 201,
            Result := "created" }),
        ("delete",
          { Index := "opensearch-test", Id := "1", Version := 2, Status := 200,
            Result := "deleted" }),
        ("update",
          { Index := "opensearch-test", Id := "2", Version := 2, Status := 200,
            Result := "updated" }) ] }

/-! ### Values of the `error` interface -/

/-- The values of the `error` interface the code distinguishes, by dynamic type. -/
inductive GoError where
  /-- The nil interface. -/
  | nil
  /-- `context.Canceled`. -/
  | contextCanceled
  /-- `context.DeadlineExceeded`. -/
  | contextDeadlineExceeded
  /-- An `*Error`; `none` is the nil pointer. -/
  | errorPtr (p : Option Error)
  /-- The nil pointer of type `*url.Error`. -/
  | urlErrorNil
  /-- A non-nil `*url.Error` with its fields `Op`, `URL` and `Err`. -/
  | urlError (op : String) (url : String) (err : GoError)
  /-- An error of any other type; `temporary` is what its method
  `Temporary() bool` returns, `none` if the type has no such method. -/
  | other (msg : String) (temporary : Option Bool)

/-- The method `Temporary() bool` of an error value: `none` if its type has no
such method, otherwise the result, an error result being a panic.
`context.DeadlineExceeded` is temporary, `*url.Error` asks the error it wraps. -/
def GoError.methodTemporary : GoError → Option (Except String Bool)
  | GoError.contextDeadlineExceeded => some (Except.ok true)
  | GoError.urlErrorNil => some (Except.error nilDereference)
  | GoError.urlError _ _ err =>
    match err.methodTemporary with
    | none => some (Except.ok false)
    | some res => some res
  | GoError.other _ (some b) => some (Except.ok b)
  | _ => none

/-- `func ErrorReason(err error) string`. -/
def ErrorReason (err : GoError) : String :=
  match err with
  | GoError.errorPtr (some e) =>
    match e.Details with
    | none => ""
    | some details => details.Reason
  | _ => ""

/-- `func IsContextErr(err error) bool`; an error result is a panic. -/
def IsContextErr : GoError → Except String Bool
  | GoError.contextCanceled => Except.ok true
  | GoError.contextDeadlineExceeded => Except.ok true
  | GoError.urlErrorNil => Except.error nilDereference
  | GoError.urlError _ _ err =>
    match err.methodTemporary with
    | some (Except.error msg) => Except.error msg
    | some (Except.ok true) => Except.ok true
    | _ => IsContextErr err
  | _ => Except.ok false

/-- The error at the end of a chain of `*url.Error` values. -/
def GoError.innermost : GoError → GoError
  | GoError.urlError _ _ err => err.innermost
  | err => err

/-- Whether the value is `context.Canceled` or `context.DeadlineExceeded`. -/
def GoError.isContext : GoError → Bool
  | GoError.contextCanceled => true
  | GoError.contextDeadlineExceeded => true
  | _ => false

/-- Whether the value is a non-nil `*url.Error`. -/
def GoError.isUrlError : GoError → Bool
  | GoError.urlError _ _ _ => true
  | _ => false

/-- Whether the value is a context error, possibly wrapped in (nested)
`*url.Error` values. -/
def GoError.wrapsContext (err : GoError) : Bool := err.innermost.isContext

/-- Whether the value is a nil `*url.Error`, possibly wrapped in `*url.Error` values. -/
def GoError.wrapsNilUrlError : GoError → Bool
  | GoError.urlErrorNil => true
  | GoError.urlError _ _ err => err.wrapsNilUrlError
  | _ => false

/-- Whether the method `Temporary()` of the value exists and returns true. -/
def GoError.isTemporary (err : GoError) : Bool :=
  match err.methodTemporary with
  | some (Except.ok true) => true
  | _ => false

/-- A temporary network error wrapped in a `*url.Error`, as a failed request yields. -/
def temporaryUrlError : GoError :=
  GoError.urlError "Get" "http://127.0.0.1:9200/" (GoError.other "i/o timeout" (some true))

/-- `context.Canceled` wrapped twice in `*url.Error`. -/
def wrappedCanceled : GoError :=
  GoError.urlError "Get" "http://127.0.0.1:9200/"
    (GoError.urlError "Get" "http://127.0.0.1:9200/" GoError.contextCanceled)

/-! ### Cancellation and shared state in the retry loop -/

/-- An operation whose context is cancelled: every call returns
`context.Canceled`; the world state counts the calls. -/
def canceledOperation : Operation Nat GoError :=
  fun s => (some GoError.contextCanceled, s + 1)

/-- An operation that fails as long as the flag in the world state is 0. -/
def failsUntilFlag : Operation Nat Nat := fun s => (if s = 0 then some 7 else none, s)

/-- A notify callback that sets the flag the operation `failsUntilFlag` reads. -/
def setFlag : Notify Nat Nat := fun _ _ => 1

/-- Whether an event is a failed invocation of the operation. -/
def Event.isFailure {ε : Type} : Event ε → Bool
  | Event.call (some _) => true
  | _ => false

/-- Number of failed invocations in a trace. -/
def failures {ε : Type} (t : List (Event ε)) : Nat := t.countP Event.isFailure

/-- The attempt counts the policy was queried with, in order. -/
def queriedCounts {ε : Type} : List (Event ε) → List Int
  | [] => []
  | Event.next n _ _ :: t => n :: queriedCounts t
  | _ :: t => queriedCounts t

/-- The trace without the calls of the notify callback. -/
def withoutNotify {ε : Type} (t : List (Event ε)) : List (Event ε) :=
  t.filter (fun e => !e.isNotify)

/-- A policy that always allows a retry, waiting 10. -/
def alwaysRetry : Backoff Nat :=
  { Next := fun _ s => ((10, true), s) }

/-- A request whose upsert document is the JSON text `t`, given as a string. -/
def stringUpsertReq (t : String) : BulkUpdateRequest :=
  update1Req.Upsert (some (GoValue.string t))

/-! ## transform_put_job.go -/

/-- `url.Values`: the values of each key. -/
abbrev UrlValues := List (String × List String)

/-- `func (v Values) Set(key, value string)`: replaces the values of the key. -/
def UrlValues.Set (v : UrlValues) (key value : String) : UrlValues :=
  v.filter (fun kv => kv.1 ≠ key) ++ [(key, [value])]

/-- `fmt.Sprint` of a bool. -/
def sprintBool (b : Bool) : String := if b then "true" else "false"

/-- The fields of `TransformPutJobService` that `buildURL` and `Validate` read;
under a pointer type `none` is nil, and `body = none` is the nil interface. -/
structure TransformPutJobService where
  pretty : Option Bool := none
  human : Option Bool := none
  errorTrace : Option Bool := none
  filterPath : List String := []
  name : String := ""
  body : Option GoValue := none
  sequenceNumber : Option Int := none
  primaryTerm : Option Int := none

/-- `func NewTransformPutJobService(client *Client) *TransformPutJobService`. -/
def NewTransformPutJobService : TransformPutJobService := {}

def TransformPutJobService.Pretty (s : TransformPutJobService) (pretty : Bool) :
    TransformPutJobService :=
  { s with pretty := some pretty }

def TransformPutJobService.Human (s : TransformPutJobService) (human : Bool) :
    TransformPutJobService :=
  { s with human := some human }

def TransformPutJobService.ErrorTrace (s : TransformPutJobService) (errorTrace : Bool) :
    TransformPutJobService :=
  { s with errorTrace := some errorTrace }

def TransformPutJobService.FilterPath (s : TransformPutJobService) (filterPath : List String) :
    TransformPutJobService :=
  { s with filterPath := filterPath }

def TransformPutJobService.Name (s : TransformPutJobService) (name : String) :
    TransformPutJobService :=
  { s with name := name }

def TransformPutJobService.Body (s : TransformPutJobService) (body : Option GoValue) :
    TransformPutJobService :=
  { s with body := body }

def TransformPutJobService.SequenceNumber (s : TransformPutJobService) (seqNum : Int) :
    TransformPutJobService :=
  { s with sequenceNumber := some seqNum }

def TransformPutJobService.PrimaryTerm (s : TransformPutJobService) (primaryTerm : Int) :
    TransformPutJobService :=
  { s with primaryTerm := some primaryTerm }

/-- `func (s *TransformPutJobService) buildURL() (string, url.Values, error)`.
`expand` is `uritemplates.Expand`, a package that is not part of the sources at
hand; the map literal handed to it is listed in the order it is written. The
error case returns the empty path and empty values along with the error. -/
def TransformPutJobService.buildURL
    (expand : String → List (String × String) → Except String String)
    (s : TransformPutJobService) : Except String (String × UrlValues) :=
  let expanded : Except String String :=
    match s.primaryTerm, s.sequenceNumber with
    | some primaryTerm, some sequenceNumber =>
      expand "/_plugins/_transform/\x7bname\x7d?if_seq_no=\x7bseqNum\x7d&if_primary_term=\x7bpriTerm\x7d"
        [("name", s.name), ("seqNum", toString sequenceNumber),
          ("priTerm", toString primaryTerm)]
    | _, _ => expand "/_plugins/_transform/\x7bname\x7d" [("name", s.name)]
  match expanded with
  | Except.error err => Except.error err
  | Except.ok path =>
    let params : UrlValues := []
    let params := match s.pretty with
      | some v => params.Set "pretty" (sprintBool v)
      | none => params
    let params := match s.human with
      | some v => params.Set "human" (sprintBool v)
      | none => params
    let params := match s.errorTrace with
      | some v => params.Set "error_trace" (sprintBool v)
      | none => params
    let params :=
      if s.filterPath.length > 0 then params.Set "filter_path" (stringsJoin s.filterPath ",")
      else params
    Except.ok (path, params)

/-- `func (s *TransformPutJobService) Validate() error`; `none` is nil, otherwise
the message of the error; `%v` writes a slice of strings between brackets,
separated by blanks. -/
def TransformPutJobService.Validate (s : TransformPutJobService) : Option String :=
  let invalid : List String := []
  let invalid := if s.name = "" then invalid ++ ["Name"] else invalid
  let invalid := if s.body.isNone then invalid ++ ["Body"] else invalid
  if invalid.length > 0 then
    some ("missing required fields: [" ++ stringsJoin invalid " " ++ "]")
  else none

/-- The scan of a template by the sample expander: `var` holds the reversed
name of the expression being read, if any. -/
def substituteLoop (values : List (String × String)) :
    Option (List Char) → List Char → Except String (List Char)
  | none, [] => Except.ok []
  | some _, [] => Except.error "unterminated expression"
  | none, c :: rest =>
    if c = '\x7b' then substituteLoop values (some []) rest
    else
      match substituteLoop values none rest with
      | Except.ok out => Except.ok (c :: out)
      | Except.error err => Except.error err
  | some var, c :: rest =>
    if c = '\x7d' then
      match substituteLoop values none rest with
      | Except.ok out =>
        Except.ok (((values.lookup (String.mk var.reverse)).getD "").data ++ out)
      | Except.error err => Except.error err
    else substituteLoop values (some (c :: var)) rest

/-- A sample expander of URI templates: every expression between braces is
replaced by the value of the variable, unescaped, which is what
`uritemplates.Expand` yields for values of unreserved characters. -/
def substitute (template : String) (values : List (String × String)) : Except String String :=
  match substituteLoop values none template.data with
  | Except.ok out => Except.ok (String.mk out)
  | Except.error err => Except.error err

/-- The service of the last case of `TestTransformPutJobBuildURL`. -/
def putJobService : TransformPutJobService :=
  (((NewTransformPutJobService.Name "my-job").Body (some (GoValue.string "\x7b\x7d"))).SequenceNumber
    10).PrimaryTerm 1

/-! ## Pipeline aggregations

`search_aggs_pipeline_derivative.go`, `search_aggs_pipeline_min_bucket.go`,
`search_aggs_pipeline_serial_diff.go`, `search_aggs_pipeline_cumulative_sum.go` -/

/-- A `map[string]interface{}`, held by ascending key, which is the order in
which `encoding/json` writes the entries of a map. -/
abbrev GoMap := List (String × GoValue)

/-- The assignment `m[key] = v` on a map with string keys, held by ascending key. -/
def mapSet {α : Type} (m : List (String × α)) (key : String) (v : α) : List (String × α) :=
  match m with
  | [] => [(key, v)]
  | (k, x) :: rest =>
    if key.data < k.data then (key, v) :: (k, x) :: rest
    else if key = k then (key, v) :: rest
    else (k, x) :: mapSet rest key v

structure DerivativeAggregation where
  format : String := ""
  gapPolicy : String := ""
  unit : String := ""
  meta : GoMap := []
  bucketsPaths : List String := []

structure MinBucketAggregation where
  format : String := ""
  gapPolicy : String := ""
  meta : GoMap := []
  bucketsPaths : List String := []

structure SerialDiffAggregation where
  format : String := ""
  gapPolicy : String := ""
  lag : Option Int := none
  meta : GoMap := []
  bucketsPaths : List String := []

structure CumulativeSumAggregation where
  format : String := ""
  meta : GoMap := []
  bucketsPaths : List String := []

def NewDerivativeAggregation : DerivativeAggregation := { bucketsPaths := [] }

def NewMinBucketAggregation : MinBucketAggregation := { bucketsPaths := [] }

def NewSerialDiffAggregation : SerialDiffAggregation := { bucketsPaths := [] }

def NewCumulativeSumAggregation : CumulativeSumAggregation := { bucketsPaths := [] }

def DerivativeAggregation.Format (a : DerivativeAggregation) (format : String) :
    DerivativeAggregation :=
  { a with format := format }

def DerivativeAggregation.GapPolicy (a : DerivativeAggregation) (gapPolicy : String) :
    DerivativeAggregation :=
  { a with gapPolicy := gapPolicy }

def DerivativeAggregation.Unit (a : DerivativeAggregation) (unit : String) :
    DerivativeAggregation :=
  { a with unit := unit }

def DerivativeAggregation.Meta (a : DerivativeAggregation) (metaData : GoMap) :
    DerivativeAggregation :=
  { a with meta := metaData }

/-- `func (a *DerivativeAggregation) BucketsPath(bucketsPaths ...string)`. -/
def DerivativeAggregation.BucketsPath (a : DerivativeAggregation) (bucketsPaths : List String) :
    DerivativeAggregation :=
  { a with bucketsPaths := a.bucketsPaths ++ bucketsPaths }

def MinBucketAggregation.Format (a : MinBucketAggregation) (format : String) :
    MinBucketAggregation :=
  { a with format := format }

def MinBucketAggregation.GapPolicy (a : MinBucketAggregation) (gapPolicy : String) :
    MinBucketAggregation :=
  { a with gapPolicy := gapPolicy }

def MinBucketAggregation.Meta (a : MinBucketAggregation) (metaData : GoMap) :
    MinBucketAggregation :=
  { a with meta := metaData }

/-- `func (a *MinBucketAggregation) BucketsPath(bucketsPaths ...string)`. -/
def MinBucketAggregation.BucketsPath (a : MinBucketAggregation) (bucketsPaths : List String) :
    MinBucketAggregation :=
  { a with bucketsPaths := a.bucketsPaths ++ bucketsPaths }

def SerialDiffAggregation.Format (a : SerialDiffAggregation) (format : String) :
    SerialDiffAggregation :=
  { a with format := format }

def SerialDiffAggregation.GapPolicy (a : SerialDiffAggregation) (gapPolicy : String) :
    SerialDiffAggregation :=
  { a with gapPolicy := gapPolicy }

def SerialDiffAggregation.Lag (a : SerialDiffAggregation) (lag : Int) : SerialDiffAggregation :=
  { a with lag := some lag }

def SerialDiffAggregation.Meta (a : SerialDiffAggregation) (metaData : GoMap) :
    SerialDiffAggregation :=
  { a with meta := metaData }

/-- `func (a *SerialDiffAggregation) BucketsPath(bucketsPaths ...string)`. -/
def SerialDiffAggregation.BucketsPath (a : SerialDiffAggregation) (bucketsPaths : List String) :
    SerialDiffAggregation :=
  { a with bucketsPaths := a.bucketsPaths ++ bucketsPaths }

def CumulativeSumAggregation.Format (a : CumulativeSumAggregation) (format : String) :
    CumulativeSumAggregation :=
  { a with format := format }

def CumulativeSumAggregation.Meta (a : CumulativeSumAggregation) (metaData : GoMap) :
    CumulativeSumAggregation :=
  { a with meta := metaData }

/-- `func (a *CumulativeSumAggregation) BucketsPath(bucketsPaths ...string)`. -/
def CumulativeSumAggregation.BucketsPath (a : CumulativeSumAggregation)
    (bucketsPaths : List String) : CumulativeSumAggregation :=
  { a with bucketsPaths := a.bucketsPaths ++ bucketsPaths }

/-- `func (a *DerivativeAggregation) Source() (interface{}, error)`. -/
def DerivativeAggregation.Source (a : DerivativeAggregation) : Except String GoValue :=
  let params : GoMap := []
  let params := if a.format ≠ "" then mapSet params "format" (GoValue.string a.format) else params
  let params :=
    if a.gapPolicy ≠ "" then mapSet params "gap_policy" (GoValue.string a.gapPolicy) else params
  let params := if a.unit ≠ "" then mapSet params "unit" (GoValue.string a.unit) else params
  let params :=
    match a.bucketsPaths with
    | [] => params
    | [path] => mapSet params "buckets_path" (GoValue.string path)
    | paths => mapSet params "buckets_path" (GoValue.array (paths.map GoValue.string))
  let source : GoMap := mapSet [] "derivative" (GoValue.object params)
  let source :=
    if a.meta.length > 0 then mapSet source "meta" (GoValue.object a.meta) else source
  Except.ok (GoValue.object source)

/-- `func (a *MinBucketAggregation) Source() (interface{}, error)`. -/
def MinBucketAggregation.Source (a : MinBucketAggregation) : Except String GoValue :=
  let params : GoMap := []
  let params := if a.format ≠ "" then mapSet params "format" (GoValue.string a.format) else params
  let params :=
    if a.gapPolicy ≠ "" then mapSet params "gap_policy" (GoValue.string a.gapPolicy) else params
  let params :=
    match a.bucketsPaths with
    | [] => params
    | [path] => mapSet params "buckets_path" (GoValue.string path)
    | paths => mapSet params "buckets_path" (GoValue.array (paths.map GoValue.string))
  let source : GoMap := mapSet [] "min_bucket" (GoValue.object params)
  let source :=
    if a.meta.length > 0 then mapSet source "meta" (GoValue.object a.meta) else source
  Except.ok (GoValue.object source)

/-- `func (a *SerialDiffAggregation) Source() (interface{}, error)`. -/
def SerialDiffAggregation.Source (a : SerialDiffAggregation) : Except String GoValue :=
  let params : GoMap := []
  let params := if a.format ≠ "" then mapSet params "format" (GoValue.string a.format) else params
  let params :=
    if a.gapPolicy ≠ "" then mapSet params "gap_policy" (GoValue.string a.gapPolicy) else params
  let params :=
    match a.lag with
    | some lag => mapSet params "lag" (GoValue.int lag)
    | none => params
  let params :=
    match a.bucketsPaths with
    | [] => params
    | [path] => mapSet params "buckets_path" (GoValue.string path)
    | paths => mapSet params "buckets_path" (GoValue.array (paths.map GoValue.string))
  let source : GoMap := mapSet [] "serial_diff" (GoValue.object params)
  let source :=
    if a.meta.length > 0 then mapSet source "meta" (GoValue.object a.meta) else source
  Except.ok (GoValue.object source)

/-- `func (a *CumulativeSumAggregation) Source() (interface{}, error)`. -/
def CumulativeSumAggregation.Source (a : CumulativeSumAggregation) : Except String GoValue :=
  let params : GoMap := []
  let params := if a.format ≠ "" then mapSet params "format" (GoValue.string a.format) else params
  let params :=
    match a.bucketsPaths with
    | [] => params
    | [path] => mapSet params "buckets_path" (GoValue.string path)
    | paths => mapSet params "buckets_path" (GoValue.array (paths.map GoValue.string))
  let source : GoMap := mapSet [] "cumulative_sum" (GoValue.object params)
  let source :=
    if a.meta.length > 0 then mapSet source "meta" (GoValue.object a.meta) else source
  Except.ok (GoValue.object source)

/-- The entry `"buckets_path"` of the object that a source holds under `name`,
if there is one. -/
def bucketsPathOf (name : String) (source : Except String GoValue) : Option GoValue :=
  match source with
  | Except.ok (GoValue.object fields) =>
    match fields.lookup name with
    | some (GoValue.object params) => params.lookup "buckets_path"
    | _ => none
  | _ => none

/-- What is to stand under `"buckets_path"` for the accumulated paths: nothing
for none, the string for one, the list for two or more. -/
def bucketsPathValue (paths : List String) : Option GoValue :=
  match paths with
  | [] => none
  | [path] => some (GoValue.string path)
  | paths => some (GoValue.array (paths.map GoValue.string))

/-- The JSON text of a source. -/
def marshalSource (source : Except String GoValue) : Except Failure String :=
  match source with
  | Except.ok v => jsonMarshal v
  | Except.error err => Except.error (Failure.error err)

/-! ## search_aggs_bucket_filters.go -/

/-- A value of the `Query` interface, whose declaration is not part of the
sources at hand: what its method `Source() (interface{}, error)` returns. -/
structure Query where
  Source : Except String GoValue

/-- A value of the `Aggregation` interface, whose declaration is not part of
the sources at hand: what its method `Source() (interface{}, error)` returns. -/
structure Aggregation where
  Source : Except String GoValue

/-- The fields of `FiltersAggregation`; the maps are held by ascending key. -/
structure FiltersAggregation where
  unnamedFilters : List Query := []
  namedFilters : List (String × Query) := []
  otherBucket : Option Bool := none
  otherBucketKey : String := ""
  subAggregations : List (String × Aggregation) := []
  meta : GoMap := []

/-- `func NewFiltersAggregation() *FiltersAggregation`. -/
def NewFiltersAggregation : FiltersAggregation :=
  { unnamedFilters := [], namedFilters := [], subAggregations := [] }

/-- `func (a *FiltersAggregation) Filter(filter Query) *FiltersAggregation`. -/
def FiltersAggregation.Filter (a : FiltersAggregation) (filter : Query) : FiltersAggregation :=
  { a with unnamedFilters := a.unnamedFilters ++ [filter] }

/-- `func (a *FiltersAggregation) Filters(filters ...Query) *FiltersAggregation`. -/
def FiltersAggregation.Filters (a : FiltersAggregation) (filters : List Query) :
    FiltersAggregation :=
  if filters.length > 0 then { a with unnamedFilters := a.unnamedFilters ++ filters } else a

/-- `func (a *FiltersAggregation) FilterWithName(name string, filter Query)`. -/
def FiltersAggregation.FilterWithName (a : FiltersAggregation) (name : String) (filter : Query) :
    FiltersAggregation :=
  { a with namedFilters := mapSet a.namedFilters name filter }

def FiltersAggregation.OtherBucket (a : FiltersAggregation) (otherBucket : Bool) :
    FiltersAggregation :=
  { a with otherBucket := some otherBucket }

def FiltersAggregation.OtherBucketKey (a : FiltersAggregation) (key : String) :
    FiltersAggregation :=
  { a with otherBucketKey := key }

def FiltersAggregation.SubAggregation (a : FiltersAggregation) (name : String)
    (subAggregation : Aggregation) : FiltersAggregation :=
  { a with subAggregations := mapSet a.subAggregations name subAggregation }

def FiltersAggregation.Meta (a : FiltersAggregation) (metaData : GoMap) : FiltersAggregation :=
  { a with meta := metaData }

/-- The loop `for i, filter := range a.unnamedFilters` of `Source`: the sources
of the filters in order, or the first error. -/
def sourceArray : List Query → Except String (List GoValue)
  | [] => Except.ok []
  | filter :: rest =>
    match filter.Source with
    | Except.error err => Except.error err
    | Except.ok src =>
      match sourceArray rest with
      | Except.error err => Except.error err
      | Except.ok arr => Except.ok (src :: arr)

/-- The loops `for key, x := range m` of `Source` over a map of queries or of
aggregations: every source is stored under its key in `dict`, the first error
ends the loop. Go leaves the order of the visit open; the entries are visited
here by ascending key, which only decides which error is returned when more
than one entry fails. -/
def sourceDict {α : Type} (source : α → Except String GoValue) :
    List (String × α) → GoMap → Except String GoMap
  | [], dict => Except.ok dict
  | (key, x) :: rest, dict =>
    match source x with
    | Except.error err => Except.error err
    | Except.ok src => sourceDict source rest (mapSet dict key src)

/-- `func (a *FiltersAggregation) Source() (interface{}, error)`. -/
def FiltersAggregation.Source (a : FiltersAggregation) : Except String GoValue :=
  if a.unnamedFilters.length > 0 ∧ a.namedFilters.length > 0 then
    Except.error
      "opensearch: use either named or unnamed filters with FiltersAggregation but not both"
  else
    let inner : Except String GoValue :=
      if a.unnamedFilters.length > 0 then
        match sourceArray a.unnamedFilters with
        | Except.error err => Except.error err
        | Except.ok arr => Except.ok (GoValue.array arr)
      else
        match sourceDict Query.Source a.namedFilters [] with
        | Except.error err => Except.error err
        | Except.ok dict => Except.ok (GoValue.object dict)
    match inner with
    | Except.error err => Except.error err
    | Except.ok inner =>
      let filters : GoMap := mapSet [] "filters" inner
      let filters :=
        match a.otherBucket with
        | some v => mapSet filters "other_bucket" (GoValue.bool v)
        | none => filters
      let filters :=
        if a.otherBucketKey ≠ "" then
          mapSet filters "other_bucket_key" (GoValue.string a.otherBucketKey)
        else filters
      let source : GoMap := mapSet [] "filters" (GoValue.object filters)
      let withAggs : Except String GoMap :=
        if a.subAggregations.length > 0 then
          match sourceDict Aggregation.Source a.subAggregations [] with
          | Except.error err => Except.error err
          | Except.ok aggsMap => Except.ok (mapSet source "aggregations" (GoValue.object aggsMap))
        else Except.ok source
      match withAggs with
      | Except.error err => Except.error err
      | Except.ok source =>
        let source :=
          if a.meta.length > 0 then mapSet source "meta" (GoValue.object a.meta) else source
        Except.ok (GoValue.object source)

/-- The entry `"filters"` of the object that a source holds under `"filters"`,
if there is one. -/
def filtersOf (source : Except String GoValue) : Option GoValue :=
  match source with
  | Except.ok (GoValue.object fields) =>
    match fields.lookup "filters" with
    | some (GoValue.object filters) => filters.lookup "filters"
    | _ => none
  | _ => none

/-- Whether a call returned an error. -/
def failed {α : Type} (result : Except String α) : Bool :=
  match result with
  | Except.error _ => true
  | Except.ok _ => false

/-- A term query on the field `body`. -/
def termQuery (value : String) : Query :=
  { Source := Except.ok (GoValue.object [("term", GoValue.object [("body", GoValue.string value)])]) }

/-- A query whose `Source()` fails. -/
def badQuery : Query := { Source := Except.error "opensearch: invalid query" }

/-! # Theorems -/

/-! ## Retry executor -/

theorem wrapInt64_of_range (n : Int) (h1 : -(2 ^ 63) ≤ n) (h2 : n ≤ maxInt) : wrapInt64 n = n := by
  unfold wrapInt64
  unfold maxInt at h2
  omega

theorem retryLoop_ok {σ ε : Type} (operation : Operation σ ε) (b : Backoff σ)
    (notify : Option (Notify σ ε)) (fuel : Nat) (n : Int) (s s1 : σ)
    (h : operation s = (none, s1)) :
    retryLoop operation b notify (fuel + 1) n s
      = { result := some none, state := s1, trace := [Event.call none] } := by
  simp [retryLoop, h]

theorem retryLoop_stop {σ ε : Type} (operation : Operation σ ε) (b : Backoff σ)
    (notify : Option (Notify σ ε)) (fuel : Nat) (n wait : Int) (s s1 s2 : σ) (err : ε)
    (h : operation s = (some err, s1))
    (hb : b.Next (wrapInt64 (n + 1)) s1 = ((wait, false), s2)) :
    retryLoop operation b notify (fuel + 1) n s
      = { result := some (some err), state := s2,
          trace := [Event.call (some err), Event.next (wrapInt64 (n + 1)) wait false] } := by
  simp [retryLoop, h, hb]

theorem retryLoop_retry {σ ε : Type} (operation : Operation σ ε) (b : Backoff σ)
    (notify : Option (Notify σ ε)) (fuel : Nat) (n wait : Int) (s s1 s2 : σ) (err : ε)
    (h : operation s = (some err, s1))
    (hb : b.Next (wrapInt64 (n + 1)) s1 = ((wait, true), s2)) :
    retryLoop operation b notify (fuel + 1) n s
      = { retryLoop operation b notify fuel (wrapInt64 (n + 1)) (notifyState notify err s2) with
          trace := [Event.call (some err), Event.next (wrapInt64 (n + 1)) wait true]
            ++ notifyEvents notify err ++ [Event.sleep wait]
            ++ (retryLoop operation b notify fuel (wrapInt64 (n + 1))
                  (notifyState notify err s2)).trace } := by
  simp [retryLoop, h, hb]

theorem invocations_notifyEvents {σ ε : Type} (notify : Option (Notify σ ε)) (err : ε) :
    invocations (notifyEvents notify err) = 0 := by
  cases notify <;> simp [notifyEvents, invocations, Event.isCall]

theorem policyQueries_notifyEvents {σ ε : Type} (notify : Option (Notify σ ε)) (err : ε) :
    policyQueries (notifyEvents notify err) = 0 := by
  cases notify <;> simp [notifyEvents, policyQueries, Event.isNext]

/-- The first thing every iteration does is to call the operation. -/
theorem retryLoop_head {σ ε : Type} (operation : Operation σ ε) (b : Backoff σ)
    (notify : Option (Notify σ ε)) (fuel : Nat) (n : Int) (s : σ) :
    (retryLoop operation b notify (fuel + 1) n s).trace.head?
      = some (Event.call (operation s).1) := by
  rcases h : operation s with ⟨_ | err, s1⟩
  · simp [retryLoop_ok operation b notify fuel n s s1 h]
  · rcases hb : b.Next (wrapInt64 (n + 1)) s1 with ⟨⟨wait, _ | _⟩, s2⟩
    · simp [retryLoop_stop operation b notify fuel n wait s s1 s2 err h hb]
    · simp [retryLoop_retry operation b notify fuel n wait s s1 s2 err h hb]

theorem retryLoop_invocations_pos {σ ε : Type} (operation : Operation σ ε) (b : Backoff σ)
    (notify : Option (Notify σ ε)) (fuel : Nat) (n : Int) (s : σ) :
    1 ≤ invocations (retryLoop operation b notify (fuel + 1) n s).trace := by
  have h := retryLoop_head operation b notify fuel n s
  cases ht : (retryLoop operation b notify (fuel + 1) n s).trace with
  | nil => simp [ht] at h
  | cons e t =>
    simp [ht] at h
    subst h
    simp [invocations, Event.isCall, List.countP_cons]

theorem retryLoop_exhaust {σ ε : Type} (o : Operation σ ε) (b : Backoff σ)
    (notify : Option (Notify σ ε)) (K : Nat)
    (hK : (K : Int) + 1 ≤ maxInt)
    (hop : ∀ t, (o t).1 ≠ none)
    (hyes : ∀ (n : Int) (t : σ), 1 ≤ n → n ≤ K → (b.Next n t).1.2 = true)
    (hno : ∀ t, (b.Next ((K : Int) + 1) t).1.2 = false) :
    ∀ (d k : Nat), k + d = K → ∀ (fuel : Nat), d + 1 ≤ fuel → ∀ s : σ,
      ∃ (pre : List (Event ε)) (err : ε) (wait : Int),
        (retryLoop o b notify fuel k s).trace
            = pre ++ [Event.call (some err), Event.next ((K : Int) + 1) wait false]
          ∧ (retryLoop o b notify fuel k s).result = some (some err)
          ∧ invocations (retryLoop o b notify fuel k s).trace = d + 1 := by
  intro d
  induction d with
  | zero =>
    intro k hk fuel hfuel s
    obtain ⟨f, rfl⟩ : ∃ f, fuel = f + 1 := ⟨fuel - 1, by omega⟩
    simp only [Nat.add_zero] at hk
    subst hk
    rcases h : o s with ⟨_ | err, s1⟩
    · exact absurd (by rw [h]) (hop s)
    · have hw : wrapInt64 ((k : Int) + 1) = (k : Int) + 1 :=
        wrapInt64_of_range _ (by omega) hK
      rcases hb : b.Next ((k : Int) + 1) s1 with ⟨⟨wait, r⟩, s2⟩
      have hr : r = false := by have := hno s1; rw [hb] at this; exact this
      subst hr
      rw [← hw] at hb
      refine ⟨[], err, wait, ?_, ?_, ?_⟩
      · rw [retryLoop_stop o b notify f k wait s s1 s2 err h hb, hw]; rfl
      · rw [retryLoop_stop o b notify f k wait s s1 s2 err h hb]
      · rw [retryLoop_stop o b notify f k wait s s1 s2 err h hb]
        simp [invocations, Event.isCall, List.countP_cons]
  | succ d ih =>
    intro k hk fuel hfuel s
    obtain ⟨f, rfl⟩ : ∃ f, fuel = f + 1 := ⟨fuel - 1, by omega⟩
    rcases h : o s with ⟨_ | err, s1⟩
    · exact absurd (by rw [h]) (hop s)
    · have hle : (k : Int) + 1 ≤ K := by omega
      have hw : wrapInt64 ((k : Int) + 1) = ((k + 1 : Nat) : Int) := by
        rw [wrapInt64_of_range _ (by omega) (by omega)]; push_cast; rfl
      rcases hb : b.Next ((k : Int) + 1) s1 with ⟨⟨wait, r⟩, s2⟩
      have hr : r = true := by
        have := hyes ((k : Int) + 1) s1 (by omega) hle; rw [hb] at this; exact this
      subst hr
      have hb2 : b.Next (wrapInt64 ((k : Int) + 1)) s1 = ((wait, true), s2) := by
        rw [hw]; push_cast; exact hb
      obtain ⟨pre, e, w, h1, h2, h3⟩ :=
        ih (k + 1) (by omega) f (by omega) (notifyState notify err s2)
      rw [retryLoop_retry o b notify f k wait s s1 s2 err h hb2, hw]
      refine ⟨[Event.call (some err), Event.next ((k + 1 : Nat) : Int) wait true]
          ++ notifyEvents notify err ++ [Event.sleep wait] ++ pre, e, w, ?_, ?_, ?_⟩
      · simp only [h1, List.append_assoc]
      · exact h2
      · have hn := invocations_notifyEvents notify err
        simp only [invocations] at h3 hn ⊢
        simp only [List.countP_append, h3, hn]
        simp [Event.isCall, List.countP_cons]
        omega

/-- C2: an operation that fails on every invocation, under a policy that
allows retries for the attempt counts `1..K` and refuses at `K + 1`, is invoked
exactly `K + 1` times by `RetryNotify` and by `Retry`, and the error returned is
the one of the last invocation. (`K + 1` is an attempt count, a Go `int`.) -/
theorem retry_exhaustion {σ ε : Type} (o : Operation σ ε) (b : Backoff σ)
    (notify : Option (Notify σ ε)) (K : Nat) (fuel : Nat) (s : σ)
    (hK : (K : Int) + 1 ≤ maxInt)
    (hop : ∀ t, (o t).1 ≠ none)
    (hyes : ∀ (n : Int) (t : σ), 1 ≤ n → n ≤ K → (b.Next n t).1.2 = true)
    (hno : ∀ t, (b.Next ((K : Int) + 1) t).1.2 = false)
    (hfuel : K + 1 ≤ fuel) :
    (RetryNotify o b notify fuel s).ExhaustedAfter K ∧ (Retry o b fuel s).ExhaustedAfter K := by
  constructor
  · have := retryLoop_exhaust o b notify K hK hop hyes hno K 0 (by omega) fuel hfuel s
    simpa [RetryNotify, Outcome.ExhaustedAfter] using this
  · have := retryLoop_exhaust o b none K hK hop hyes hno K 0 (by omega) fuel hfuel s
    simpa [Retry, RetryNotify, Outcome.ExhaustedAfter] using this

theorem retryLoop_succeed {σ ε : Type} (o : Operation σ ε) (b : Backoff σ)
    (notify : Option (Notify σ ε)) (m : Nat) (calls : σ → Nat)
    (hm : (m : Int) ≤ maxInt)
    (hop : ∀ t, calls (o t).2 = calls t + 1)
    (hnx : ∀ (n : Int) (t : σ), calls (b.Next n t).2 = calls t)
    (hnt : ∀ (e : ε) (t : σ), calls (notifyState notify e t) = calls t)
    (hfail : ∀ t, calls t + 1 < m → (o t).1 ≠ none)
    (hsucc : ∀ t, calls t + 1 = m → (o t).1 = none)
    (hyes : ∀ (n : Int) (t : σ), 1 ≤ n → n < m → (b.Next n t).1.2 = true) :
    ∀ (d k : Nat), k + d + 1 = m → ∀ (fuel : Nat), d + 1 ≤ fuel → ∀ s : σ, calls s = k →
      (retryLoop o b notify fuel k s).result = some none
        ∧ invocations (retryLoop o b notify fuel k s).trace = d + 1
        ∧ (retryLoop o b notify fuel k s).trace.getLast? = some (Event.call none)
        ∧ policyQueries (retryLoop o b notify fuel k s).trace = d := by
  intro d
  induction d with
  | zero =>
    intro k hk fuel hfuel s hs
    obtain ⟨f, rfl⟩ : ∃ f, fuel = f + 1 := ⟨fuel - 1, by omega⟩
    rcases h : o s with ⟨_ | err, s1⟩
    · rw [retryLoop_ok o b notify f k s s1 h]
      simp [invocations, policyQueries, Event.isCall, Event.isNext]
    · have := hsucc s (by omega)
      rw [h] at this
      exact absurd this (by simp)
  | succ d ih =>
    intro k hk fuel hfuel s hs
    obtain ⟨f, rfl⟩ : ∃ f, fuel = f + 1 := ⟨fuel - 1, by omega⟩
    rcases h : o s with ⟨_ | err, s1⟩
    · exact absurd (by rw [h]) (hfail s (by omega))
    · have hs1 : calls s1 = k + 1 := by have := hop s; simp only [h] at this; omega
      have hw : wrapInt64 ((k : Int) + 1) = ((k + 1 : Nat) : Int) := by
        rw [wrapInt64_of_range _ (by omega) (by omega)]; push_cast; rfl
      rcases hb : b.Next ((k : Int) + 1) s1 with ⟨⟨wait, r⟩, s2⟩
      have hr : r = true := by
        have := hyes ((k : Int) + 1) s1 (by omega) (by omega); rw [hb] at this; exact this
      subst hr
      have hs2 : calls s2 = k + 1 := by
        have := hnx ((k : Int) + 1) s1; simp only [hb] at this; omega
      have hb2 : b.Next (wrapInt64 ((k : Int) + 1)) s1 = ((wait, true), s2) := by
        rw [hw]; push_cast; exact hb
      obtain ⟨h1, h2, h3, h4⟩ :=
        ih (k + 1) (by omega) f (by omega) (notifyState notify err s2) (by rw [hnt]; exact hs2)
      rw [retryLoop_retry o b notify f k wait s s1 s2 err h hb2, hw]
      refine ⟨h1, ?_, ?_, ?_⟩
      · have hn := invocations_notifyEvents notify err
        simp only [invocations] at h2 hn ⊢
        simp only [List.countP_append, h2, hn]
        simp [Event.isCall, List.countP_cons]
        omega
      · simp only [List.getLast?_append, h3]
        simp
      · have hn := policyQueries_notifyEvents notify err
        simp only [policyQueries] at h4 hn ⊢
        simp only [List.countP_append, h4, hn]
        simp [Event.isNext, List.countP_cons]
        omega

/-- C3: an operation that fails on its first `m - 1` invocations and returns
nil on the `m`-th (`calls` counts the invocations made so far; the policy and
the notify callback do not invoke the operation), under a policy that answers
"retry" for the attempt counts `1..m-1`, makes `RetryNotify` and `Retry` return
nil after exactly `m` invocations; the successful call is the last event of the
run, so the policy is consulted `m - 1` times and never after the success. -/
theorem retry_success_after_failures {σ ε : Type} (o : Operation σ ε) (b : Backoff σ)
    (notify : Option (Notify σ ε)) (m : Nat) (calls : σ → Nat) (fuel : Nat) (s : σ)
    (hm1 : 1 ≤ m) (hm : (m : Int) ≤ maxInt)
    (hs : calls s = 0)
    (hop : ∀ t, calls (o t).2 = calls t + 1)
    (hnx : ∀ (n : Int) (t : σ), calls (b.Next n t).2 = calls t)
    (hnt : ∀ (e : ε) (t : σ), calls (notifyState notify e t) = calls t)
    (hfail : ∀ t, calls t + 1 < m → (o t).1 ≠ none)
    (hsucc : ∀ t, calls t + 1 = m → (o t).1 = none)
    (hyes : ∀ (n : Int) (t : σ), 1 ≤ n → n < m → (b.Next n t).1.2 = true)
    (hfuel : m ≤ fuel) :
    (RetryNotify o b notify fuel s).SucceededAfter m ∧ (Retry o b fuel s).SucceededAfter m := by
  obtain ⟨d, rfl⟩ : ∃ d, m = d + 1 := ⟨m - 1, by omega⟩
  constructor
  · have := retryLoop_succeed o b notify (d + 1) calls hm hop hnx hnt hfail
      hsucc hyes d 0 (by omega) fuel hfuel s hs
    simpa [RetryNotify, Outcome.SucceededAfter] using this
  · have := retryLoop_succeed o b none (d + 1) calls hm hop hnx
      (fun _ _ => rfl) hfail hsucc hyes d 0 (by omega) fuel hfuel s hs
    simpa [Retry, RetryNotify, Outcome.SucceededAfter] using this

/-- C1: `RetryNotify` and `Retry` invoke the operation before anything else,
hence at least once in every run that returns; under a policy that refuses
every retry they return after exactly one invocation, with its result. -/
theorem retry_runs_operation_at_least_once {σ ε : Type} (o : Operation σ ε) (b : Backoff σ)
    (notify : Option (Notify σ ε)) (fuel : Nat) (s : σ) :
    ((RetryNotify o b notify (fuel + 1) s).trace.head? = some (Event.call (o s).1)
      ∧ (Retry o b (fuel + 1) s).trace.head? = some (Event.call (o s).1))
    ∧ ((RetryNotify o b notify fuel s).result ≠ none →
        1 ≤ invocations (RetryNotify o b notify fuel s).trace)
    ∧ ((Retry o b fuel s).result ≠ none → 1 ≤ invocations (Retry o b fuel s).trace)
    ∧ ((∀ (n : Int) (t : σ), (b.Next n t).1.2 = false) →
        ((RetryNotify o b notify (fuel + 1) s).result = some (o s).1
          ∧ invocations (RetryNotify o b notify (fuel + 1) s).trace = 1)
        ∧ ((Retry o b (fuel + 1) s).result = some (o s).1
          ∧ invocations (Retry o b (fuel + 1) s).trace = 1)) := by
  have key : ∀ (nt : Option (Notify σ ε)) (f : Nat),
      (retryLoop o b nt f 0 s).result ≠ none → 1 ≤ invocations (retryLoop o b nt f 0 s).trace := by
    intro nt f hf
    cases f with
    | zero => simp [retryLoop] at hf
    | succ f => exact retryLoop_invocations_pos o b nt f 0 s
  have stop : ∀ (nt : Option (Notify σ ε)), (∀ (n : Int) (t : σ), (b.Next n t).1.2 = false) →
      (retryLoop o b nt (fuel + 1) 0 s).result = some (o s).1
        ∧ invocations (retryLoop o b nt (fuel + 1) 0 s).trace = 1 := by
    intro nt hno
    rcases h : o s with ⟨_ | err, s1⟩
    · rw [retryLoop_ok o b nt fuel 0 s s1 h]
      simp [invocations, Event.isCall]
    · rcases hb : b.Next (wrapInt64 (0 + 1)) s1 with ⟨⟨wait, r⟩, s2⟩
      have hr : r = false := by have := hno (wrapInt64 (0 + 1)) s1; rw [hb] at this; exact this
      subst hr
      rw [retryLoop_stop o b nt fuel 0 wait s s1 s2 err h hb]
      simp [invocations, Event.isCall, List.countP_cons]
  refine ⟨⟨retryLoop_head o b notify fuel 0 s, retryLoop_head o b none fuel 0 s⟩,
    key notify fuel, key none fuel, fun hno => ⟨stop notify hno, stop none hno⟩⟩

theorem retry_runs_operation_at_least_once_witness :
    (RetryNotify alwaysFails noRetries none 1 0).result = some (some 0)
      ∧ invocations (RetryNotify alwaysFails noRetries none 1 0).trace = 1
      ∧ (Retry alwaysFails (maxRetries 5) 3 0).trace.head? = some (Event.call (some 0)) := by
  have h := retry_runs_operation_at_least_once alwaysFails noRetries none 0 0
  have h5 := retry_runs_operation_at_least_once alwaysFails (maxRetries 5) none 2 0
  refine ⟨?_, ?_, h5.1.2⟩
  · exact (h.2.2.2 (fun _ _ => rfl)).1.1
  · exact (h.2.2.2 (fun _ _ => rfl)).1.2

theorem retry_exhaustion_witness :
    (RetryNotify alwaysFails (maxRetries 2) none 3 0).ExhaustedAfter 2
      ∧ (Retry alwaysFails (maxRetries 2) 3 0).ExhaustedAfter 2 :=
  retry_exhaustion alwaysFails (maxRetries 2) none 2 3 0 (by decide)
    (by intro t; simp [alwaysFails])
    (by intro n t h1 h2; simpa [maxRetries] using h2)
    (by intro t; simp [maxRetries])
    (by decide)

theorem retry_success_after_failures_witness :
    (RetryNotify (failsFirst 2) (maxRetries 7) none 3 0).SucceededAfter 3
      ∧ (Retry (failsFirst 2) (maxRetries 7) 3 0).SucceededAfter 3 :=
  retry_success_after_failures (failsFirst 2) (maxRetries 7) none 3 id 3 0 (by decide)
    (by decide) rfl
    (by intro t; rfl)
    (by intro n t; rfl)
    (by intro e t; rfl)
    (by intro t h; simp only [id] at h; simp [failsFirst]; omega)
    (by intro t h; simp only [id] at h; simp [failsFirst]; omega)
    (by intro n t h1 h2; simp [maxRetries]; omega)
    (by decide)

/-! ## Compaction of what the generated code writes -/

theorem Passes_nil (step : ScanStep) (stack : List ParseState) :
    Passes step stack [] step stack := by
  intro rest
  cases h : compactLoop step stack rest <;> simp [h]

theorem Passes_trans {s0 s1 s2 : ScanStep} {k0 k1 k2 : List ParseState} {a b : List Char}
    (h1 : Passes s0 k0 a s1 k1) (h2 : Passes s1 k1 b s2 k2) : Passes s0 k0 (a ++ b) s2 k2 := by
  intro rest
  rw [List.append_assoc, h1 (b ++ rest), h2 rest]
  cases compactLoop s2 k2 rest <;> simp

theorem Passes_char {s0 s : ScanStep} {k0 k : List ParseState} {c : Char}
    (h : scanStep s0 k0 c = some (s, k, false)) (hc : compactChar c = [c]) :
    Passes s0 k0 [c] s k := by
  intro rest
  simp only [List.singleton_append, compactLoop, h]
  cases hr : compactLoop s k rest <;> simp [hr, hc]

theorem Passes_cons {s0 s s2 : ScanStep} {k0 k k2 : List ParseState} {c : Char}
    {cs : List Char}
    (h : scanStep s0 k0 c = some (s, k, false)) (hc : compactChar c = [c])
    (h2 : Passes s k cs s2 k2) : Passes s0 k0 (c :: cs) s2 k2 :=
  Passes_trans (Passes_char h hc) h2

theorem hexDigit_isHex (n : Nat) : isHex (hexDigit n) = true := by
  unfold hexDigit
  split <;> decide

theorem hexDigit_compactChar (n : Nat) : compactChar (hexDigit n) = [hexDigit n] := by
  unfold hexDigit
  split <;> decide

theorem Passes_escapeU00 (stack : List ParseState) (c : Char) :
    Passes ScanStep.inString stack (escapeU00 c) ScanStep.inString stack := by
  unfold escapeU00
  refine Passes_cons (k := stack) (s := ScanStep.inStringEsc) (by simp [scanStep]) (by decide) ?_
  refine Passes_cons (k := stack) (s := ScanStep.inStringEscU 4) (by simp [scanStep]) (by decide) ?_
  refine Passes_cons (k := stack) (s := ScanStep.inStringEscU 3) (by simp [scanStep]; decide) (by decide) ?_
  refine Passes_cons (k := stack) (s := ScanStep.inStringEscU 2) (by simp [scanStep]; decide) (by decide) ?_
  refine Passes_cons (k := stack) (s := ScanStep.inStringEscU 1)
    (by simp [scanStep, hexDigit_isHex]) (hexDigit_compactChar _) ?_
  exact Passes_char (k := stack) (by simp [scanStep, hexDigit_isHex]) (hexDigit_compactChar _)

theorem Passes_short_escape (stack : List ParseState) (x : Char)
    (hx : x = 'n' ∨ x = 'r' ∨ x = 't' ∨ x = '\\' ∨ x = '"') :
    Passes ScanStep.inString stack ['\\', x] ScanStep.inString stack := by
  refine Passes_cons (k := stack) (s := ScanStep.inStringEsc) (by simp [scanStep])
    (by decide) ?_
  rcases hx with rfl | rfl | rfl | rfl | rfl <;>
    exact Passes_char (k := stack) (by simp [scanStep]) (by decide)

theorem Passes_u202 (stack : List ParseState) (x : Char) (hx : x = '8' ∨ x = '9') :
    Passes ScanStep.inString stack ['\\', 'u', '2', '0', '2', x] ScanStep.inString stack := by
  refine Passes_cons (k := stack) (s := ScanStep.inStringEsc) (by simp [scanStep])
    (by decide) ?_
  refine Passes_cons (k := stack) (s := ScanStep.inStringEscU 4) (by simp [scanStep])
    (by decide) ?_
  refine Passes_cons (k := stack) (s := ScanStep.inStringEscU 3) (by simp [scanStep]; decide)
    (by decide) ?_
  refine Passes_cons (k := stack) (s := ScanStep.inStringEscU 2) (by simp [scanStep]; decide)
    (by decide) ?_
  refine Passes_cons (k := stack) (s := ScanStep.inStringEscU 1) (by simp [scanStep]; decide)
    (by decide) ?_
  rcases hx with rfl | rfl <;>
    exact Passes_char (k := stack) (by simp [scanStep]; decide) (by decide)

theorem Passes_easyjsonEscapeChar (stack : List ParseState) (c : Char) :
    Passes ScanStep.inString stack (easyjsonEscapeChar c) ScanStep.inString stack := by
  unfold easyjsonEscapeChar
  split_ifs with h1 h2 h3 h4 h5 h6 h7
  · rcases h1 with rfl | rfl
    · exact Passes_short_escape stack _ (by simp)
    · exact Passes_short_escape stack _ (by simp)
  · exact Passes_short_escape stack _ (by simp)
  · exact Passes_short_escape stack _ (by simp)
  · exact Passes_short_escape stack _ (by simp)
  · exact Passes_escapeU00 stack c
  · exact Passes_u202 stack _ (by simp)
  · exact Passes_u202 stack _ (by simp)
  · simp only [not_or] at h1 h5
    refine Passes_char (k := stack) ?_ ?_
    · simp [scanStep, h1.1, h1.2, h5.1]
    · simp [compactChar, h5.2.1, h5.2.2.1, h5.2.2.2, h6, h7]

theorem Passes_string_body (stack : List ParseState) (cs : List Char) :
    Passes ScanStep.inString stack (cs.flatMap easyjsonEscapeChar) ScanStep.inString stack := by
  induction cs with
  | nil => exact Passes_nil _ _
  | cons c rest ih =>
    rw [List.flatMap_cons]
    exact Passes_trans (Passes_easyjsonEscapeChar stack c) ih

/-- A string written by easyjson is scanned as one string and copied as it is. -/
theorem Passes_easyjsonString (stack : List ParseState) (s : String) (step : ScanStep)
    (hstep : step = ScanStep.beginValue ∨ step = ScanStep.beginString
      ∨ step = ScanStep.beginStringOrEmpty) :
    Passes step stack (easyjsonString s).data ScanStep.endValue stack := by
  have hopen : scanStep step stack '"' = some (ScanStep.inString, stack, false) := by
    rcases hstep with rfl | rfl | rfl <;>
      simp [scanStep, stateBeginValue, stateBeginString, isSpace]
  have hclose : Passes ScanStep.inString stack ['"'] ScanStep.endValue stack :=
    Passes_char (by simp [scanStep]) (by decide)
  show Passes step stack ('"' :: (s.data.flatMap easyjsonEscapeChar ++ ['"'])) _ _
  exact Passes_cons hopen (by decide) (Passes_trans (Passes_string_body stack _) hclose)

theorem isDigit_cases (c : Char) (h : isDigit c = true) :
    c = '0' ∨ c = '1' ∨ c = '2' ∨ c = '3' ∨ c = '4' ∨ c = '5' ∨ c = '6' ∨ c = '7' ∨ c = '8'
      ∨ c = '9' := by
  simp only [isDigit, Bool.and_eq_true, decide_eq_true_eq] at h
  have h0 : ('0' : Char).toNat = 48 := by decide
  have h9 : ('9' : Char).toNat = 57 := by decide
  rw [h0, h9] at h
  have hc : c = Char.ofNat c.toNat := (Char.ofNat_toNat c).symm
  generalize c.toNat = n at h hc
  obtain ⟨h1, h2⟩ := h
  interval_cases n <;> simp [hc]

theorem isDigit19_cases (c : Char) (h : isDigit19 c = true) :
    c = '1' ∨ c = '2' ∨ c = '3' ∨ c = '4' ∨ c = '5' ∨ c = '6' ∨ c = '7' ∨ c = '8' ∨ c = '9' := by
  have hd : isDigit c = true := by
    simp only [isDigit19, isDigit, Bool.and_eq_true, decide_eq_true_eq] at h ⊢
    have h0 : ('0' : Char).toNat = 48 := by decide
    have h1 : ('1' : Char).toNat = 49 := by decide
    rw [h1] at h
    rw [h0]
    exact ⟨by omega, h.2⟩
  rcases isDigit_cases c hd with rfl | h2
  · revert h; decide
  · exact h2

theorem digitChar_isDigit (m : Nat) (h : m < 10) : isDigit (Nat.digitChar m) = true := by
  interval_cases m <;> decide

theorem digitChar_isDigit19 (m : Nat) (h0 : m ≠ 0) (h : m < 10) :
    isDigit19 (Nat.digitChar m) = true := by
  interval_cases m <;> first | exact absurd rfl h0 | decide

/-- The decimal text of a natural number: `0`, or a digit from 1 to 9 followed
by digits. -/
theorem toDigitsCore_spec : ∀ (fuel n : Nat) (acc : List Char), n < fuel →
    ∃ pre, Nat.toDigitsCore 10 fuel n acc = pre ++ acc
      ∧ (n = 0 → pre = ['0'])
      ∧ (n ≠ 0 → ∃ d ds, pre = d :: ds ∧ isDigit19 d = true ∧ ∀ c ∈ ds, isDigit c = true) := by
  intro fuel
  induction fuel with
  | zero => intro n acc h; omega
  | succ fuel ih =>
    intro n acc hn
    unfold Nat.toDigitsCore
    by_cases h0 : n / 10 = 0
    · simp only [h0, if_true]
      have hlt : n < 10 := by omega
      refine ⟨[Nat.digitChar (n % 10)], rfl, ?_, ?_⟩
      · intro hz; subst hz; rfl
      · intro hz
        refine ⟨_, [], rfl, ?_, by simp⟩
        rw [Nat.mod_eq_of_lt hlt]
        exact digitChar_isDigit19 n hz hlt
    · simp only [h0, if_false]
      obtain ⟨pre, h1, _, h3⟩ := ih (n / 10) (Nat.digitChar (n % 10) :: acc) (by omega)
      obtain ⟨d, ds, hp, hd, hds⟩ := h3 h0
      refine ⟨pre ++ [Nat.digitChar (n % 10)], by rw [h1]; simp, by omega, ?_⟩
      intro _
      refine ⟨d, ds ++ [Nat.digitChar (n % 10)], by rw [hp]; rfl, hd, ?_⟩
      intro c hc
      rcases List.mem_append.mp hc with h | h
      · exact hds c h
      · simp only [List.mem_singleton] at h
        rw [h]
        exact digitChar_isDigit _ (Nat.mod_lt _ (by decide))

theorem isDigit_compactChar (c : Char) (h : isDigit c = true) : compactChar c = [c] := by
  rcases isDigit_cases c h with rfl | rfl | rfl | rfl | rfl | rfl | rfl | rfl | rfl | rfl <;>
    decide

theorem Passes_digits (stack : List ParseState) (ds : List Char)
    (h : ∀ c ∈ ds, isDigit c = true) :
    Passes ScanStep.num1 stack ds ScanStep.num1 stack := by
  induction ds with
  | nil => exact Passes_nil _ _
  | cons c rest ih =>
    have hc := h c (by simp)
    exact Passes_cons (by simp [scanStep, hc]) (isDigit_compactChar c hc)
      (ih (fun x hx => h x (by simp [hx])))

theorem Passes_natText (stack : List ParseState) (n : Nat) (step : ScanStep)
    (hstep : step = ScanStep.beginValue ∨ step = ScanStep.neg) :
    ∃ step1, ValueEnd step1 ∧ Passes step stack (Nat.toDigits 10 n) step1 stack := by
  obtain ⟨pre, h1, h2, h3⟩ := toDigitsCore_spec (n + 1) n [] (by omega)
  have hpre : Nat.toDigits 10 n = pre := by
    simp only [Nat.toDigits, h1, List.append_nil]
  rw [hpre]
  by_cases hz : n = 0
  · rw [h2 hz]
    refine ⟨ScanStep.num0, Or.inr (Or.inl rfl), Passes_char ?_ (by decide)⟩
    rcases hstep with rfl | rfl <;> simp [scanStep, stateBeginValue, isSpace]
  · obtain ⟨d, ds, hp, hd, hds⟩ := h3 hz
    rw [hp]
    refine ⟨ScanStep.num1, Or.inr (Or.inr rfl),
      Passes_cons ?_ (isDigit_compactChar d ?_) (Passes_digits stack ds hds)⟩
    · rcases hstep with rfl | rfl <;>
        rcases isDigit19_cases d hd with rfl | rfl | rfl | rfl | rfl | rfl | rfl | rfl | rfl <;>
        simp [scanStep, stateBeginValue, isSpace, isDigit19]
    · rcases isDigit19_cases d hd with rfl | rfl | rfl | rfl | rfl | rfl | rfl | rfl | rfl <;>
        decide

/-- The decimal text of an integer is scanned as one value and copied as it is. -/
theorem PassesAsValue_int (stack : List ParseState) (n : Int) :
    PassesAsValue stack (toString n).data := by
  cases n with
  | ofNat m =>
    show PassesAsValue stack (Nat.toDigits 10 m)
    exact Passes_natText stack m ScanStep.beginValue (Or.inl rfl)
  | negSucc m =>
    show PassesAsValue stack ('-' :: Nat.toDigits 10 (m + 1))
    obtain ⟨step1, hv, hp⟩ := Passes_natText stack (m + 1) ScanStep.neg (Or.inr rfl)
    exact ⟨step1, hv, Passes_cons (by simp [scanStep, stateBeginValue, isSpace]) (by decide) hp⟩

theorem PassesAsValue_string (stack : List ParseState) (s : String) :
    PassesAsValue stack (easyjsonString s).data :=
  ⟨ScanStep.endValue, Or.inl rfl, Passes_easyjsonString stack s _ (Or.inl rfl)⟩

theorem scanStep_of_ValueEnd (step : ScanStep) (h : ValueEnd step) (stack : List ParseState)
    (c : Char) (hc : c = ',' ∨ c = '\x7d' ∨ c = ' ') :
    scanStep step stack c = stateEndValue stack c := by
  rcases h with rfl | rfl | rfl <;> rcases hc with rfl | rfl | rfl <;>
    simp [scanStep, state0, isDigit]

/-- A text that is scanned as one value and copied as it is, is its own
compaction. -/
theorem compact_of_PassesAsValue (s : String) (h : PassesAsValue [] s.data) :
    compact s = some s := by
  obtain ⟨step1, hv, hp⟩ := h
  have h1 := hp []
  have h2 : compactLoop step1 [] [] = some [] := by
    simp only [compactLoop, scanStep_of_ValueEnd step1 hv [] ' ' (Or.inr (Or.inr rfl))]
    simp [stateEndValue, isSpace]
  rw [List.append_nil, h2] at h1
  simp [compact, h1]

theorem Passes_member (stack : List ParseState) (m : String × String) (step : ScanStep)
    (hstep : step = ScanStep.beginString ∨ step = ScanStep.beginStringOrEmpty)
    (hv : PassesAsValue (ParseState.objectValue :: stack) m.2.data) :
    ∃ step1, ValueEnd step1
      ∧ Passes step (ParseState.objectKey :: stack) (easyjsonMember m) step1
          (ParseState.objectValue :: stack) := by
  obtain ⟨step1, h1, h2⟩ := hv
  refine ⟨step1, h1, ?_⟩
  unfold easyjsonMember
  refine Passes_trans (Passes_easyjsonString _ m.1 step (hstep.imp_left Or.inl |>.elim
    (fun h => h.elim (fun h => Or.inr (Or.inl h)) (fun h => Or.inr (Or.inl h)))
    (fun h => Or.inr (Or.inr h)))) ?_
  exact Passes_cons (by simp [scanStep, stateEndValue, isSpace]) (by decide) h2

theorem Passes_members (stack : List ParseState) (members : List (String × String)) :
    ∀ (m : String × String) (step : ScanStep),
      (step = ScanStep.beginString ∨ step = ScanStep.beginStringOrEmpty) →
      (∀ x ∈ m :: members, PassesAsValue (ParseState.objectValue :: stack) x.2.data) →
      ∃ step1, ValueEnd step1
        ∧ Passes step (ParseState.objectKey :: stack) (easyjsonMembers (m :: members)) step1
            (ParseState.objectValue :: stack) := by
  induction members with
  | nil =>
    intro m step hstep hv
    exact Passes_member stack m step hstep (hv m (by simp))
  | cons m2 rest ih =>
    intro m step hstep hv
    obtain ⟨s1, h1, h2⟩ := Passes_member stack m step hstep (hv m (by simp))
    obtain ⟨s2, h3, h4⟩ := ih m2 ScanStep.beginString (Or.inl rfl)
      (fun x hx => hv x (by simp only [List.mem_cons] at hx ⊢; exact Or.inr hx))
    refine ⟨s2, h3, ?_⟩
    show Passes step _ (easyjsonMember m ++ ',' :: easyjsonMembers (m2 :: rest)) _ _
    refine Passes_trans h2 (Passes_cons ?_ (by decide) h4)
    rw [scanStep_of_ValueEnd s1 h1 _ ',' (Or.inl rfl)]
    simp [stateEndValue, isSpace]

/-- An object written by the generated code, whose member values are scanned
as values and copied as they are, is itself scanned as one value and copied as
it is. -/
theorem Passes_easyjsonObject (stack : List ParseState) (members : List (String × String))
    (hdepth : stack.length + 1 ≤ maxNestingDepth)
    (hv : ∀ x ∈ members, PassesAsValue (ParseState.objectValue :: stack) x.2.data) :
    Passes ScanStep.beginValue stack (easyjsonObject members).data ScanStep.endValue stack := by
  have hopen : scanStep ScanStep.beginValue stack '\x7b'
      = some (ScanStep.beginStringOrEmpty, ParseState.objectKey :: stack, false) := by
    simp [scanStep, stateBeginValue, isSpace, pushParseState, hdepth]
  show Passes _ stack ('\x7b' :: (easyjsonMembers members ++ ['\x7d'])) _ _
  cases members with
  | nil =>
    refine Passes_cons hopen (by decide) (Passes_char ?_ (by decide))
    simp [scanStep, stateEndValue, isSpace]
  | cons m rest =>
    obtain ⟨s1, h1, h2⟩ := Passes_members stack rest m ScanStep.beginStringOrEmpty (Or.inr rfl) hv
    refine Passes_cons hopen (by decide) (Passes_trans h2 (Passes_char ?_ (by decide)))
    rw [scanStep_of_ValueEnd s1 h1 _ '\x7d' (Or.inr (Or.inl rfl))]
    simp [stateEndValue, isSpace]

theorem PassesAsValue_commandOp_members (op : bulkUpdateRequestCommandOp)
    (stack : List ParseState) :
    ∀ x ∈ op.members, PassesAsValue stack x.2.data := by
  have hs : ∀ key v, ∀ x ∈ omitEmptyEasyString key v, PassesAsValue stack x.2.data := by
    intro key v x hx
    unfold omitEmptyEasyString at hx
    split_ifs at hx
    · simp at hx
    · simp only [List.mem_singleton] at hx
      subst hx
      exact PassesAsValue_string stack v
  have hi : ∀ key v, ∀ x ∈ omitEmptyInt key v, PassesAsValue stack x.2.data := by
    intro key v x hx
    unfold omitEmptyInt at hx
    split_ifs at hx
    · simp at hx
    · simp only [List.mem_singleton] at hx
      subst hx
      exact PassesAsValue_int stack v
  have hp : ∀ key v, ∀ x ∈ omitEmptyIntPtr key v, PassesAsValue stack x.2.data := by
    intro key v x hx
    cases v with
    | none => simp [omitEmptyIntPtr] at hx
    | some n =>
      simp only [omitEmptyIntPtr, List.mem_singleton] at hx
      subst hx
      exact PassesAsValue_int stack n
  intro x hx
  simp only [bulkUpdateRequestCommandOp.members, List.mem_append] at hx
  rcases hx with (((((((((h | h) | h) | h) | h) | h) | h) | h) | h) | h)
  · exact hs _ _ x h
  · exact hs _ _ x h
  · exact hs _ _ x h
  · exact hs _ _ x h
  · exact hp _ _ x h
  · exact hs _ _ x h
  · exact hi _ _ x h
  · exact hs _ _ x h
  · exact hp _ _ x h
  · exact hp _ _ x h

/-- The metadata line that the generated code writes is valid JSON without
insignificant white space: `json.Marshal` returns it as it is. -/
theorem compact_easyjsonCommand (op : bulkUpdateRequestCommandOp) :
    compact (easyjsonCommand op) = some (easyjsonCommand op) := by
  apply compact_of_PassesAsValue
  refine ⟨ScanStep.endValue, Or.inl rfl, ?_⟩
  apply Passes_easyjsonObject [] _ (by decide)
  intro x hx
  simp only [List.mem_singleton] at hx
  subst hx
  exact ⟨ScanStep.endValue, Or.inl rfl,
    Passes_easyjsonObject _ _ (by decide) (PassesAsValue_commandOp_members op _)⟩

theorem Passes_short_escape_bf (stack : List ParseState) (x : Char) (hx : x = 'b' ∨ x = 'f') :
    Passes ScanStep.inString stack ['\\', x] ScanStep.inString stack := by
  refine Passes_cons (k := stack) (s := ScanStep.inStringEsc) (by simp [scanStep])
    (by decide) ?_
  rcases hx with rfl | rfl <;>
    exact Passes_char (k := stack) (by simp [scanStep]) (by decide)

theorem Passes_escapeChar (stack : List ParseState) (c : Char) :
    Passes ScanStep.inString stack (escapeChar c) ScanStep.inString stack := by
  unfold escapeChar
  split_ifs with h1 hb hf h2 h3 h4 h5 h6 h7
  · rcases h1 with rfl | rfl
    · exact Passes_short_escape stack _ (by simp)
    · exact Passes_short_escape stack _ (by simp)
  · exact Passes_short_escape_bf stack _ (by simp)
  · exact Passes_short_escape_bf stack _ (by simp)
  · exact Passes_short_escape stack _ (by simp)
  · exact Passes_short_escape stack _ (by simp)
  · exact Passes_short_escape stack _ (by simp)
  · exact Passes_escapeU00 stack c
  · exact Passes_u202 stack _ (by simp)
  · exact Passes_u202 stack _ (by simp)
  · simp only [not_or] at h1 h5
    refine Passes_char (k := stack) ?_ ?_
    · simp [scanStep, h1.1, h1.2, h5.1]
    · simp [compactChar, h5.2.1, h5.2.2.1, h5.2.2.2, h6, h7]

/-- A string written by `encoding/json` is scanned as one value and copied as
it is. -/
theorem PassesAsValue_encodeString (stack : List ParseState) (s : String) :
    PassesAsValue stack (encodeString s).data := by
  have hbody : ∀ cs : List Char,
      Passes ScanStep.inString stack (cs.flatMap escapeChar) ScanStep.inString stack := by
    intro cs
    induction cs with
    | nil => exact Passes_nil _ _
    | cons c rest ih =>
      rw [List.flatMap_cons]
      exact Passes_trans (Passes_escapeChar stack c) ih
  have hopen : scanStep ScanStep.beginValue stack '"' = some (ScanStep.inString, stack, false) := by
    simp [scanStep, stateBeginValue, isSpace]
  have hclose : Passes ScanStep.inString stack ['"'] ScanStep.endValue stack :=
    Passes_char (by simp [scanStep]) (by decide)
  refine ⟨ScanStep.endValue, Or.inl rfl, ?_⟩
  show Passes _ stack ('"' :: (s.data.flatMap escapeChar ++ ['"'])) _ _
  exact Passes_cons hopen (by decide) (Passes_trans (hbody _) hclose)

theorem PassesAsValue_bool (stack : List ParseState) (b : Bool) :
    PassesAsValue stack (if b then "true" else "false").data := by
  refine ⟨ScanStep.endValue, Or.inl rfl, ?_⟩
  cases b
  · show Passes _ stack ['f', 'a', 'l', 's', 'e'] _ _
    refine Passes_cons (k := stack) (s := ScanStep.literal ['a', 'l', 's', 'e'])
      (by simp [scanStep, stateBeginValue, isSpace]) (by decide) ?_
    refine Passes_cons (k := stack) (s := ScanStep.literal ['l', 's', 'e'])
      (by simp [scanStep]) (by decide) ?_
    refine Passes_cons (k := stack) (s := ScanStep.literal ['s', 'e'])
      (by simp [scanStep]) (by decide) ?_
    refine Passes_cons (k := stack) (s := ScanStep.literal ['e'])
      (by simp [scanStep]) (by decide) ?_
    exact Passes_char (k := stack) (by simp [scanStep]) (by decide)
  · show Passes _ stack ['t', 'r', 'u', 'e'] _ _
    refine Passes_cons (k := stack) (s := ScanStep.literal ['r', 'u', 'e'])
      (by simp [scanStep, stateBeginValue, isSpace]) (by decide) ?_
    refine Passes_cons (k := stack) (s := ScanStep.literal ['u', 'e'])
      (by simp [scanStep]) (by decide) ?_
    refine Passes_cons (k := stack) (s := ScanStep.literal ['e'])
      (by simp [scanStep]) (by decide) ?_
    exact Passes_char (k := stack) (by simp [scanStep]) (by decide)

/-- An object written by the generated code whose member values are valid JSON
without insignificant white space is its own compaction. -/
theorem compact_easyjsonObject (members : List (String × String))
    (hv : ∀ x ∈ members, PassesAsValue [ParseState.objectValue] x.2.data) :
    compact (easyjsonObject members) = some (easyjsonObject members) :=
  compact_of_PassesAsValue _
    ⟨ScanStep.endValue, Or.inl rfl, Passes_easyjsonObject [] members (by decide) hv⟩

/-- The payload text is its own compaction when the texts of doc, script and
upsert are valid JSON without insignificant white space. -/
theorem compact_payload (r : BulkUpdateRequest) (dj sj uj : Option String)
    (hd : ∀ x, dj = some x → PassesAsValue [ParseState.objectValue] x.data)
    (hs : ∀ x, sj = some x → PassesAsValue [ParseState.objectValue] x.data)
    (hu : ∀ x, uj = some x → PassesAsValue [ParseState.objectValue] x.data) :
    compact (easyjsonObject (payloadMembers r dj sj uj))
      = some (easyjsonObject (payloadMembers r dj sj uj)) := by
  apply compact_easyjsonObject
  have hb : ∀ key v, ∀ x ∈ omitEmptyBoolPtr key v,
      PassesAsValue [ParseState.objectValue] x.2.data := by
    intro key v x hx
    cases v with
    | none => simp [omitEmptyBoolPtr] at hx
    | some b =>
      simp only [omitEmptyBoolPtr, List.mem_singleton] at hx
      subst hx
      exact PassesAsValue_bool _ b
  have ho : ∀ key (j : Option String),
      (∀ x, j = some x → PassesAsValue [ParseState.objectValue] x.data) →
      ∀ x ∈ optionalMember key j, PassesAsValue [ParseState.objectValue] x.2.data := by
    intro key j hj x hx
    cases j with
    | none => simp [optionalMember] at hx
    | some t =>
      simp only [optionalMember, List.mem_singleton] at hx
      subst hx
      exact hj t rfl
  intro x hx
  simp only [payloadMembers, List.mem_append] at hx
  rcases hx with (((((h | h) | h) | h) | h) | h) | h
  · exact hb _ _ x h
  · exact ho _ _ hd x h
  · exact hb _ _ x h
  · exact ho _ _ hs x h
  · exact hb _ _ x h
  · exact ho _ _ hu x h
  · exact hb _ _ x h

/-! ## Bulk update request -/

/-- Every mutator that invalidates the cache leaves `source` nil. -/
theorem mutators_reset_source (r : BulkUpdateRequest) (str : String) (n : Int) (b : Bool)
    (v : Option GoValue) (sc : Option Script) :
    (r.Index str).source = none ∧ (r.Typ str).source = none ∧ (r.Id str).source = none
      ∧ (r.Routing str).source = none ∧ (r.Parent str).source = none
      ∧ (r.Script sc).source = none ∧ (r.ScriptedUpsert b).source = none
      ∧ (r.RetryOnConflict n).source = none ∧ (r.Version n).source = none
      ∧ (r.VersionType str).source = none ∧ (r.Doc v).source = none
      ∧ (r.DocAsUpsert b).source = none ∧ (r.DetectNoop b).source = none
      ∧ (r.Upsert v).source = none ∧ (r.ReturnSource b).source = none :=
  ⟨rfl, rfl, rfl, rfl, rfl, rfl, rfl, rfl, rfl, rfl, rfl, rfl, rfl, rfl, rfl⟩

/-- `IfSeqNo` and `IfPrimaryTerm` keep whatever lines are cached, so `Source()`
goes on returning them. -/
theorem IfSeqNo_IfPrimaryTerm_keep_source (E : EasyJSON) (r : BulkUpdateRequest) (n : Int)
    (lines : List String) (h : r.source = some lines) :
    ((r.IfSeqNo n).Source E).1 = Except.ok lines
      ∧ ((r.IfPrimaryTerm n).Source E).1 = Except.ok lines := by
  constructor <;> simp [BulkUpdateRequest.Source, BulkUpdateRequest.IfSeqNo,
    BulkUpdateRequest.IfPrimaryTerm, h]

set_option maxRecDepth 100000 in
/-- C6 (the code departs from the claim): after `Source()` has cached the lines
of `Index("opensearch-test").Id("1")`, the calls `IfSeqNo(5)` and
`IfPrimaryTerm(7)` leave the cache in place; the next `Source()` returns the old
metadata line, whereas a request with the same field values and no cache
encodes `if_seq_no` / `if_primary_term`. -/
theorem IfSeqNo_IfPrimaryTerm_stale_cache :
    ((update1ReqCached.IfSeqNo 5).Source generatedEasyJSON).1
        = Except.ok ["\x7b\"update\":\x7b\"_index\":\"opensearch-test\",\"_id\":\"1\"\x7d\x7d", "\x7b\x7d"]
      ∧ ((update1ReqCached.IfSeqNo 5).fresh.Source generatedEasyJSON).1
        = Except.ok
            ["\x7b\"update\":\x7b\"_index\":\"opensearch-test\",\"_id\":\"1\",\"if_seq_no\":5\x7d\x7d", "\x7b\x7d"]
      ∧ ((update1ReqCached.IfPrimaryTerm 7).Source generatedEasyJSON).1
        = Except.ok ["\x7b\"update\":\x7b\"_index\":\"opensearch-test\",\"_id\":\"1\"\x7d\x7d", "\x7b\x7d"]
      ∧ ((update1ReqCached.IfPrimaryTerm 7).fresh.Source generatedEasyJSON).1
        = Except.ok
            ["\x7b\"update\":\x7b\"_index\":\"opensearch-test\",\"_id\":\"1\",\"if_primary_term\":7\x7d\x7d",
              "\x7b\x7d"]
      ∧ ((update1ReqCached.Version 3).Source generatedEasyJSON).1
        = ((update1ReqCached.Version 3).fresh.Source generatedEasyJSON).1 :=
  ⟨rfl, rfl, rfl, rfl, rfl⟩

/-! ## Bulk accumulator -/

theorem len_append (a b : String) : len (a ++ b) = len a + len b := by
  simp only [len, String.utf8ByteSize, String.append]
  exact String.utf8Len_append a.data b.data

theorem len_newline : len "\n" = 1 := by decide

theorem len_empty : len "" = 0 := by decide

/-- A request that went through `Source()` answers the next `Source()` alike. -/
theorem BulkUpdateRequest_Source_idem (E : EasyJSON) (u : BulkUpdateRequest) :
    (u.Source E).2.Source E = u.Source E := by
  have key : (u.Source E).2 = u
      ∨ ∃ lines, u.Source E = (Except.ok lines, { u with source := some lines }) := by
    unfold BulkUpdateRequest.Source
    simp only []
    repeat' split
    all_goals first | exact Or.inl rfl | exact Or.inr ⟨_, rfl⟩
  rcases key with h | ⟨lines, h⟩
  · rw [h]
  · rw [h]
    simp [BulkUpdateRequest.Source]

theorem BulkableRequest_Source_idem (E : EasyJSON) (r : BulkableRequest) :
    (r.Source E).2.Source E = r.Source E := by
  cases r with
  | index t d => rfl
  | create t d => rfl
  | delete t => rfl
  | update u =>
    simp only [BulkableRequest.Source]
    rw [BulkUpdateRequest_Source_idem]

theorem BulkableRequest_String_snd (E : EasyJSON) (r : BulkableRequest) :
    (r.String E).2 = (r.Source E).2 := by
  unfold BulkableRequest.String
  rcases h : r.Source E with ⟨_ | _, r1⟩ <;> rfl

theorem BulkableRequest_String_idem (E : EasyJSON) (r : BulkableRequest) :
    ((r.String E).2.String E).1 = (r.String E).1 := by
  rw [BulkableRequest_String_snd]
  unfold BulkableRequest.String
  rw [BulkableRequest_Source_idem]

theorem writeLines_eq (buf : String) (lines : List String) :
    writeLines buf lines = buf ++ concatLines lines := by
  induction lines generalizing buf with
  | nil => simp [writeLines, concatLines]
  | cons line rest ih =>
    simp only [writeLines, ih, concatLines, List.foldr_cons, String.append_assoc]

theorem len_concatLines (lines : List String) : len (concatLines lines) = wireSize lines := by
  induction lines with
  | nil => simp [concatLines, wireSize, len_empty]
  | cons line rest ih =>
    simp only [concatLines, List.foldr_cons, wireSize, List.map_cons, List.sum_cons] at ih ⊢
    rw [len_append, len_append, len_newline, ih]

theorem wireSize_le_join (lines : List String) :
    wireSize lines ≤ 1 + len (stringsJoin lines "\n") := by
  induction lines with
  | nil => simp [wireSize]
  | cons a rest ih =>
    cases rest with
    | nil => simp [wireSize, stringsJoin]; omega
    | cons b rest =>
      simp only [wireSize, List.map_cons, List.sum_cons, stringsJoin, len_append, len_newline]
        at ih ⊢
      omega

theorem wireSize_eq_join (lines : List String) (h : lines ≠ []) :
    1 + len (stringsJoin lines "\n") = wireSize lines := by
  induction lines with
  | nil => exact absurd rfl h
  | cons a rest ih =>
    cases rest with
    | nil => simp [wireSize, stringsJoin]; omega
    | cons b rest =>
      have := ih (by simp)
      simp only [wireSize, List.map_cons, List.sum_cons, stringsJoin, len_append, len_newline]
        at this ⊢
      omega

theorem concatLines_append (a b : List String) :
    concatLines (a ++ b) = concatLines a ++ concatLines b := by
  induction a with
  | nil => simp [concatLines]
  | cons line rest ih =>
    simp only [concatLines, List.cons_append, List.foldr_cons, String.append_assoc] at ih ⊢
    rw [ih]

theorem bodyLoop_cons_error (E : EasyJSON) (buf : String) (r r1 : BulkableRequest)
    (rest : List BulkableRequest) (err : String) (h : r.Source E = (Except.error err, r1)) :
    bodyLoop E buf (r :: rest) = (Except.error err, r1 :: rest) := by
  simp only [bodyLoop, h]

theorem bodyLoop_cons_ok (E : EasyJSON) (buf : String) (r r1 : BulkableRequest)
    (rest : List BulkableRequest) (lines : List String) (h : r.Source E = (Except.ok lines, r1)) :
    bodyLoop E buf (r :: rest)
      = ((bodyLoop E (writeLines buf lines) rest).1,
          r1 :: (bodyLoop E (writeLines buf lines) rest).2) := by
  simp only [bodyLoop, h]

theorem bodyLoop_length (E : EasyJSON) (buf : String) (reqs : List BulkableRequest) :
    (bodyLoop E buf reqs).2.length = reqs.length := by
  induction reqs generalizing buf with
  | nil => rfl
  | cons r rest ih =>
    rcases h : r.Source E with ⟨err | lines, r1⟩
    · rw [bodyLoop_cons_error E buf r r1 rest err h]; rfl
    · rw [bodyLoop_cons_ok E buf r r1 rest lines h]
      simp [ih]

theorem bodyLoop_idem (E : EasyJSON) (buf : String) (reqs : List BulkableRequest) :
    bodyLoop E buf (bodyLoop E buf reqs).2 = bodyLoop E buf reqs := by
  induction reqs generalizing buf with
  | nil => rfl
  | cons r rest ih =>
    have hi := BulkableRequest_Source_idem E r
    rcases h : r.Source E with ⟨err | lines, r1⟩
    · rw [h] at hi
      rw [bodyLoop_cons_error E buf r r1 rest err h]
      exact bodyLoop_cons_error E buf r1 r1 rest err hi
    · rw [h] at hi
      rw [bodyLoop_cons_ok E buf r r1 rest lines h]
      simp only
      rw [bodyLoop_cons_ok E buf r1 r1 _ lines hi, ih]

theorem bodyLoop_sources (E : EasyJSON) (buf : String) (reqs : List BulkableRequest) :
    (bodyLoop E buf reqs).2.map (fun r => (r.Source E).1)
      = reqs.map (fun r => (r.Source E).1) := by
  induction reqs generalizing buf with
  | nil => rfl
  | cons r rest ih =>
    have hi := BulkableRequest_Source_idem E r
    rcases h : r.Source E with ⟨err | lines, r1⟩
    · rw [h] at hi
      rw [bodyLoop_cons_error E buf r r1 rest err h]
      simp only [List.map_cons, h, hi]
    · rw [h] at hi
      rw [bodyLoop_cons_ok E buf r r1 rest lines h]
      simp only [List.map_cons, h, hi, ih]

theorem bodyLoop_ok (E : EasyJSON) (buf : String) (reqs : List BulkableRequest)
    (sources : List (List String))
    (h : reqs.map (fun r => (r.Source E).1) = sources.map Except.ok) :
    (bodyLoop E buf reqs).1 = Except.ok (buf ++ concatLines sources.flatten) := by
  induction reqs generalizing buf sources with
  | nil =>
    cases sources with
    | nil => simp [bodyLoop, concatLines]
    | cons a b => simp at h
  | cons r rest ih =>
    cases sources with
    | nil => simp at h
    | cons lines more =>
      simp only [List.map_cons, List.cons.injEq] at h
      rcases hr : r.Source E with ⟨res, r1⟩
      rw [hr] at h
      simp only at h
      rw [h.1] at hr
      rw [bodyLoop_cons_ok E buf r r1 rest lines hr]
      simp only [ih _ more h.2, writeLines_eq, List.flatten_cons, concatLines_append,
        String.append_assoc]

theorem bodyLoop_length_le (E : EasyJSON) (buf : String) (reqs : List BulkableRequest) :
    bodyLength (bodyLoop E buf reqs).1
      ≤ len buf + (reqs.map (fun r => BulkService.estimateSizeInBytes E r)).sum := by
  induction reqs generalizing buf with
  | nil => simp [bodyLoop, bodyLength]
  | cons r rest ih =>
    rcases h : r.Source E with ⟨err | lines, r1⟩
    · rw [bodyLoop_cons_error E buf r r1 rest err h]
      simp [bodyLength]
    · rw [bodyLoop_cons_ok E buf r r1 rest lines h]
      have h1 := ih (writeLines buf lines)
      have h2 : len (writeLines buf lines) = len buf + wireSize lines := by
        rw [writeLines_eq, len_append, len_concatLines]
      have h3 : BulkService.estimateSizeInBytes E r = 1 + len (stringsJoin lines "\n") := by
        simp [BulkService.estimateSizeInBytes, BulkableRequest.String, h]
      have h4 := wireSize_le_join lines
      simp only [List.map_cons, List.sum_cons]
      omega

theorem addAll_snoc (E : EasyJSON) (actions : List BulkableRequest) (r : BulkableRequest) :
    addAll E (actions ++ [r]) = (addAll E actions).Add E r := by
  simp [addAll, List.foldl_append]

theorem estimateSizeInBytes_cached (E : EasyJSON) (r : BulkableRequest) :
    BulkService.estimateSizeInBytes E (r.String E).2 = BulkService.estimateSizeInBytes E r := by
  simp only [BulkService.estimateSizeInBytes, BulkableRequest_String_idem]

/-- The running total of an accumulator built by `Add` is the sum of the
estimates of its pending actions, and it holds as many actions as were added. -/
theorem addAll_invariant (E : EasyJSON) (actions : List BulkableRequest) :
    (addAll E actions).sizeInBytes
        = ((addAll E actions).requests.map (fun r => BulkService.estimateSizeInBytes E r)).sum
      ∧ (addAll E actions).requests.length = actions.length := by
  induction actions using List.reverseRecOn with
  | nil => exact ⟨rfl, rfl⟩
  | append_singleton l a ih =>
    rw [addAll_snoc]
    simp only [BulkService.Add, List.map_append, List.sum_append, List.map_cons, List.map_nil,
      List.sum_cons, List.sum_nil, estimateSizeInBytes_cached, List.length_append,
      List.length_cons, List.length_nil, ih.1, ih.2]
    exact ⟨by omega, trivial⟩

/-- C7: an accumulator is empty, with estimated size 0, right after `Reset()`
and right after every `Do()` that succeeded; `Do()` succeeds whenever the body
can be built and the transport answers; after `N` calls of `Add` the
accumulator held `N` actions. -/
theorem accumulator_cleared_after_Do_and_Reset {ρ : Type} (E : EasyJSON)
    (transport : String → Except String ρ) (s : BulkService) (actions : List BulkableRequest) :
    (s.Reset.NumberOfActions = 0 ∧ s.Reset.EstimatedSizeInBytes = 0)
    ∧ (∀ res s1, s.Do E transport = (Except.ok res, s1) →
        s1.NumberOfActions = 0 ∧ s1.EstimatedSizeInBytes = 0)
    ∧ (∀ body res, (s.bodyAsString E).1 = Except.ok body → transport body = Except.ok res →
        (s.Do E transport).1 = Except.ok res
          ∧ (s.Do E transport).2.NumberOfActions = 0
          ∧ (s.Do E transport).2.EstimatedSizeInBytes = 0)
    ∧ (addAll E actions).NumberOfActions = actions.length := by
  refine ⟨⟨rfl, rfl⟩, ?_, ?_, (addAll_invariant E actions).2⟩
  · intro res s1 h
    unfold BulkService.Do at h
    rcases hb : s.bodyAsString E with ⟨err | body, s2⟩
    · rw [hb] at h; simp at h
    · rw [hb] at h
      simp only at h
      cases ht : transport body with
      | error err => rw [ht] at h; simp at h
      | ok r =>
        rw [ht] at h
        simp only [Prod.mk.injEq] at h
        rw [← h.2]
        exact ⟨rfl, rfl⟩
  · intro body res hb ht
    unfold BulkService.Do
    rcases hb2 : s.bodyAsString E with ⟨res2, s2⟩
    rw [hb2] at hb
    simp only at hb
    subst hb
    simp [ht, BulkService.Reset, BulkService.NumberOfActions, BulkService.EstimatedSizeInBytes]

set_option maxRecDepth 100000 in
theorem sampleBatch_sources :
    (addAll generatedEasyJSON sampleBatch).requests.map (fun r => (r.Source generatedEasyJSON).1)
      = sampleSources.map Except.ok := by
  rfl

theorem sampleBatch_body :
    ((addAll generatedEasyJSON sampleBatch).bodyAsString generatedEasyJSON).1
      = Except.ok (concatLines sampleSources.flatten) := by
  have h := bodyLoop_ok generatedEasyJSON "" _ _ sampleBatch_sources
  simpa [BulkService.bodyAsString] using h

theorem accumulator_cleared_after_Do_and_Reset_witness :
    ((addAll generatedEasyJSON sampleBatch).Do generatedEasyJSON (respondingTransport "\x7b\x7d")).1 = Except.ok "\x7b\x7d"
      ∧ ((addAll generatedEasyJSON sampleBatch).Do generatedEasyJSON
          (respondingTransport "\x7b\x7d")).2.NumberOfActions = 0
      ∧ ((addAll generatedEasyJSON sampleBatch).Do generatedEasyJSON
          (respondingTransport "\x7b\x7d")).2.EstimatedSizeInBytes = 0
      ∧ (addAll generatedEasyJSON sampleBatch).NumberOfActions = 4 :=
  have h := accumulator_cleared_after_Do_and_Reset generatedEasyJSON (respondingTransport "\x7b\x7d")
    (addAll generatedEasyJSON sampleBatch) sampleBatch
  ⟨(h.2.2.1 (concatLines sampleSources.flatten) "\x7b\x7d" sampleBatch_body rfl).1,
    (h.2.2.1 (concatLines sampleSources.flatten) "\x7b\x7d" sampleBatch_body rfl).2.1,
    (h.2.2.1 (concatLines sampleSources.flatten) "\x7b\x7d" sampleBatch_body rfl).2.2, h.2.2.2⟩

/-- The accumulator after `bodyAsString` has the pending actions, the size
estimate and the body it had before. -/
theorem bodyAsString_preserves (E : EasyJSON) (s : BulkService) :
    (s.bodyAsString E).2.NumberOfActions = s.NumberOfActions
      ∧ (s.bodyAsString E).2.EstimatedSizeInBytes = s.EstimatedSizeInBytes
      ∧ (s.bodyAsString E).2.requests.map (fun r => (r.Source E).1)
          = s.requests.map (fun r => (r.Source E).1)
      ∧ ((s.bodyAsString E).2.bodyAsString E).1 = (s.bodyAsString E).1 := by
  refine ⟨?_, rfl, ?_, ?_⟩
  · simp [BulkService.bodyAsString, BulkService.NumberOfActions, bodyLoop_length]
  · simp [BulkService.bodyAsString, bodyLoop_sources]
  · simp [BulkService.bodyAsString, bodyLoop_idem]

theorem Do_error_state {ρ : Type} (E : EasyJSON) (transport : String → Except String ρ)
    (s : BulkService) (err : String) (h : (s.Do E transport).1 = Except.error err) :
    (s.Do E transport).2 = (s.bodyAsString E).2 := by
  unfold BulkService.Do at h ⊢
  rcases hb : s.bodyAsString E with ⟨e | body, s2⟩
  · rfl
  · rw [hb] at h
    simp only at h ⊢
    cases ht : transport body with
    | error e => rfl
    | ok r => rw [ht] at h; simp at h

/-- C8: when `Do()` fails because the transport returns an error (`body` is the
body that was built), the error is returned and the accumulator keeps its
pending actions: the same number of actions, the same size estimate, the same
lines for every action and the same body, so the batch can be sent again. -/
theorem failed_Do_keeps_pending_actions {ρ : Type} (E : EasyJSON)
    (transport : String → Except String ρ) (s : BulkService) (body err : String)
    (hb : (s.bodyAsString E).1 = Except.ok body)
    (ht : transport body = Except.error err) :
    (s.Do E transport).1 = Except.error err
      ∧ (s.Do E transport).2.NumberOfActions = s.NumberOfActions
      ∧ (s.Do E transport).2.EstimatedSizeInBytes = s.EstimatedSizeInBytes
      ∧ (s.Do E transport).2.requests.map (fun r => (r.Source E).1)
          = s.requests.map (fun r => (r.Source E).1)
      ∧ ((s.Do E transport).2.bodyAsString E).1 = Except.ok body := by
  have h1 : (s.Do E transport).1 = Except.error err := by
    unfold BulkService.Do
    rcases hb2 : s.bodyAsString E with ⟨res2, s2⟩
    rw [hb2] at hb
    simp only at hb
    subst hb
    simp only [ht]
  have h2 := Do_error_state E transport s err h1
  have h3 := bodyAsString_preserves E s
  rw [h2]
  exact ⟨h1, h3.1, h3.2.1, h3.2.2.1, by rw [h3.2.2.2, hb]⟩

theorem failed_Do_keeps_pending_actions_witness :
    ((addAll generatedEasyJSON sampleBatch).Do generatedEasyJSON failingTransport).1
        = Except.error "connection refused"
      ∧ ((addAll generatedEasyJSON sampleBatch).Do generatedEasyJSON failingTransport).2.NumberOfActions = 4
      ∧ (((addAll generatedEasyJSON sampleBatch).Do generatedEasyJSON failingTransport).2.bodyAsString
          generatedEasyJSON).1 = Except.ok (concatLines sampleSources.flatten) :=
  have h := failed_Do_keeps_pending_actions generatedEasyJSON failingTransport
    (addAll generatedEasyJSON sampleBatch) (concatLines sampleSources.flatten) "connection refused"
    sampleBatch_body rfl
  ⟨h.1, h.2.1.trans (addAll_invariant generatedEasyJSON sampleBatch).2, h.2.2.2.2⟩

/-- C9: for an accumulator built by any sequence of `Add` calls, the estimated
size is at least the byte length of what `bodyAsString()` returns; each further
`Add` increases it strictly, by `1 + len(r.String())`, which for a request that
encodes to at least one line is the bytes of its lines plus one per newline. -/
theorem EstimatedSizeInBytes_never_undercounts (E : EasyJSON) (actions : List BulkableRequest)
    (r : BulkableRequest) :
    bodyLength ((addAll E actions).bodyAsString E).1 ≤ (addAll E actions).EstimatedSizeInBytes
      ∧ (addAll E actions).EstimatedSizeInBytes
          < ((addAll E actions).Add E r).EstimatedSizeInBytes
      ∧ ((addAll E actions).Add E r).EstimatedSizeInBytes
          = (addAll E actions).EstimatedSizeInBytes + (1 + len (r.String E).1)
      ∧ BulkService.estimateSizeInBytes E r = 1 + len (r.String E).1
      ∧ (∀ lines, (r.Source E).1 = Except.ok lines → lines ≠ [] →
          1 + len (r.String E).1 = wireSize lines) := by
  refine ⟨?_, ?_, rfl, rfl, ?_⟩
  · have h1 := bodyLoop_length_le E "" (addAll E actions).requests
    have h2 := (addAll_invariant E actions).1
    simp only [BulkService.bodyAsString, BulkService.EstimatedSizeInBytes, len_empty] at h1 ⊢
    omega
  · simp only [BulkService.EstimatedSizeInBytes, BulkService.Add,
      BulkService.estimateSizeInBytes]
    omega
  · intro lines h hne
    rcases hs : r.Source E with ⟨res, r1⟩
    rw [hs] at h
    simp only at h
    subst h
    simp only [BulkableRequest.String, hs]
    exact wireSize_eq_join lines hne

/-- C10: when every pending action encodes (to the lines `sources`),
`bodyAsString()` is the concatenation, in insertion order, of all those lines,
each followed by one newline; the call leaves the number of actions, the size
estimate, every action's lines and the body as they were; for the batch
index(1), create(2), delete(1), update(2) the body consists of 7 lines. -/
theorem bodyAsString_concatenates_lines (E : EasyJSON) (s : BulkService)
    (sources : List (List String))
    (h : s.requests.map (fun r => (r.Source E).1) = sources.map Except.ok) :
    (s.bodyAsString E).1 = Except.ok (concatLines sources.flatten)
      ∧ ((s.bodyAsString E).2.NumberOfActions = s.NumberOfActions
        ∧ (s.bodyAsString E).2.EstimatedSizeInBytes = s.EstimatedSizeInBytes
        ∧ (s.bodyAsString E).2.requests.map (fun r => (r.Source E).1)
            = s.requests.map (fun r => (r.Source E).1)
        ∧ ((s.bodyAsString E).2.bodyAsString E).1 = (s.bodyAsString E).1)
      ∧ (((addAll generatedEasyJSON sampleBatch).bodyAsString generatedEasyJSON).1
          = Except.ok (concatLines
              [ "\x7b\"index\":\x7b\"_index\":\"opensearch-test\",\"_id\":\"1\"\x7d\x7d",
                "\x7b\"user\":\"olivere\",\"message\":\"Welcome to Golang and Opensearch.\",\"retweets\":0,\"created\":\"0001-01-01T00:00:00Z\"\x7d",
                "\x7b\"create\":\x7b\"_index\":\"opensearch-test\",\"_id\":\"2\"\x7d\x7d",
                "\x7b\"user\":\"sandrae\",\"message\":\"Dancing all night long. Yeah.\",\"retweets\":0,\"created\":\"0001-01-01T00:00:00Z\"\x7d",
                "\x7b\"delete\":\x7b\"_index\":\"opensearch-test\",\"_id\":\"1\"\x7d\x7d",
                "\x7b\"update\":\x7b\"_index\":\"opensearch-test\",\"_id\":\"2\"\x7d\x7d",
                "\x7b\"doc\":\x7b\"retweets\":42\x7d,\"_source\":true\x7d" ])) := by
  refine ⟨?_, bodyAsString_preserves E s, ?_⟩
  · have := bodyLoop_ok E "" s.requests sources h
    simpa [BulkService.bodyAsString] using this
  · exact sampleBatch_body

theorem bodyAsString_concatenates_lines_witness :
    ((addAll generatedEasyJSON sampleBatch).bodyAsString generatedEasyJSON).1
        = Except.ok (concatLines sampleSources.flatten)
      ∧ sampleSources.flatten.length = 7 :=
  ⟨(bodyAsString_concatenates_lines generatedEasyJSON (addAll generatedEasyJSON sampleBatch) sampleSources
      sampleBatch_sources).1, rfl⟩

theorem EstimatedSizeInBytes_never_undercounts_witness :
    bodyLength ((addAll generatedEasyJSON sampleBatch).bodyAsString generatedEasyJSON).1
        ≤ (addAll generatedEasyJSON sampleBatch).EstimatedSizeInBytes
      ∧ (addAll generatedEasyJSON sampleBatch).EstimatedSizeInBytes
          < ((addAll generatedEasyJSON sampleBatch).Add generatedEasyJSON
              (BulkableRequest.delete { index := "opensearch-test", id := "2" })).EstimatedSizeInBytes :=
  have h := EstimatedSizeInBytes_never_undercounts generatedEasyJSON sampleBatch
    (BulkableRequest.delete { index := "opensearch-test", id := "2" })
  ⟨h.1, h.2.1⟩

/-! ## Retry executor: the notify callback -/

theorem retryLoop_notify_discipline {σ ε : Type} (o : Operation σ ε) (b : Backoff σ)
    (f : Notify σ ε) (fuel : Nat) :
    ∀ (n : Int) (s : σ),
      NotifyDiscipline (retryLoop o b (some f) fuel n s).trace
        ∧ notifications (retryLoop o b (some f) fuel n s).trace
            = retries (retryLoop o b (some f) fuel n s).trace
        ∧ ((retryLoop o b (some f) fuel n s).result ≠ none →
            invocations (retryLoop o b (some f) fuel n s).trace
              = notifications (retryLoop o b (some f) fuel n s).trace + 1) := by
  induction fuel with
  | zero =>
    intro n s
    refine ⟨NotifyDiscipline.unfinished, rfl, fun h => ?_⟩
    simp [retryLoop] at h
  | succ fuel ih =>
    intro n s
    rcases h : o s with ⟨_ | err, s1⟩
    · rw [retryLoop_ok o b (some f) fuel n s s1 h]
      exact ⟨NotifyDiscipline.success, rfl, fun _ => rfl⟩
    · rcases hb : b.Next (wrapInt64 (n + 1)) s1 with ⟨⟨wait, _ | _⟩, s2⟩
      · rw [retryLoop_stop o b (some f) fuel n wait s s1 s2 err h hb]
        exact ⟨NotifyDiscipline.stop err _ wait, rfl, fun _ => rfl⟩
      · obtain ⟨h1, h2, h3⟩ := ih (wrapInt64 (n + 1)) (notifyState (some f) err s2)
        rw [retryLoop_retry o b (some f) fuel n wait s s1 s2 err h hb]
        refine ⟨?_, ?_, ?_⟩
        · exact NotifyDiscipline.retry err _ wait _ h1
        · simp only [notifications, retries, notifyEvents] at h2 ⊢
          simp [List.countP_cons, Event.isNotify, Event.isRetry, h2]
        · intro hr
          have h3 := h3 hr
          simp only [notifications, invocations, notifyEvents] at h3 ⊢
          simp [List.countP_cons, Event.isNotify, Event.isCall, h3]

/-- C13: in every run of `RetryNotify` with a notify callback the trace has the
shape `NotifyDiscipline`: each failed attempt on which the policy continues is
followed by the decision, then one `notify` with that attempt's error, then the
sleep and the next attempt, while a success or a failure on which the policy
stops ends the run without `notify`; so `notify` is called as often as retries
were granted, one less than the number of invocations of a run that returned. -/
theorem notify_once_per_retry {σ ε : Type} (o : Operation σ ε) (b : Backoff σ)
    (f : Notify σ ε) (fuel : Nat) (s : σ) :
    NotifyDiscipline (RetryNotify o b (some f) fuel s).trace
      ∧ notifications (RetryNotify o b (some f) fuel s).trace
          = retries (RetryNotify o b (some f) fuel s).trace
      ∧ ((RetryNotify o b (some f) fuel s).result ≠ none →
          invocations (RetryNotify o b (some f) fuel s).trace
            = notifications (RetryNotify o b (some f) fuel s).trace + 1) :=
  retryLoop_notify_discipline o b f fuel 0 s

theorem notify_once_per_retry_witness :
    NotifyDiscipline (RetryNotify loggedFailure (loggedMaxRetries 2) (some logError) 3
        (0, [])).trace
      ∧ (RetryNotify loggedFailure (loggedMaxRetries 2) (some logError) 3 (0, [])).trace
          = [Event.call (some 0), Event.next 1 10 true, Event.notify 0, Event.sleep 10,
              Event.call (some 1), Event.next 2 10 true, Event.notify 1, Event.sleep 10,
              Event.call (some 2), Event.next 3 10 false]
      ∧ (RetryNotify loggedFailure (loggedMaxRetries 2) (some logError) 3 (0, [])).state.2
          = [0, 1]
      ∧ notifications (RetryNotify loggedFailure (loggedMaxRetries 2) (some logError) 3
          (0, [])).trace = 2 :=
  ⟨(notify_once_per_retry loggedFailure (loggedMaxRetries 2) logError 3 (0, [])).1,
    by decide, by decide, by decide⟩

/-! ## Bulk update request: errors, raw documents, key order -/

/-- The three ways `Source()` can end: with the cached lines, with an error and
the request untouched, or with fresh lines that are cached. -/
theorem Source_result_cases (E : EasyJSON) (r : BulkUpdateRequest) :
    (∃ lines, r.source = some lines ∧ r.Source E = (Except.ok lines, r))
      ∨ (r.source = none
          ∧ ((∃ err, r.Source E = (Except.error err, r))
            ∨ ∃ lines, r.Source E = (Except.ok lines, { r with source := some lines }))) := by
  cases hs : r.source with
  | some l => left; exact ⟨l, rfl, by simp [BulkUpdateRequest.Source, hs]⟩
  | none =>
    right
    refine ⟨rfl, ?_⟩
    unfold BulkUpdateRequest.Source
    simp only [hs]
    repeat' split
    all_goals first | exact Or.inl ⟨_, rfl⟩ | exact Or.inr ⟨_, rfl⟩

theorem Source_error_state (E : EasyJSON) (r : BulkUpdateRequest) (err : Failure)
    (h : (r.Source E).1 = Except.error err) :
    r.source = none ∧ r.Source E = (Except.error err, r) := by
  rcases Source_result_cases E r with ⟨lines, _, h1⟩ | ⟨hs, ⟨e, h1⟩ | ⟨lines, h1⟩⟩
  · rw [h1] at h; cases h
  · rw [h1] at h
    simp only [Except.error.injEq] at h
    subst h
    exact ⟨hs, h1⟩
  · rw [h1] at h; cases h

theorem keys_omitEmptyInt_sublist (key : String) (v : Int) :
    ((omitEmptyInt key v).map Prod.fst).Sublist [key] := by
  unfold omitEmptyInt
  split_ifs <;> simp

theorem keys_omitEmptyIntPtr_sublist (key : String) (v : Option Int) :
    ((omitEmptyIntPtr key v).map Prod.fst).Sublist [key] := by
  cases v <;> simp [omitEmptyIntPtr]

theorem keys_omitEmptyBoolPtr_sublist (key : String) (v : Option Bool) :
    ((omitEmptyBoolPtr key v).map Prod.fst).Sublist [key] := by
  cases v <;> simp [omitEmptyBoolPtr]

theorem keys_optionalMember_sublist (key : String) (j : Option String) :
    ((optionalMember key j).map Prod.fst).Sublist [key] := by
  cases j <;> simp [optionalMember]

theorem payloadKeys_sublist (r : BulkUpdateRequest) (dj sj uj : Option String) :
    ((payloadMembers r dj sj uj).map Prod.fst).Sublist
      ["detect_noop", "doc", "doc_as_upsert", "script", "scripted_upsert", "upsert", "_source"] := by
  simp only [payloadMembers, List.map_append]
  exact ((((((keys_omitEmptyBoolPtr_sublist "detect_noop" _).append
    (keys_optionalMember_sublist "doc" _)).append
    (keys_omitEmptyBoolPtr_sublist "doc_as_upsert" _)).append
    (keys_optionalMember_sublist "script" _)).append
    (keys_omitEmptyBoolPtr_sublist "scripted_upsert" _)).append
    (keys_optionalMember_sublist "upsert" _)).append
    (keys_omitEmptyBoolPtr_sublist "_source" _)

theorem generatedEasyJSON_Generated : generatedEasyJSON.Generated :=
  ⟨fun _ => rfl, fun _ _ h => h, fun _ err h => ⟨err, h⟩, fun _ _ h => h⟩

theorem omitEmptyInterface_eq (key : String) (v : Option GoValue) (j : Option String)
    (h : marshalOptional v = Except.ok j) :
    omitEmptyInterface key v = Except.ok (optionalMember key j) := by
  cases v with
  | none =>
    simp only [marshalOptional, Except.ok.injEq] at h
    subst h
    rfl
  | some x =>
    simp only [marshalOptional] at h
    cases hx : easyjsonInterface x with
    | error err => rw [hx] at h; cases h
    | ok js =>
      rw [hx] at h
      simp only [Except.ok.injEq] at h
      subst h
      simp only [omitEmptyInterface, hx, optionalMember]

theorem omitEmptyInterface_error (key : String) (v : Option GoValue) (failure : Failure)
    (h : marshalOptional v = Except.error failure) :
    omitEmptyInterface key v = Except.error failure := by
  cases v with
  | none => cases h
  | some x =>
    simp only [marshalOptional] at h
    cases hx : easyjsonInterface x with
    | error e2 =>
      rw [hx] at h
      simp only [Except.error.injEq] at h
      subst h
      simp only [omitEmptyInterface, hx]
    | ok j => rw [hx] at h; cases h

/-- With the generated marshallers the metadata line of `Source` is written on
both paths, as `easyjsonCommand`. -/
theorem metadata_line (E : EasyJSON) (r : BulkUpdateRequest) (hE : E.Generated) :
    (if r.useEasyJSON = true then E.commandMarshalJSON [("update", r.updateCommand)]
      else jsonMarshalMarshaler E E.commandType
        (E.commandMarshalJSON [("update", r.updateCommand)]))
      = Except.ok (easyjsonCommand r.updateCommand) := by
  rw [hE.1]
  split_ifs
  · rfl
  · simp only [jsonMarshalMarshaler, compact_easyjsonCommand]

/-- `Source` on a request without cached lines, once the script has been
evaluated to `sv`, with the generated marshallers. -/
theorem Source_fresh (E : EasyJSON) (r : BulkUpdateRequest) (sv : Option GoValue)
    (hE : E.Generated) (hs : r.source = none) (hsv : r.scriptValue = Except.ok sv) :
    r.Source E =
      match (if r.useEasyJSON = true then E.dataMarshalJSON { r.commandData with Script := sv }
          else jsonMarshalMarshaler E E.dataType
            (E.dataMarshalJSON { r.commandData with Script := sv })) with
      | Except.error failure => (Except.error failure, r)
      | Except.ok line1 =>
        (Except.ok [easyjsonCommand r.updateCommand, line1],
          { r with source := some [easyjsonCommand r.updateCommand, line1] }) := by
  have h0 := metadata_line E r hE
  unfold BulkUpdateRequest.Source
  simp only [hs, h0]
  unfold BulkUpdateRequest.scriptValue at hsv
  cases hsc : r.script with
  | none =>
    rw [hsc] at hsv
    simp only [Except.ok.injEq] at hsv
    subst hsv
    simp
    rfl
  | some script =>
    rw [hsc] at hsv
    simp only at hsv
    simp [hsv]

/-- With the generated marshallers an error of `r.script.Source()` is what
`Source` returns for a request without cached lines. -/
theorem Source_script_error (E : EasyJSON) (r : BulkUpdateRequest) (err : String)
    (hE : E.Generated) (hs : r.source = none) (hsv : r.scriptValue = Except.error err) :
    r.Source E = (Except.error (Failure.error err), r) := by
  have h0 := metadata_line E r hE
  unfold BulkUpdateRequest.Source
  simp only [hs, h0]
  unfold BulkUpdateRequest.scriptValue at hsv
  cases hsc : r.script with
  | none => rw [hsc] at hsv; cases hsv
  | some script =>
    rw [hsc] at hsv
    simp only at hsv
    simp [hsv]

theorem easyjsonData_of_parts (r : BulkUpdateRequest) (sv : Option GoValue)
    (dt st ut : Option String)
    (hd : marshalOptional r.docValue = Except.ok dt)
    (hsc : marshalOptional sv = Except.ok st)
    (hu : marshalOptional r.upsert = Except.ok ut) :
    easyjsonData { r.commandData with Script := sv }
      = Except.ok (easyjsonObject (payloadMembers r dt st ut)) := by
  simp only [easyjsonData, bulkUpdateRequestCommandData.members,
    BulkUpdateRequest.commandData, omitEmptyInterface_eq "doc" _ dt hd,
    omitEmptyInterface_eq "script" _ st hsc, omitEmptyInterface_eq "upsert" _ ut hu, writerThen]
  rfl

/-- The lines of a request without cached lines whose script, doc and upsert
are written as `st`, `dt`, `ut` by the generated marshallers: with
`UseEasyJSON(true)` the two texts that the marshallers write, otherwise the
metadata text and the compaction of the payload text, and the error of
`encoding/json` when the payload text is not valid JSON. -/
theorem Source_lines (E : EasyJSON) (r : BulkUpdateRequest) (sv : Option GoValue)
    (dt st ut : Option String) (hE : E.Generated) (hs : r.source = none)
    (hsv : r.scriptValue = Except.ok sv)
    (hd : marshalOptional r.docValue = Except.ok dt)
    (hsc : marshalOptional sv = Except.ok st)
    (hu : marshalOptional r.upsert = Except.ok ut) :
    (r.useEasyJSON = true →
        (r.Source E).1 = Except.ok
          [easyjsonCommand r.updateCommand, easyjsonObject (payloadMembers r dt st ut)])
      ∧ (r.useEasyJSON = false → ∀ line1,
          compact (easyjsonObject (payloadMembers r dt st ut)) = some line1 →
          (r.Source E).1 = Except.ok [easyjsonCommand r.updateCommand, line1])
      ∧ (r.useEasyJSON = false →
          compact (easyjsonObject (payloadMembers r dt st ut)) = none →
          (r.Source E).1 = Except.error (Failure.error
            ("json: error calling MarshalJSON for type " ++ E.dataType ++ ": "
              ++ E.syntaxError (easyjsonObject (payloadMembers r dt st ut))))) := by
  have h1 := hE.2.1 _ _ (easyjsonData_of_parts r sv dt st ut hd hsc hu)
  rw [Source_fresh E r sv hE hs hsv, h1]
  refine ⟨fun h => ?_, fun h line1 hc => ?_, fun h hc => ?_⟩
  · simp [h]
  · simp [h, jsonMarshalMarshaler, hc]
  · simp [h, jsonMarshalMarshaler, hc]

/-- Which identity keys the metadata object of a request has. -/
theorem metadataKeys_iff (r : BulkUpdateRequest) :
    ("_index" ∈ r.metadataKeys ↔ r.index ≠ "")
      ∧ ("_type" ∈ r.metadataKeys ↔ r.typ ≠ "")
      ∧ ("_id" ∈ r.metadataKeys ↔ r.id ≠ "")
      ∧ ("routing" ∈ r.metadataKeys ↔ r.routing ≠ "")
      ∧ ("parent" ∈ r.metadataKeys ↔ r.parent ≠ "")
      ∧ ("version" ∈ r.metadataKeys ↔ r.version ≠ 0)
      ∧ ("version_type" ∈ r.metadataKeys ↔ r.versionType ≠ "")
      ∧ ("retry_on_conflict" ∈ r.metadataKeys ↔ r.retryOnConflict ≠ none)
      ∧ ("if_seq_no" ∈ r.metadataKeys ↔ r.ifSeqNo ≠ none)
      ∧ ("if_primary_term" ∈ r.metadataKeys ↔ r.ifPrimaryTerm ≠ none) := by
  have hs : ∀ (key k v : String), key ∈ (omitEmptyEasyString k v).map Prod.fst
      ↔ (key = k ∧ v ≠ "") := by
    intro key k v
    unfold omitEmptyEasyString
    split_ifs with h <;> simp [h]
  have hi : ∀ (key k : String) (v : Int), key ∈ (omitEmptyInt k v).map Prod.fst
      ↔ (key = k ∧ v ≠ 0) := by
    intro key k v
    unfold omitEmptyInt
    split_ifs with h <;> simp [h]
  have hp : ∀ (key k : String) (v : Option Int), key ∈ (omitEmptyIntPtr k v).map Prod.fst
      ↔ (key = k ∧ v ≠ none) := by
    intro key k v
    cases v <;> simp [omitEmptyIntPtr]
  simp only [BulkUpdateRequest.metadataKeys, bulkUpdateRequestCommandOp.members,
    BulkUpdateRequest.updateCommand, List.map_append, List.mem_append, hs, hi, hp]
  refine ⟨?_, ?_, ?_, ?_, ?_, ?_, ?_, ?_, ?_, ?_⟩ <;> simp

theorem metadataKeys_sublist (r : BulkUpdateRequest) :
    r.metadataKeys.Sublist
      ["_index", "_type", "_id", "parent", "retry_on_conflict", "routing", "version",
        "version_type", "if_seq_no", "if_primary_term"] := by
  have hs : ∀ (k v : String), ((omitEmptyEasyString k v).map Prod.fst).Sublist [k] := by
    intro k v
    unfold omitEmptyEasyString
    split_ifs <;> simp
  simp only [BulkUpdateRequest.metadataKeys, bulkUpdateRequestCommandOp.members, List.map_append]
  exact (((((((((hs "_index" _).append (hs "_type" _)).append (hs "_id" _)).append
    (hs "parent" _)).append (keys_omitEmptyIntPtr_sublist "retry_on_conflict" _)).append
    (hs "routing" _)).append (keys_omitEmptyInt_sublist "version" _)).append
    (hs "version_type" _)).append (keys_omitEmptyIntPtr_sublist "if_seq_no" _)).append
    (keys_omitEmptyIntPtr_sublist "if_primary_term" _)

/-- With the generated marshallers, line 0 of what `Source` returns for a
request without cached lines is the metadata object of its fields. -/
theorem Source_ok_head (E : EasyJSON) (r : BulkUpdateRequest) (lines : List String)
    (hE : E.Generated) (hs : r.source = none) (h : (r.Source E).1 = Except.ok lines) :
    ∃ line1, lines = [easyjsonCommand r.updateCommand, line1] := by
  cases hsv : r.scriptValue with
  | error err => rw [Source_script_error E r err hE hs hsv] at h; cases h
  | ok sv =>
    rw [Source_fresh E r sv hE hs hsv] at h
    split at h
    · cases h
    · simp only [Except.ok.injEq] at h
      exact ⟨_, h.symm⟩

set_option maxRecDepth 100000 in
/-- C4 (the code departs from the claim): a request without cached lines whose
doc, script and upsert are marshalled without failure encodes as exactly two
lines, the object `{"update": {identity fields}}` and the payload object with
the members detect_noop, doc, doc_as_upsert, script, scripted_upsert, upsert,
_source (compacted unless `UseEasyJSON(true)`), as for the update request of
`TestBulkIndexDeleteUpdate`. But `IfSeqNo` and `IfPrimaryTerm` do not reset
the cache: after `Index("opensearch-test").Id("1")`, `Source()`, `IfSeqNo(5)`
the next `Source()` returns a line 0 without the identity field `if_seq_no`,
which the metadata object of the request's field values holds. -/
theorem Source_two_lines_stale_metadata :
    (∀ (E : EasyJSON) (r : BulkUpdateRequest) (sv : Option GoValue) (dt st ut : Option String),
        E.Generated → r.source = none → r.scriptValue = Except.ok sv →
        marshalOptional r.docValue = Except.ok dt → marshalOptional sv = Except.ok st →
        marshalOptional r.upsert = Except.ok ut →
        (r.useEasyJSON = true →
          (r.Source E).1 = Except.ok
            [easyjsonCommand r.updateCommand, easyjsonObject (payloadMembers r dt st ut)])
          ∧ (r.useEasyJSON = false → ∀ line1,
            compact (easyjsonObject (payloadMembers r dt st ut)) = some line1 →
            (r.Source E).1 = Except.ok [easyjsonCommand r.updateCommand, line1]))
      ∧ (update2Req.Source generatedEasyJSON).1
        = Except.ok ["\x7b\"update\":\x7b\"_index\":\"opensearch-test\",\"_id\":\"2\"\x7d\x7d",
            "\x7b\"doc\":\x7b\"retweets\":42\x7d,\"_source\":true\x7d"]
      ∧ ((update1ReqCached.IfSeqNo 5).Source generatedEasyJSON).1
        = Except.ok ["\x7b\"update\":\x7b\"_index\":\"opensearch-test\",\"_id\":\"1\"\x7d\x7d", "\x7b\x7d"]
      ∧ easyjsonCommand (update1ReqCached.IfSeqNo 5).updateCommand
        = "\x7b\"update\":\x7b\"_index\":\"opensearch-test\",\"_id\":\"1\",\"if_seq_no\":5\x7d\x7d" :=
  ⟨fun E r sv dt st ut hE hs hsv hd hsc hu =>
      ⟨(Source_lines E r sv dt st ut hE hs hsv hd hsc hu).1,
        (Source_lines E r sv dt st ut hE hs hsv hd hsc hu).2.1⟩,
    rfl, rfl, by decide⟩

set_option maxRecDepth 100000 in
/-- C5 (the code departs from the claim): the metadata object that is written
for a request has each identity key exactly when the field is set (a string
that is not empty, a version that is not zero, a pointer that a setter has
assigned), it is line 0 of `Source()` for a request without cached lines, and a
new request encodes as `{"update":{}}`. But `IfSeqNo` and `IfPrimaryTerm` do
not reset the cache: after `Index("opensearch-test").Id("1")` and `Source()`,
the setters `IfSeqNo(5)` and `IfPrimaryTerm(7)` assign their fields, and the
next `Source()` returns a metadata line without `if_seq_no` and
`if_primary_term`. -/
theorem metadata_keys_stale_after_setter :
    (∀ r : BulkUpdateRequest,
        ("_index" ∈ r.metadataKeys ↔ r.index ≠ "")
          ∧ ("_type" ∈ r.metadataKeys ↔ r.typ ≠ "")
          ∧ ("_id" ∈ r.metadataKeys ↔ r.id ≠ "")
          ∧ ("routing" ∈ r.metadataKeys ↔ r.routing ≠ "")
          ∧ ("parent" ∈ r.metadataKeys ↔ r.parent ≠ "")
          ∧ ("version" ∈ r.metadataKeys ↔ r.version ≠ 0)
          ∧ ("version_type" ∈ r.metadataKeys ↔ r.versionType ≠ "")
          ∧ ("retry_on_conflict" ∈ r.metadataKeys ↔ r.retryOnConflict ≠ none)
          ∧ ("if_seq_no" ∈ r.metadataKeys ↔ r.ifSeqNo ≠ none)
          ∧ ("if_primary_term" ∈ r.metadataKeys ↔ r.ifPrimaryTerm ≠ none))
      ∧ (∀ (E : EasyJSON) (r : BulkUpdateRequest) (lines : List String),
          E.Generated → r.source = none → (r.Source E).1 = Except.ok lines →
          lines.head? = some (easyjsonObject [("update", easyjsonObject r.updateCommand.members)]))
      ∧ (NewBulkUpdateRequest.Source generatedEasyJSON).1
        = Except.ok ["\x7b\"update\":\x7b\x7d\x7d", "\x7b\x7d"]
      ∧ ((NewBulkUpdateRequest.UseEasyJSON true).Source generatedEasyJSON).1
        = Except.ok ["\x7b\"update\":\x7b\x7d\x7d", "\x7b\x7d"]
      ∧ ((update1ReqCached.IfSeqNo 5).ifSeqNo = some 5
        ∧ "if_seq_no" ∈ (update1ReqCached.IfSeqNo 5).metadataKeys
        ∧ ((update1ReqCached.IfSeqNo 5).Source generatedEasyJSON).1
          = Except.ok
            ["\x7b\"update\":\x7b\"_index\":\"opensearch-test\",\"_id\":\"1\"\x7d\x7d", "\x7b\x7d"])
      ∧ ((update1ReqCached.IfPrimaryTerm 7).ifPrimaryTerm = some 7
        ∧ "if_primary_term" ∈ (update1ReqCached.IfPrimaryTerm 7).metadataKeys
        ∧ ((update1ReqCached.IfPrimaryTerm 7).Source generatedEasyJSON).1
          = Except.ok
            ["\x7b\"update\":\x7b\"_index\":\"opensearch-test\",\"_id\":\"1\"\x7d\x7d", "\x7b\x7d"]) :=
  ⟨metadataKeys_iff,
    fun E r lines hE hs h => by
      obtain ⟨line1, rfl⟩ := Source_ok_head E r lines hE hs h
      rfl,
    rfl, rfl, ⟨rfl, by decide, rfl⟩, ⟨rfl, by decide, rfl⟩⟩

set_option maxRecDepth 100000 in
/-- C16 (the code departs from the claim): the keys of the metadata object and
of the payload object are written in the two fixed orders, as the request with
every field set shows, and `Index(X).Id("2").ReturnSource(true).Doc(..)` with
`retweets: 42` encodes as the claim says, for every `X`. But `IfSeqNo` does not
reset the cache: the request `Index("opensearch-test").Id("1")`, `Source()`,
`IfSeqNo(5)` and the request `Index("opensearch-test").Id("1").IfSeqNo(5)` have
equal field values and `Source()` returns different lines for them. -/
theorem Source_key_order_stale_lines :
    (∀ r : BulkUpdateRequest, r.metadataKeys.Sublist
        ["_index", "_type", "_id", "parent", "retry_on_conflict", "routing", "version",
          "version_type", "if_seq_no", "if_primary_term"])
      ∧ (∀ (r : BulkUpdateRequest) (dj sj uj : Option String),
          ((payloadMembers r dj sj uj).map Prod.fst).Sublist
            ["detect_noop", "doc", "doc_as_upsert", "script", "scripted_upsert", "upsert",
              "_source"])
      ∧ (fullUpdateReq.Source generatedEasyJSON).1
        = Except.ok
          ["\x7b\"update\":\x7b\"_index\":\"i\",\"_type\":\"t\",\"_id\":\"1\",\"parent\":\"p\",\"retry_on_conflict\":3,\"routing\":\"r\",\"version\":7,\"version_type\":\"external\",\"if_seq_no\":5,\"if_primary_term\":6\x7d\x7d",
            "\x7b\"detect_noop\":true,\"doc\":\x7b\"a\":1\x7d,\"doc_as_upsert\":false,\"script\":\x7b\"source\":\"ctx.n++\"\x7d,\"scripted_upsert\":true,\"upsert\":\x7b\"b\":2\x7d,\"_source\":true\x7d"]
      ∧ (∀ (X : String) (easy : Bool),
          (((updateReqFor X).UseEasyJSON easy).Source generatedEasyJSON).1
            = Except.ok
              [easyjsonObject [("update", easyjsonObject
                  (omitEmptyEasyString "_index" X ++ [("_id", "\"2\"")]))],
                "\x7b\"doc\":\x7b\"retweets\":42\x7d,\"_source\":true\x7d"])
      ∧ ((updateReqFor "X").Source generatedEasyJSON).1
        = Except.ok ["\x7b\"update\":\x7b\"_index\":\"X\",\"_id\":\"2\"\x7d\x7d",
            "\x7b\"doc\":\x7b\"retweets\":42\x7d,\"_source\":true\x7d"]
      ∧ ((update1ReqCached.IfSeqNo 5).fresh = (update1Req.IfSeqNo 5).fresh
        ∧ ((update1ReqCached.IfSeqNo 5).Source generatedEasyJSON).1
          = Except.ok
            ["\x7b\"update\":\x7b\"_index\":\"opensearch-test\",\"_id\":\"1\"\x7d\x7d", "\x7b\x7d"]
        ∧ ((update1Req.IfSeqNo 5).Source generatedEasyJSON).1
          = Except.ok
            ["\x7b\"update\":\x7b\"_index\":\"opensearch-test\",\"_id\":\"1\",\"if_seq_no\":5\x7d\x7d",
              "\x7b\x7d"]) := by
  refine ⟨metadataKeys_sublist, payloadKeys_sublist, rfl, ?_, rfl, rfl, rfl, rfl⟩
  intro X easy
  have hl := Source_lines generatedEasyJSON ((updateReqFor X).UseEasyJSON easy) none
    (some "\x7b\"retweets\":42\x7d") none none generatedEasyJSON_Generated rfl rfl rfl rfl rfl
  have h0 : easyjsonCommand ((updateReqFor X).UseEasyJSON easy).updateCommand
      = easyjsonObject [("update", easyjsonObject
          (omitEmptyEasyString "_index" X ++ [("_id", "\"2\"")]))] := by
    simp only [easyjsonCommand, bulkUpdateRequestCommandOp.members,
      BulkUpdateRequest.updateCommand, updateReqFor, BulkUpdateRequest.UseEasyJSON,
      BulkUpdateRequest.Doc, BulkUpdateRequest.ReturnSource, BulkUpdateRequest.Id,
      BulkUpdateRequest.Index, NewBulkUpdateRequest]
    have e1 : ∀ k, omitEmptyEasyString k "" = [] := fun k => by simp [omitEmptyEasyString]
    have e2 : omitEmptyEasyString "_id" "2" = [("_id", "\"2\"")] := by decide
    simp [e1, e2, omitEmptyIntPtr, omitEmptyInt]
  have h1 : payloadMembers ((updateReqFor X).UseEasyJSON easy)
      (some "\x7b\"retweets\":42\x7d") none none
      = [("doc", "\x7b\"retweets\":42\x7d"), ("_source", "true")] := rfl
  rw [h0, h1] at hl
  cases easy with
  | true => exact hl.1 rfl
  | false => exact hl.2.1 rfl _ (by decide)

theorem omitEmptyInterface_map (key : String) (v : Option GoValue) :
    omitEmptyInterface key v
      = match marshalOptional v with
        | Except.ok j => Except.ok (optionalMember key j)
        | Except.error failure => Except.error failure := by
  cases h : marshalOptional v with
  | ok j => exact omitEmptyInterface_eq key v j h
  | error failure => exact omitEmptyInterface_error key v failure h

/-- How the generated marshaller of the payload ends, by how the marshalling
of doc, script and upsert ends: it panics exactly when one of them panics, and
otherwise returns an error when one of them is rejected. -/
theorem easyjsonData_failure (data : bulkUpdateRequestCommandData) :
    ((∃ value, easyjsonData data = Except.error (Failure.panic value))
        ↔ (marshalPanics data.Doc ∨ marshalPanics data.Script ∨ marshalPanics data.Upsert))
      ∧ (¬ marshalPanics data.Doc → ¬ marshalPanics data.Script → ¬ marshalPanics data.Upsert →
          (marshalRejected data.Doc ∨ marshalRejected data.Script ∨ marshalRejected data.Upsert) →
          ∃ err, easyjsonData data = Except.error (Failure.error err)) := by
  simp only [easyjsonData, bulkUpdateRequestCommandData.members, omitEmptyInterface_map,
    marshalPanics, marshalRejected]
  rcases hd : marshalOptional data.Doc with (e1 | v1) | j1 <;>
    rcases hs : marshalOptional data.Script with (e2 | v2) | j2 <;>
    rcases hu : marshalOptional data.Upsert with (e3 | v3) | j3 <;>
    simp [writerThen]

/-- A failure of the metadata marshaller ends `Source` for a request without
cached lines. -/
theorem Source_metadata_failure (F : EasyJSON) (r : BulkUpdateRequest) (failure : Failure)
    (hs : r.source = none)
    (h : (if r.useEasyJSON = true then F.commandMarshalJSON [("update", r.updateCommand)]
      else jsonMarshalMarshaler F F.commandType
        (F.commandMarshalJSON [("update", r.updateCommand)])) = Except.error failure) :
    r.Source F = (Except.error failure, r) := by
  unfold BulkUpdateRequest.Source
  simp only [hs, h]

theorem String_of_Source (E : EasyJSON) (r : BulkUpdateRequest) :
    (∀ err, (r.Source E).1 = Except.error (Failure.error err) →
        (r.String E).1 = Except.ok ("error: " ++ err))
      ∧ (∀ value, (r.Source E).1 = Except.error (Failure.panic value) →
        (r.String E).1 = Except.error value)
      ∧ (∀ lines, (r.Source E).1 = Except.ok lines →
        (r.String E).1 = Except.ok (stringsJoin lines "\n")) := by
  unfold BulkUpdateRequest.String
  rcases h : r.Source E with ⟨(e | v) | lines, r1⟩ <;> simp

/-- C14 as stated fails: the document of `panickingDocReq` is of a caller's
type whose `MarshalJSON` panics, so it cannot be serialized; `Source()` does
not return `(nil, err)` for it but ends with the panic, on both encoding paths
and also when the value is the upsert document or when another value has been
rejected with an error before, and `String()` ends with the panic as well. -/
theorem Source_panics_with_marshaller :
    (panickingDocReq.Source generatedEasyJSON).1 = Except.error (Failure.panic "boom")
      ∧ ((panickingDocReq.UseEasyJSON true).Source generatedEasyJSON).1
        = Except.error (Failure.panic "boom")
      ∧ ((update1Req.Upsert (some (GoValue.panicking "boom"))).Source generatedEasyJSON).1
        = Except.error (Failure.panic "boom")
      ∧ ((badUpsertReq.Doc (some (GoValue.panicking "boom"))).Source generatedEasyJSON).1
        = Except.error (Failure.panic "boom")
      ∧ ((panickingDocReq.Upsert (some (GoValue.unsupported "chan int"))).Source
          generatedEasyJSON).1 = Except.error (Failure.panic "boom")
      ∧ (((update1Req.Doc (some (GoValue.unsupported "chan int"))).Upsert
          (some (GoValue.panicking "boom"))).Source generatedEasyJSON).1
        = Except.error (Failure.panic "boom")
      ∧ (panickingDocReq.String generatedEasyJSON).1 = Except.error "boom" :=
  ⟨rfl, rfl, rfl, rfl, rfl, rfl, rfl⟩

/-- C14 (amended): with the generated marshallers, whenever `Source()` fails
the request is left as it was, without cached lines, so that the next
`Source()` encodes again; `String()` renders a returned error as
`"error: <err>"`, and a panic passes through it. With cached lines `Source()`
returns them. Without cached lines it returns the error of the metadata
marshaller (as it is with `UseEasyJSON(true)`, as a `MarshalerError`
otherwise), the error of `r.script.Source()`, the error of the payload
marshaller (likewise), and an error whenever the marshalling of doc, script
value or upsert is rejected and none of them panics; it ends with a panic
exactly when the marshalling of one of them panics. -/
theorem Source_error_returned_not_cached (E : EasyJSON) (r : BulkUpdateRequest)
    (hE : E.Generated) :
    (∀ failure, (r.Source E).1 = Except.error failure →
        r.source = none ∧ (r.Source E).2 = r
          ∧ ((r.Source E).2.Source E).1 = Except.error failure)
      ∧ (∀ err, (r.Source E).1 = Except.error (Failure.error err) →
        (r.String E).1 = Except.ok ("error: " ++ err))
      ∧ (∀ value, (r.Source E).1 = Except.error (Failure.panic value) →
        (r.String E).1 = Except.error value)
      ∧ (∀ lines, r.source = some lines → (r.Source E).1 = Except.ok lines)
      ∧ (∀ (F : EasyJSON) (err : String), r.source = none →
          F.commandMarshalJSON [("update", r.updateCommand)] = Except.error (Failure.error err) →
          (r.Source F).1 = Except.error (Failure.error
            (if r.useEasyJSON = true then err
              else "json: error calling MarshalJSON for type " ++ F.commandType ++ ": " ++ err)))
      ∧ (r.source = none → ∀ err, r.scriptValue = Except.error err →
          (r.Source E).1 = Except.error (Failure.error err))
      ∧ (r.source = none → ∀ sv err, r.scriptValue = Except.ok sv →
          E.dataMarshalJSON { r.commandData with Script := sv }
            = Except.error (Failure.error err) →
          (r.Source E).1 = Except.error (Failure.error
            (if r.useEasyJSON = true then err
              else "json: error calling MarshalJSON for type " ++ E.dataType ++ ": " ++ err)))
      ∧ (r.source = none → ∀ sv, r.scriptValue = Except.ok sv →
          ¬ marshalPanics r.docValue → ¬ marshalPanics sv → ¬ marshalPanics r.upsert →
          (marshalRejected r.docValue ∨ marshalRejected sv ∨ marshalRejected r.upsert) →
          ∃ err, (r.Source E).1 = Except.error (Failure.error err))
      ∧ (r.source = none → ∀ sv, r.scriptValue = Except.ok sv →
          ((∃ value, (r.Source E).1 = Except.error (Failure.panic value))
            ↔ (marshalPanics r.docValue ∨ marshalPanics sv ∨ marshalPanics r.upsert))) := by
  refine ⟨fun failure h => ?_, (String_of_Source E r).1, (String_of_Source E r).2.1,
    fun lines h => by simp [BulkUpdateRequest.Source, h], fun F err hs h => ?_,
    fun hs err hsv => by rw [Source_script_error E r err hE hs hsv],
    fun hs sv err hsv h => ?_, fun hs sv hsv hp1 hp2 hp3 hr => ?_, fun hs sv hsv => ?_⟩
  · obtain ⟨hs, h1⟩ := Source_error_state E r failure h
    rw [h1]
    exact ⟨hs, rfl, by rw [h1]⟩
  · by_cases hu : r.useEasyJSON = true
    · rw [Source_metadata_failure F r (Failure.error err) hs (by simp [hu, h])]
      simp [hu]
    · rw [Source_metadata_failure F r (Failure.error
        ("json: error calling MarshalJSON for type " ++ F.commandType ++ ": " ++ err)) hs
        (by simp [hu, h, jsonMarshalMarshaler])]
      simp [hu]
  · rw [Source_fresh E r sv hE hs hsv, h]
    split_ifs <;> simp [jsonMarshalMarshaler]
  · obtain ⟨err, he⟩ :=
      (easyjsonData_failure { r.commandData with Script := sv }).2 hp1 hp2 hp3 hr
    obtain ⟨err2, he2⟩ := hE.2.2.1 _ _ he
    rw [Source_fresh E r sv hE hs hsv, he2]
    split_ifs
    · exact ⟨err2, rfl⟩
    · exact ⟨_, rfl⟩
  · have hf : (∃ value, easyjsonData { r.commandData with Script := sv }
          = Except.error (Failure.panic value))
        ↔ (marshalPanics r.docValue ∨ marshalPanics sv ∨ marshalPanics r.upsert) :=
      (easyjsonData_failure { r.commandData with Script := sv }).1
    rw [← hf, Source_fresh E r sv hE hs hsv]
    constructor
    · rintro ⟨value, h⟩
      rcases hd : easyjsonData { r.commandData with Script := sv } with (e | v) | text
      · obtain ⟨err2, he2⟩ := hE.2.2.1 _ _ hd
        rw [he2] at h
        split_ifs at h <;> simp [jsonMarshalMarshaler] at h
      · exact ⟨v, rfl⟩
      · rw [hE.2.1 _ _ hd] at h
        by_cases hu : r.useEasyJSON = true
        · simp [hu] at h
        · cases hc : compact text <;> simp [hu, jsonMarshalMarshaler, hc] at h
    · rintro ⟨value, h⟩
      rw [hE.2.2.2 _ _ h]
      exact ⟨value, by split_ifs <;> simp [jsonMarshalMarshaler]⟩

set_option maxRecDepth 100000 in
theorem Source_error_returned_not_cached_witness :
    (badUpsertReq.Source generatedEasyJSON).1
        = Except.error (Failure.error
          "json: error calling MarshalJSON for type *opensearch.bulkUpdateRequestCommandData: json: unsupported type: chan int")
      ∧ (badUpsertReq.String generatedEasyJSON).1
        = Except.ok
          "error: json: error calling MarshalJSON for type *opensearch.bulkUpdateRequestCommandData: json: unsupported type: chan int"
      ∧ (badUpsertReq.Source generatedEasyJSON).2 = badUpsertReq
      ∧ ((badUpsertReq.Source generatedEasyJSON).2.Source generatedEasyJSON).1
        = Except.error (Failure.error
          "json: error calling MarshalJSON for type *opensearch.bulkUpdateRequestCommandData: json: unsupported type: chan int")
      ∧ ((badUpsertReq.UseEasyJSON true).Source generatedEasyJSON).1
        = Except.error (Failure.error "json: unsupported type: chan int")
      ∧ ((update1Req.Script (some badScript)).Source generatedEasyJSON).1
        = Except.error (Failure.error "script: no source")
      ∧ ((rawDocReq "\x7b").Source generatedEasyJSON).1
        = Except.error (Failure.error
          "json: error calling MarshalJSON for type *opensearch.bulkUpdateRequestCommandData: unexpected end of JSON input")
      ∧ (((rawDocReq "\x7b").UseEasyJSON true).Source generatedEasyJSON).1
        = Except.ok ["\x7b\"update\":\x7b\x7d\x7d", "\x7b\"doc\":\x7b\x7d"] :=
  ⟨rfl,
    (Source_error_returned_not_cached generatedEasyJSON badUpsertReq
      generatedEasyJSON_Generated).2.1 _ rfl,
    ((Source_error_returned_not_cached generatedEasyJSON badUpsertReq
      generatedEasyJSON_Generated).1 _ rfl).2.1,
    ((Source_error_returned_not_cached generatedEasyJSON badUpsertReq
      generatedEasyJSON_Generated).1 _ rfl).2.2,
    rfl, rfl, rfl, rfl⟩

theorem flatMap_length_ge (f : Char → List Char) (hf : ∀ c, 0 < (f c).length)
    (cs : List Char) : cs.length ≤ (cs.flatMap f).length := by
  induction cs with
  | nil => simp
  | cons c rest ih =>
    rw [List.flatMap_cons, List.length_append, List.length_cons]
    have := hf c
    omega

theorem escapeChar_length_pos (c : Char) : 0 < (escapeChar c).length := by
  unfold escapeChar escapeU00
  split_ifs <;> simp

theorem easyjsonEscapeChar_length_pos (c : Char) : 0 < (easyjsonEscapeChar c).length := by
  unfold easyjsonEscapeChar escapeU00
  split_ifs <;> simp

/-- A text differs from the JSON string literal that quotes it. -/
theorem ne_quoted (t : String) : t ≠ encodeString t ∧ t ≠ easyjsonString t := by
  constructor
  · intro h
    have h1 := congrArg (fun s => s.data.length) h
    have h2 := flatMap_length_ge escapeChar escapeChar_length_pos t.data
    simp only [encodeString, List.length_cons, List.length_append, List.length_nil] at h1
    omega
  · intro h
    have h1 := congrArg (fun s => s.data.length) h
    have h2 := flatMap_length_ge easyjsonEscapeChar easyjsonEscapeChar_length_pos t.data
    simp only [easyjsonString, List.length_cons, List.length_append, List.length_nil] at h1
    omega

theorem len_pos_ne_empty (t : String) (h : 0 < len t) : t ≠ "" := by
  rintro rfl
  revert h
  decide

/-- The local `doc` of `Source` for a non-empty string or a pointer to one. -/
theorem docValue_string (r : BulkUpdateRequest) (d : GoValue) (t : String)
    (hd : d = GoValue.string t ∨ d = GoValue.stringPtr (some t)) (ht : 0 < len t) :
    (r.Doc (some d)).docValue = some (GoValue.rawMessage t) := by
  rcases hd with rfl | rfl <;> simp [BulkUpdateRequest.docValue, BulkUpdateRequest.Doc, ht]

/-- C15: for a document given to `Doc` as a non-empty string `t`, or as a
pointer to one, `Source()` hands `json.RawMessage(t)` to the marshaller, and
the generated marshaller pastes `t` as it is as the value of `"doc"`, not the
JSON string literal that quotes `t`. With `UseEasyJSON(true)` the payload line
is the text so written; otherwise `json.Marshal` compacts that text, which
leaves it as it is when `t` and the texts of script and upsert are valid JSON
without insignificant white space, and returns an error when the text is not
valid JSON. A document of any other type reaches the marshaller as it is. -/
theorem Doc_string_embedded_as_raw_JSON (E : EasyJSON) (r : BulkUpdateRequest) (d : GoValue)
    (t : String) (sv : Option GoValue) (st ut : Option String) (hE : E.Generated)
    (hd : d = GoValue.string t ∨ d = GoValue.stringPtr (some t)) (ht : 0 < len t)
    (hsv : r.scriptValue = Except.ok sv) (hst : marshalOptional sv = Except.ok st)
    (hut : marshalOptional r.upsert = Except.ok ut) :
    (r.Doc (some d)).docValue = some (GoValue.rawMessage t)
      ∧ marshalOptional (r.Doc (some d)).docValue = Except.ok (some t)
      ∧ ("doc", t) ∈ payloadMembers (r.Doc (some d)) (some t) st ut
      ∧ (t ≠ encodeString t ∧ t ≠ easyjsonString t)
      ∧ ((r.Doc (some d)).useEasyJSON = true →
          ((r.Doc (some d)).Source E).1 = Except.ok
            [easyjsonCommand (r.Doc (some d)).updateCommand,
              easyjsonObject (payloadMembers (r.Doc (some d)) (some t) st ut)])
      ∧ ((r.Doc (some d)).useEasyJSON = false → ∀ line1,
          compact (easyjsonObject (payloadMembers (r.Doc (some d)) (some t) st ut)) = some line1 →
          ((r.Doc (some d)).Source E).1
            = Except.ok [easyjsonCommand (r.Doc (some d)).updateCommand, line1])
      ∧ ((r.Doc (some d)).useEasyJSON = false →
          compact (easyjsonObject (payloadMembers (r.Doc (some d)) (some t) st ut)) = none →
          ((r.Doc (some d)).Source E).1 = Except.error (Failure.error
            ("json: error calling MarshalJSON for type " ++ E.dataType ++ ": "
              ++ E.syntaxError
                (easyjsonObject (payloadMembers (r.Doc (some d)) (some t) st ut)))))
      ∧ (PassesAsValue [ParseState.objectValue] t.data →
          (∀ x, st = some x → PassesAsValue [ParseState.objectValue] x.data) →
          (∀ x, ut = some x → PassesAsValue [ParseState.objectValue] x.data) →
          ((r.Doc (some d)).Source E).1 = Except.ok
            [easyjsonCommand (r.Doc (some d)).updateCommand,
              easyjsonObject (payloadMembers (r.Doc (some d)) (some t) st ut)])
      ∧ (∀ v : GoValue, (∀ s, v ≠ GoValue.string s) → (∀ p, v ≠ GoValue.stringPtr p) →
          (r.Doc (some v)).docValue = some v
            ∧ (r.Doc (some v)).commandData.Doc = some v) := by
  have hdv := docValue_string r d t hd ht
  have hm : marshalOptional (r.Doc (some d)).docValue = Except.ok (some t) := by
    rw [hdv]
    simp [marshalOptional, easyjsonInterface, len_pos_ne_empty t ht]
  have hl := Source_lines E (r.Doc (some d)) sv (some t) st ut hE rfl hsv hm hst hut
  refine ⟨hdv, hm, ?_, ne_quoted t, hl.1, hl.2.1, hl.2.2, ?_, ?_⟩
  · simp [payloadMembers, optionalMember]
  · intro hpt hps hpu
    have hc := compact_payload (r.Doc (some d)) (some t) st ut
      (fun x h => by
        simp only [Option.some.injEq] at h
        subst h
        exact hpt) hps hpu
    cases hu : (r.Doc (some d)).useEasyJSON with
    | true => exact hl.1 hu
    | false => exact hl.2.1 hu _ hc
  · intro v h1 h2
    have : (r.Doc (some v)).docValue = some v := by
      cases v <;> first | rfl | exact absurd rfl (h1 _) | exact absurd rfl (h2 _)
    exact ⟨this, this⟩

set_option maxRecDepth 100000 in
theorem Doc_string_embedded_as_raw_JSON_witness :
    (update1Req.Doc (some (GoValue.string "\x7b\"retweets\": 42\x7d"))).docValue
        = some (GoValue.rawMessage "\x7b\"retweets\": 42\x7d")
      ∧ ((update1Req.Doc (some (GoValue.string "\x7b\"retweets\": 42\x7d"))).Source
          generatedEasyJSON).1
        = Except.ok ["\x7b\"update\":\x7b\"_index\":\"opensearch-test\",\"_id\":\"1\"\x7d\x7d",
            "\x7b\"doc\":\x7b\"retweets\":42\x7d\x7d"]
      ∧ (((update1Req.UseEasyJSON true).Doc
          (some (GoValue.stringPtr (some "\x7b\"retweets\": 42\x7d")))).Source generatedEasyJSON).1
        = Except.ok ["\x7b\"update\":\x7b\"_index\":\"opensearch-test\",\"_id\":\"1\"\x7d\x7d",
            "\x7b\"doc\":\x7b\"retweets\": 42\x7d\x7d"]
      ∧ ((update1Req.Doc (some (GoValue.string "\x7b\"retweets\":42\x7d"))).Source
          generatedEasyJSON).1
        = Except.ok ["\x7b\"update\":\x7b\"_index\":\"opensearch-test\",\"_id\":\"1\"\x7d\x7d",
            "\x7b\"doc\":\x7b\"retweets\":42\x7d\x7d"]
      ∧ ((update1Req.Doc (some (GoValue.object [("retweets", GoValue.int 42)]))).Source
          generatedEasyJSON).1
        = Except.ok ["\x7b\"update\":\x7b\"_index\":\"opensearch-test\",\"_id\":\"1\"\x7d\x7d",
            "\x7b\"doc\":\x7b\"retweets\":42\x7d\x7d"] :=
  ⟨(Doc_string_embedded_as_raw_JSON generatedEasyJSON update1Req
      (GoValue.string "\x7b\"retweets\": 42\x7d") "\x7b\"retweets\": 42\x7d" none none none
      generatedEasyJSON_Generated (Or.inl rfl) (by decide) rfl rfl rfl).1,
    (Doc_string_embedded_as_raw_JSON generatedEasyJSON update1Req
      (GoValue.string "\x7b\"retweets\": 42\x7d") "\x7b\"retweets\": 42\x7d" none none none
      generatedEasyJSON_Generated (Or.inl rfl) (by decide) rfl rfl rfl).2.2.2.2.2.1 rfl _
      (by decide),
    (Doc_string_embedded_as_raw_JSON generatedEasyJSON (update1Req.UseEasyJSON true)
      (GoValue.stringPtr (some "\x7b\"retweets\": 42\x7d")) "\x7b\"retweets\": 42\x7d" none none
      none generatedEasyJSON_Generated (Or.inr rfl) (by decide) rfl rfl rfl).2.2.2.2.1 rfl,
    (Doc_string_embedded_as_raw_JSON generatedEasyJSON update1Req
      (GoValue.string "\x7b\"retweets\":42\x7d") "\x7b\"retweets\":42\x7d" none none none
      generatedEasyJSON_Generated (Or.inl rfl) (by decide) rfl rfl rfl).2.2.2.2.2.2.2.1
      ⟨ScanStep.endValue, Or.inl rfl,
        Passes_easyjsonObject _ [("retweets", "42")] (by decide)
          (fun x hx => by
            simp only [List.mem_singleton] at hx
            subst hx
            exact PassesAsValue_int _ 42)⟩
      (fun _ h => by cases h) (fun _ h => by cases h),
    rfl⟩

/-! ## Response errors -/

theorem ignored_iff (statusCode : Int) (codes : List Int) :
    ignored statusCode codes = true ↔ statusCode ∈ codes := by
  induction codes with
  | nil => simp [ignored]
  | cons code rest ih =>
    simp only [ignored, List.mem_cons]
    split_ifs with h
    · simp [h]
    · rw [ih]
      constructor
      · exact Or.inr
      · rintro (h2 | h2)
        · exact absurd h2.symm h
        · exact h2

/-- C17: `checkResponse` returns nil exactly when the status code is in
[200,299] or is one of `ignoreErrors`; a 404 is an error without an ignore list
and nil with the ignore list [404]. -/
theorem checkResponse_nil_iff (D : Decoder) (req : Request) (res : Response)
    (ignoreErrors : List Int) :
    ((checkResponse D req res ignoreErrors).1 = none ↔
        ((200 ≤ res.StatusCode ∧ res.StatusCode ≤ 299) ∨ res.StatusCode ∈ ignoreErrors))
      ∧ (checkResponse sampleDecoder sampleRequest
          (responseWith 404 "\x7b\"some\":\"response\"\x7d") []).1
          = some { Status := 404, Details := none }
      ∧ (checkResponse sampleDecoder sampleRequest
          (responseWith 404 "\x7b\"some\":\"response\"\x7d") [404]).1 = none := by
  refine ⟨?_, rfl, rfl⟩
  unfold checkResponse
  split_ifs with h1 h2
  · simp only [true_iff]
    exact Or.inl ⟨h1.1, h1.2⟩
  · simp only [true_iff]
    exact Or.inr ((ignored_iff _ _).1 h2)
  · simp only [false_iff, reduceCtorEq]
    rintro (h | h)
    · exact h1 ⟨h.1, h.2⟩
    · exact h2 ((ignored_iff _ _).2 h)

theorem checkResponse_error_eq (D : Decoder) (req : Request) (res : Response)
    (ignoreErrors : List Int) (e : Error) (h : (checkResponse D req res ignoreErrors).1 = some e) :
    e = (createResponseError D res).1 := by
  unfold checkResponse at h
  split_ifs at h
  exact (Option.some.inj h).symm

/-- C18 as stated fails: a 404 response whose body is the JSON document
`{"status":500}` yields an `*Error` with `Status` 500, not the response's
status code. -/
theorem checkResponse_status_from_body :
    (checkResponse sampleDecoder sampleRequest (responseWith 404 "\x7b\"status\":500\x7d") []).1
        = some { Status := 500, Details := none }
      ∧ (responseWith 404 "\x7b\"status\":500\x7d").StatusCode = 404
      ∧ ¬ (∀ e, (checkResponse sampleDecoder sampleRequest
            (responseWith 404 "\x7b\"status\":500\x7d") []).1 = some e →
          e.Status = (responseWith 404 "\x7b\"status\":500\x7d").StatusCode) := by
  refine ⟨rfl, rfl, fun h => ?_⟩
  have := h { Status := 500, Details := none } rfl
  simp [responseWith] at this

/-- C18, amended: the error `checkResponse` returns has the response's status
code and no details when the body is absent, cannot be read or does not
decode; when the body decodes to an error reply it has the details of the reply
and the status of the reply, or the response's status code if the reply has
status 0. -/
theorem checkResponse_error_fields (D : Decoder) (req : Request) (res : Response)
    (ignoreErrors : List Int) (e : Error)
    (h : (checkResponse D req res ignoreErrors).1 = some e) :
    (res.Body = none → e = { Status := res.StatusCode, Details := none })
      ∧ (∀ msg, res.Body = some (Except.error msg) →
          e = { Status := res.StatusCode, Details := none })
      ∧ (∀ data msg, res.Body = some (Except.ok data) → D.Unmarshal data = Except.error msg →
          e = { Status := res.StatusCode, Details := none })
      ∧ (∀ data reply, res.Body = some (Except.ok data) → D.Unmarshal data = Except.ok reply →
          e.Details = reply.Details
            ∧ e.Status = if reply.Status = 0 then res.StatusCode else reply.Status) := by
  have he := checkResponse_error_eq D req res ignoreErrors e h
  subst he
  refine ⟨fun hb => ?_, fun msg hb => ?_, fun data msg hb hd => ?_, fun data reply hb hd => ?_⟩
  · simp [createResponseError, hb]
  · simp [createResponseError, hb]
  · simp [createResponseError, hb, hd]
  · simp only [createResponseError, hb, hd]
    split_ifs with h0 <;> simp [h0]

set_option maxRecDepth 100000 in
theorem checkResponse_error_fields_witness :
    (checkResponse sampleDecoder sampleRequest (responseWith 404 notFoundBody) []).1
        = some { Status := 404, Details := some notFoundDetails }
      ∧ notFoundDetails.Typ = "index_missing_exception"
      ∧ notFoundDetails.Reason = "no such index"
      ∧ notFoundDetails.RootCause.length = 1
      ∧ (∀ e, (checkResponse sampleDecoder sampleRequest (responseWith 404 notFoundBody) []).1
            = some e →
          e.Details = some notFoundDetails ∧ e.Status = 404) :=
  ⟨rfl, rfl, rfl, rfl, fun e h =>
    ((checkResponse_error_fields sampleDecoder sampleRequest (responseWith 404 notFoundBody) []
      e h).2.2.2 notFoundBody { Status := 404, Details := some notFoundDetails } rfl rfl)⟩

set_option maxRecDepth 100000 in
/-- C19: `Error()` is "opensearch: Error <Status> (<StatusText>): <Reason>
[type=<Type>]" when the details are present with a non-empty reason, and
"opensearch: Error <Status> (<StatusText>)" otherwise; the 413 response with an
HTML body and the 404 error reply give the messages of the tests. -/
theorem Error_message (e : Error) :
    (∀ d, e.Details = some d → d.Reason ≠ "" →
        e.Error = "opensearch: Error " ++ toString e.Status ++ " (" ++ StatusText e.Status
          ++ "): " ++ d.Reason ++ " [type=" ++ d.Typ ++ "]")
      ∧ ((e.Details = none ∨ ∃ d, e.Details = some d ∧ d.Reason = "") →
          e.Error = "opensearch: Error " ++ toString e.Status ++ " (" ++ StatusText e.Status
            ++ ")")
      ∧ (checkResponse sampleDecoder sampleRequest (responseWith 413 htmlBody) []).1.map
          Error.Error = some "opensearch: Error 413 (Request Entity Too Large)"
      ∧ (checkResponse sampleDecoder sampleRequest (responseWith 404 notFoundBody) []).1.map
          Error.Error
          = some "opensearch: Error 404 (Not Found): no such index [type=index_missing_exception]" := by
  refine ⟨fun d hd hr => ?_, fun h => ?_, rfl, rfl⟩
  · simp [Error.Error, hd, hr]
  · rcases h with h | ⟨d, hd, hr⟩
    · simp [Error.Error, h]
    · simp [Error.Error, hd, hr]

theorem Error_message_witness :
    conflictError.Error
        = "opensearch: Error 409 (Conflict): conflict [type=version_conflict_engine_exception]"
      ∧ ({ Status := 599, Details := some zeroErrorDetails } : Error).Error
        = "opensearch: Error 599 ()" := by
  have h1 := (Error_message conflictError).1 conflictDetails rfl (by decide)
  have h2 := (Error_message { Status := 599, Details := some zeroErrorDetails }).2.1
    (Or.inr ⟨zeroErrorDetails, rfl, rfl⟩)
  exact ⟨h1.trans (by decide), h2.trans (by decide)⟩

/-- C20 as stated fails: a nil `*Error` (and likewise a nil `*http.Response`)
is none of the values for which the claim promises `true`, yet `IsStatusCode`
does not return `false` on it: the field access panics. -/
theorem IsStatusCode_nil_pointer_panics :
    IsStatusCode (Dynamic.errorPtr none) 404 = Except.error nilDereference
      ∧ IsStatusCode (Dynamic.responsePtr none) 404 = Except.error nilDereference
      ∧ IsStatusCode (Dynamic.errorPtr none) 404 ≠ Except.ok false
      ∧ IsNotFound (Dynamic.errorPtr none) ≠ Except.ok false := by
  refine ⟨rfl, rfl, ?_, ?_⟩
  · intro h; cases h
  · intro h; cases h

/-- C20, amended: for every value that is not a nil pointer of type
`*http.Response` or `*Error`, `IsStatusCode(x, c)` returns whether `x` carries
the status `c`: true exactly for a response with `StatusCode` c, an `*Error` or
`Error` with `Status` c, or the int c, and false for every other value (nil,
strings, other types); `IsNotFound`, `IsTimeout`, `IsConflict`,
`IsUnauthorized` and `IsForbidden` are `IsStatusCode` with 404, 408, 409, 401
and 403. -/
theorem IsStatusCode_iff (x : Dynamic) (c : Int) (hx : x.isNilPointer = false) :
    IsStatusCode x c = Except.ok (decide (x.status = some c))
      ∧ (IsStatusCode x c = Except.ok true ↔
          ((∃ res, x = Dynamic.responsePtr (some res) ∧ res.StatusCode = c)
            ∨ (∃ e, x = Dynamic.errorPtr (some e) ∧ e.Status = c)
            ∨ (∃ e, x = Dynamic.error e ∧ e.Status = c)
            ∨ x = Dynamic.int c))
      ∧ (IsStatusCode x c = Except.ok true ∨ IsStatusCode x c = Except.ok false)
      ∧ (IsStatusCode Dynamic.nil c = Except.ok false
          ∧ (∀ str, IsStatusCode (Dynamic.string str) c = Except.ok false)
          ∧ (∀ typ, IsStatusCode (Dynamic.other typ) c = Except.ok false))
      ∧ (IsNotFound x = IsStatusCode x 404 ∧ IsTimeout x = IsStatusCode x 408
          ∧ IsConflict x = IsStatusCode x 409 ∧ IsUnauthorized x = IsStatusCode x 401
          ∧ IsForbidden x = IsStatusCode x 403) := by
  refine ⟨?_, ?_, ?_, ⟨rfl, fun _ => rfl, fun _ => rfl⟩, ⟨rfl, rfl, rfl, rfl, rfl⟩⟩
  · cases x with
    | responsePtr p => cases p with
      | none => simp [Dynamic.isNilPointer] at hx
      | some res => simp [IsStatusCode, Dynamic.status]
    | errorPtr p => cases p with
      | none => simp [Dynamic.isNilPointer] at hx
      | some e => simp [IsStatusCode, Dynamic.status]
    | error e => simp [IsStatusCode, Dynamic.status]
    | int n => simp [IsStatusCode, Dynamic.status]
    | nil => simp [IsStatusCode, Dynamic.status]
    | string str => simp [IsStatusCode, Dynamic.status]
    | other typ => simp [IsStatusCode, Dynamic.status]
  · cases x with
    | responsePtr p => cases p with
      | none => simp [Dynamic.isNilPointer] at hx
      | some res => simp [IsStatusCode]
    | errorPtr p => cases p with
      | none => simp [Dynamic.isNilPointer] at hx
      | some e => simp [IsStatusCode]
    | error e => simp [IsStatusCode]
    | int n => simp [IsStatusCode]
    | nil => simp [IsStatusCode]
    | string str => simp [IsStatusCode]
    | other typ => simp [IsStatusCode]
  · cases x with
    | responsePtr p => cases p with
      | none => simp [Dynamic.isNilPointer] at hx
      | some res => by_cases h : res.StatusCode = c <;> simp [IsStatusCode, h]
    | errorPtr p => cases p with
      | none => simp [Dynamic.isNilPointer] at hx
      | some e => by_cases h : e.Status = c <;> simp [IsStatusCode, h]
    | error e => by_cases h : e.Status = c <;> simp [IsStatusCode, h]
    | int n => by_cases h : n = c <;> simp [IsStatusCode, h]
    | nil => simp [IsStatusCode]
    | string str => simp [IsStatusCode]
    | other typ => simp [IsStatusCode]

theorem IsStatusCode_iff_witness :
    IsStatusCode (Dynamic.errorPtr (some { Status := 409, Details := none })) 409
        = Except.ok true
      ∧ IsStatusCode (Dynamic.int 409) 500 = Except.ok false
      ∧ IsNotFound (Dynamic.responsePtr (some { StatusCode := 404, Body := none }))
        = Except.ok true
      ∧ IsConflict (Dynamic.error { Status := 200, Details := none }) = Except.ok false :=
  ⟨(IsStatusCode_iff (Dynamic.errorPtr (some { Status := 409, Details := none })) 409 rfl).1,
    (IsStatusCode_iff (Dynamic.int 409) 500 rfl).1,
    (IsStatusCode_iff (Dynamic.responsePtr (some { StatusCode := 404, Body := none })) 404
      rfl).1,
    (IsStatusCode_iff (Dynamic.error { Status := 200, Details := none }) 409 rfl).1⟩

/-! ## Bulk response -/

theorem collectItems_eq (keep : String × BulkResponseItem → Bool)
    (items : List (String × BulkResponseItem)) (acc : List BulkResponseItem) :
    collectItems keep items acc = acc ++ (items.filter keep).map Prod.snd := by
  induction items generalizing acc with
  | nil => simp [collectItems]
  | cons item rest ih =>
    simp only [collectItems, ih, List.filter_cons]
    split_ifs <;> simp

theorem collectItems_results (p : BulkResponseItem → Bool) (r : BulkResponse) :
    collectItems (fun item => p item.2) r.Items [] = r.results.filter p := by
  rw [collectItems_eq]
  simp only [List.nil_append, BulkResponse.results, List.filter_map]
  rfl

theorem filter_length_add (p : BulkResponseItem → Bool) (l : List BulkResponseItem) :
    (l.filter p).length + (l.filter (fun x => !p x)).length = l.length := by
  induction l with
  | nil => rfl
  | cons x rest ih =>
    simp only [List.filter_cons]
    cases hp : p x <;> simp [hp] <;> omega

theorem statusSucceeded_iff (status : Int) :
    statusSucceeded status = true ↔ (200 ≤ status ∧ status ≤ 299) := by
  simp [statusSucceeded]

/-- C11: `Succeeded()` and `Failed()` split the results of a response by the
rule "status in [200,299]": each is the order-preserving selection of the
results that satisfy, respectively violate, the rule, every result is in
exactly one of them and their lengths add up to the number of items; where
errors are reported on failed items only, `Failed()` is also the selection of
the items with a status outside the range or an error. On the fixture with the
statuses 201, 423, 404, 200 `Failed()` has the two items with 423 and 404. -/
theorem Failed_is_complement_of_Succeeded (r : BulkResponse) :
    (r.Succeeded = r.results.filter (fun x => statusSucceeded x.Status)
      ∧ r.Failed = r.results.filter (fun x => !statusSucceeded x.Status))
    ∧ (∀ x, x ∈ r.Succeeded ↔ (x ∈ r.results ∧ 200 ≤ x.Status ∧ x.Status ≤ 299))
    ∧ (∀ x, x ∈ r.Failed ↔ (x ∈ r.results ∧ ¬ (200 ≤ x.Status ∧ x.Status ≤ 299)))
    ∧ (∀ x ∈ r.results,
        (x ∈ r.Succeeded ∧ x ∉ r.Failed) ∨ (x ∉ r.Succeeded ∧ x ∈ r.Failed))
    ∧ r.Succeeded.length + r.Failed.length = r.Items.length
    ∧ (r.Succeeded.Sublist r.results ∧ r.Failed.Sublist r.results)
    ∧ ((∀ x ∈ r.results, x.Error ≠ none → statusSucceeded x.Status = false) →
        r.Failed = r.results.filter (fun x => !statusSucceeded x.Status || x.Error.isSome))
    ∧ (failedFixture.Failed.map (fun x => (x.Id, x.Status)) = [("2", 423), ("1", 404)]
        ∧ failedFixture.Failed.length = 2
        ∧ failedFixture.Succeeded.map (fun x => (x.Id, x.Status)) = [("1", 201), ("2", 200)]) := by
  have hS : r.Succeeded = r.results.filter (fun x => statusSucceeded x.Status) :=
    collectItems_results (fun x => statusSucceeded x.Status) r
  have hF : r.Failed = r.results.filter (fun x => !statusSucceeded x.Status) :=
    collectItems_results (fun x => !statusSucceeded x.Status) r
  have hmS : ∀ x, x ∈ r.Succeeded ↔ (x ∈ r.results ∧ 200 ≤ x.Status ∧ x.Status ≤ 299) := by
    intro x
    rw [hS, List.mem_filter, statusSucceeded_iff]
  have hmF : ∀ x, x ∈ r.Failed ↔ (x ∈ r.results ∧ ¬ (200 ≤ x.Status ∧ x.Status ≤ 299)) := by
    intro x
    rw [hF, List.mem_filter, Bool.not_eq_true', ← Bool.not_eq_true, statusSucceeded_iff]
  refine ⟨⟨hS, hF⟩, hmS, hmF, ?_, ?_, ⟨?_, ?_⟩, ?_, ⟨by decide, by decide, by decide⟩⟩
  · intro x hx
    by_cases h : 200 ≤ x.Status ∧ x.Status ≤ 299
    · exact Or.inl ⟨(hmS x).2 ⟨hx, h⟩, fun hf => ((hmF x).1 hf).2 h⟩
    · exact Or.inr ⟨fun hs => h ((hmS x).1 hs).2, (hmF x).2 ⟨hx, h⟩⟩
  · rw [hS, hF, filter_length_add]
    simp [BulkResponse.results]
  · rw [hS]; exact List.filter_sublist _
  · rw [hF]; exact List.filter_sublist _
  · intro hwire
    rw [hF]
    apply List.filter_congr
    intro x hx
    cases he : x.Error with
    | none => simp
    | some d =>
      have := hwire x hx (by rw [he]; simp)
      simp [this]

/-- C12: `ById(id)` is the order-preserving selection of all results whose id
is `id`: a result is returned exactly when it is in the response with that id,
as many results are returned as items carry the id (none is dropped as a
duplicate, whatever its action kind), and for the response in which the
document with id 1 is indexed (201, version 1) and later deleted (200,
version 2) `ById("1")` is these two results in that order. -/
theorem ById_returns_all_matches (r : BulkResponse) (id : String) :
    r.ById id = r.results.filter (fun x => decide (x.Id = id))
      ∧ (∀ x, x ∈ r.ById id ↔ (x ∈ r.results ∧ x.Id = id))
      ∧ (r.ById id).Sublist r.results
      ∧ (r.ById id).length = r.Items.countP (fun item => decide (item.2.Id = id))
      ∧ (∀ (x : BulkResponseItem), x.Id = id →
          ({ r with Items := r.Items ++ [("update", x)] } : BulkResponse).ById id
            = r.ById id ++ [x])
      ∧ (correlationFixture.ById "1").map (fun x => (x.Id, x.Status, x.Version))
          = [("1", 201, 1), ("1", 200, 2)]
      ∧ correlationFixture.ById "1" = correlationFixture.byAction "index"
          ++ correlationFixture.byAction "delete" := by
  have h : r.ById id = r.results.filter (fun x => decide (x.Id = id)) :=
    collectItems_results (fun x => decide (x.Id = id)) r
  refine ⟨h, ?_, ?_, ?_, ?_, by decide, ?_⟩
  · intro x
    rw [h, List.mem_filter, decide_eq_true_iff]
  · rw [h]; exact List.filter_sublist _
  · rw [h, BulkResponse.results, List.filter_map, List.length_map, List.countP_eq_length_filter]
    rfl
  · intro x hx
    simp only [BulkResponse.ById, collectItems_eq, List.nil_append, List.filter_append,
      List.map_append]
    simp [List.filter_cons, hx]
  · rfl

theorem ById_returns_all_matches_witness :
    (correlationFixture.ById "1").length = 2
      ∧ (correlationFixture.ById "2").map (fun x => (x.Result, x.Version))
          = [("created", 1), ("updated", 2)]
      ∧ correlationFixture.ById "3" = [] :=
  ⟨by rw [(ById_returns_all_matches correlationFixture "1").2.2.2.1]; decide,
    by decide, by rw [(ById_returns_all_matches correlationFixture "3").1]; rfl⟩

theorem Failed_is_complement_of_Succeeded_witness :
    failedFixture.Succeeded.length + failedFixture.Failed.length = 4
      ∧ failedFixture.Failed.length = 2 :=
  ⟨(Failed_is_complement_of_Succeeded failedFixture).2.2.2.2.1,
    (Failed_is_complement_of_Succeeded failedFixture).2.2.2.2.2.2.2.2.1⟩

theorem checkResponse_nil_iff_witness :
    (checkResponse sampleDecoder sampleRequest (responseWith 201 "") []).1 = none
      ∧ (checkResponse sampleDecoder sampleRequest (responseWith 404 notFoundBody) [404]).1
          = none
      ∧ (checkResponse sampleDecoder sampleRequest (responseWith 404 notFoundBody) [409]).1
          ≠ none :=
  ⟨((checkResponse_nil_iff sampleDecoder sampleRequest (responseWith 201 "") []).1).2
      (Or.inl (by decide)),
    ((checkResponse_nil_iff sampleDecoder sampleRequest (responseWith 404 notFoundBody)
      [404]).1).2 (Or.inr (by decide)),
    fun h => by
      have := ((checkResponse_nil_iff sampleDecoder sampleRequest
        (responseWith 404 notFoundBody) [409]).1).1 h
      revert this
      decide⟩

/-! ## Error inspection -/

/-- C21: `ErrorReason` returns the reason of the details of a non-nil `*Error`
with details, and the empty string for every other value: nil, a nil `*Error`,
an `*Error` without details, any other error. -/
theorem ErrorReason_spec (err : GoError) :
    (∀ e d, err = GoError.errorPtr (some e) → e.Details = some d → ErrorReason err = d.Reason)
      ∧ ((¬ ∃ e d, err = GoError.errorPtr (some e) ∧ e.Details = some d) → ErrorReason err = "")
      ∧ ErrorReason GoError.nil = ""
      ∧ ErrorReason (GoError.errorPtr none) = ""
      ∧ (∀ status, ErrorReason (GoError.errorPtr (some { Status := status, Details := none }))
          = "")
      ∧ ErrorReason GoError.contextCanceled = ""
      ∧ (∀ msg t, ErrorReason (GoError.other msg t) = "") := by
  refine ⟨?_, ?_, rfl, rfl, fun _ => rfl, rfl, fun _ _ => rfl⟩
  · intro e d he hd
    subst he
    simp [ErrorReason, hd]
  · intro h
    cases err with
    | errorPtr p =>
      cases p with
      | none => rfl
      | some e =>
        cases hd : e.Details with
        | none => simp [ErrorReason, hd]
        | some d => exact absurd ⟨e, d, rfl, hd⟩ h
    | _ => rfl

theorem ErrorReason_spec_witness :
    ErrorReason (GoError.errorPtr (some { Status := 404, Details := some notFoundDetails }))
        = "no such index"
      ∧ ErrorReason (GoError.errorPtr (some { Status := 0, Details := some zeroErrorDetails }))
        = ""
      ∧ ErrorReason (GoError.errorPtr none) = "" :=
  ⟨(ErrorReason_spec _).1 _ notFoundDetails rfl rfl,
    (ErrorReason_spec _).1 _ zeroErrorDetails rfl rfl,
    (ErrorReason_spec GoError.nil).2.2.2.1⟩

theorem methodTemporary_cases (err : GoError) (h : err.wrapsNilUrlError = false) :
    (err.methodTemporary = none ∧ err.innermost.isTemporary = false ∧ err.isUrlError = false)
      ∨ err.methodTemporary = some (Except.ok err.innermost.isTemporary) := by
  induction err with
  | urlError op url e ih =>
    right
    have he : e.wrapsNilUrlError = false := by simpa [GoError.wrapsNilUrlError] using h
    rcases ih he with ⟨h1, h2, _⟩ | h1
    · simp [GoError.methodTemporary, h1, GoError.innermost, h2]
    · simp [GoError.methodTemporary, h1, GoError.innermost]
  | urlErrorNil => simp [GoError.wrapsNilUrlError] at h
  | other msg t =>
    cases t with
    | none => left; simp [GoError.methodTemporary, GoError.innermost, GoError.isTemporary, GoError.isUrlError]
    | some b => right; cases b <;> simp [GoError.methodTemporary, GoError.innermost, GoError.isTemporary]
  | contextDeadlineExceeded =>
    right; simp [GoError.methodTemporary, GoError.innermost, GoError.isTemporary]
  | _ => left; simp [GoError.methodTemporary, GoError.innermost, GoError.isTemporary, GoError.isUrlError]

/-- C22 as stated fails: a `*url.Error` that wraps a temporary network error,
which is no context error, makes `IsContextErr` return true. -/
theorem IsContextErr_true_on_temporary_url_error :
    IsContextErr temporaryUrlError = Except.ok true
      ∧ temporaryUrlError.wrapsContext = false :=
  ⟨rfl, rfl⟩

/-- C22, amended: for an error that neither is nor wraps a nil `*url.Error`,
`IsContextErr` returns true if and only if the error is `context.Canceled` or
`context.DeadlineExceeded`, possibly wrapped in (nested) `*url.Error` values,
or it is a `*url.Error` whose innermost wrapped error reports `Temporary()` as
true; it returns false for every other error. -/
theorem IsContextErr_iff (err : GoError) (h : err.wrapsNilUrlError = false) :
    (IsContextErr err = Except.ok true ↔
        (err.wrapsContext = true
          ∨ (err.isUrlError = true ∧ err.innermost.isTemporary = true)))
      ∧ (IsContextErr err = Except.ok true ∨ IsContextErr err = Except.ok false) := by
  induction err with
  | urlError op url e ih =>
    have he : e.wrapsNilUrlError = false := by simpa [GoError.wrapsNilUrlError] using h
    obtain ⟨ih1, ih2⟩ := ih he
    have hw : (GoError.urlError op url e).wrapsContext = e.wrapsContext := rfl
    have hi : (GoError.urlError op url e).innermost = e.innermost := rfl
    rw [hw, hi]
    rcases methodTemporary_cases e he with ⟨h1, h2, h3⟩ | h1
    · have hc : IsContextErr (GoError.urlError op url e) = IsContextErr e := by
        simp [IsContextErr, h1]
      rw [hc]
      refine ⟨?_, ih2⟩
      rw [ih1]
      simp [h2, h3]
    · cases ht : e.innermost.isTemporary with
      | true =>
        have hc : IsContextErr (GoError.urlError op url e) = Except.ok true := by
          simp [IsContextErr, h1, ht]
        rw [hc]
        simp [GoError.isUrlError]
      | false =>
        have hc : IsContextErr (GoError.urlError op url e) = IsContextErr e := by
          simp [IsContextErr, h1, ht]
        rw [hc]
        refine ⟨?_, ih2⟩
        rw [ih1]
        simp [ht]
  | urlErrorNil => simp [GoError.wrapsNilUrlError] at h
  | contextCanceled =>
    simp [IsContextErr, GoError.wrapsContext, GoError.innermost, GoError.isContext]
  | contextDeadlineExceeded =>
    simp [IsContextErr, GoError.wrapsContext, GoError.innermost, GoError.isContext]
  | _ =>
    simp [IsContextErr, GoError.wrapsContext, GoError.innermost, GoError.isContext,
      GoError.isUrlError]

theorem IsContextErr_iff_witness :
    wrappedCanceled.wrapsNilUrlError = false
      ∧ IsContextErr wrappedCanceled = Except.ok true
      ∧ (IsContextErr (GoError.other "EOF" none) = Except.ok true
          ∨ IsContextErr (GoError.other "EOF" none) = Except.ok false) :=
  ⟨rfl, (IsContextErr_iff wrappedCanceled rfl).1.mpr (Or.inl rfl),
    (IsContextErr_iff (GoError.other "EOF" none) rfl).2⟩

/-- C29: `IsStatusCode` and its five helpers return a result exactly for the
arguments that are not a nil pointer of type `*Error` or `*http.Response`: on
such a nil pointer they reach a field access through nil (a panic) instead of
returning false, whereas `ErrorReason` returns the empty string for a nil
`*Error`; on every other argument they return without error. -/
theorem IsStatusCode_total_only_for_non_nil_pointers (x : Dynamic) (c : Int) :
    ((∃ b, IsStatusCode x c = Except.ok b) ↔ x.isNilPointer = false)
      ∧ (x.isNilPointer = true → IsStatusCode x c = Except.error nilDereference)
      ∧ (∀ f ∈ [IsNotFound, IsTimeout, IsConflict, IsUnauthorized, IsForbidden],
          ((∃ b, f x = Except.ok b) ↔ x.isNilPointer = false)
            ∧ (x.isNilPointer = true → f x = Except.error nilDereference))
      ∧ IsStatusCode (Dynamic.errorPtr none) c = Except.error nilDereference
      ∧ IsStatusCode (Dynamic.responsePtr none) c = Except.error nilDereference
      ∧ ErrorReason (GoError.errorPtr none) = "" := by
  have key : ∀ code : Int, ((∃ b, IsStatusCode x code = Except.ok b) ↔ x.isNilPointer = false)
      ∧ (x.isNilPointer = true → IsStatusCode x code = Except.error nilDereference) := by
    intro code
    cases x with
    | responsePtr p => cases p <;> simp [IsStatusCode, Dynamic.isNilPointer]
    | errorPtr p => cases p <;> simp [IsStatusCode, Dynamic.isNilPointer]
    | _ => simp [IsStatusCode, Dynamic.isNilPointer]
  refine ⟨(key c).1, (key c).2, ?_, rfl, rfl, rfl⟩
  intro f hf
  simp only [List.mem_cons, List.mem_singleton, List.not_mem_nil, or_false] at hf
  rcases hf with rfl | rfl | rfl | rfl | rfl
  · exact key StatusNotFound
  · exact key StatusRequestTimeout
  · exact key StatusConflict
  · exact key StatusUnauthorized
  · exact key StatusForbidden

/-! ## Cancellation, notification and termination of the retry loop -/

/-- C23 as stated fails: an operation that returns `context.Canceled` is
invoked again when the policy allows a retry. -/
theorem canceled_operation_is_retried :
    IsContextErr GoError.contextCanceled = Except.ok true
      ∧ (canceledOperation 0).1 = some GoError.contextCanceled
      ∧ invocations (RetryNotify canceledOperation (maxRetries 1) none 5 0).trace = 2
      ∧ invocations (Retry canceledOperation (maxRetries 1) 5 0).trace = 2 := by
  refine ⟨rfl, rfl, ?_, ?_⟩ <;> decide

/-- C23, amended: the loop of `RetryNotify` (`retryLoop`, started by
`RetryNotify` with `n = 0`) knows no cancellation: whatever error an invocation
returns, a cancellation error included, the policy is queried; the error is
returned without a further invocation if and only if the policy reports
`retry = false`, and if it reports `retry = true` the operation is invoked
again after the sleep. -/
theorem error_terminal_iff_policy_stops {σ ε : Type} (o : Operation σ ε) (b : Backoff σ)
    (notify : Option (Notify σ ε)) (fuel : Nat) (n : Int) (s s1 : σ) (err : ε)
    (ho : o s = (some err, s1)) :
    RetryNotify o b notify (fuel + 2) s = retryLoop o b notify (fuel + 2) 0 s
      ∧ ((b.Next (wrapInt64 (n + 1)) s1).1.2 = false →
          (retryLoop o b notify (fuel + 2) n s).result = some (some err)
            ∧ invocations (retryLoop o b notify (fuel + 2) n s).trace = 1)
      ∧ ((b.Next (wrapInt64 (n + 1)) s1).1.2 = true →
          (retryLoop o b notify (fuel + 2) n s).trace
              = [Event.call (some err), Event.next (wrapInt64 (n + 1))
                    (b.Next (wrapInt64 (n + 1)) s1).1.1 true]
                ++ notifyEvents notify err ++ [Event.sleep (b.Next (wrapInt64 (n + 1)) s1).1.1]
                ++ (retryLoop o b notify (fuel + 1) (wrapInt64 (n + 1))
                      (notifyState notify err (b.Next (wrapInt64 (n + 1)) s1).2)).trace
            ∧ 2 ≤ invocations (retryLoop o b notify (fuel + 2) n s).trace) := by
  refine ⟨rfl, ?_, ?_⟩
  · intro hb
    rcases hq : b.Next (wrapInt64 (n + 1)) s1 with ⟨⟨wait, r⟩, s2⟩
    rw [hq] at hb
    simp only at hb
    subst hb
    rw [retryLoop_stop o b notify (fuel + 1) n wait s s1 s2 err ho hq]
    simp [invocations, Event.isCall, List.countP_cons]
  · intro hb
    rcases hq : b.Next (wrapInt64 (n + 1)) s1 with ⟨⟨wait, r⟩, s2⟩
    rw [hq] at hb
    simp only at hb
    subst hb
    rw [retryLoop_retry o b notify (fuel + 1) n wait s s1 s2 err ho hq]
    refine ⟨rfl, ?_⟩
    have h1 := retryLoop_invocations_pos o b notify fuel (wrapInt64 (n + 1))
      (notifyState notify err s2)
    simp only [invocations] at h1 ⊢
    simp only [List.countP_append]
    simp [Event.isCall, List.countP_cons]
    omega

theorem error_terminal_iff_policy_stops_witness :
    canceledOperation 0 = (some GoError.contextCanceled, 1)
      ∧ 2 ≤ invocations (retryLoop canceledOperation (maxRetries 1) none (0 + 2) 0 0).trace
      ∧ (retryLoop canceledOperation noRetries none (0 + 2) 0 0).result
          = some (some GoError.contextCanceled) :=
  ⟨rfl,
    ((error_terminal_iff_policy_stops canceledOperation (maxRetries 1) none 0 0 0 1
      GoError.contextCanceled rfl).2.2 (by decide)).2,
    ((error_terminal_iff_policy_stops canceledOperation noRetries none 0 0 0 1
      GoError.contextCanceled rfl).2.1 rfl).1⟩

theorem retryLoop_simulation {σ ε : Type} (o : Operation σ ε) (b : Backoff σ)
    (f : Notify σ ε) (R : σ → σ → Prop)
    (ho : ∀ s t, R s t → (o s).1 = (o t).1 ∧ R (o s).2 (o t).2)
    (hb : ∀ n s t, R s t → (b.Next n s).1 = (b.Next n t).1 ∧ R (b.Next n s).2 (b.Next n t).2)
    (hn : ∀ e s t, R s t → R (f e s) t) :
    ∀ (fuel : Nat) (n : Int) (s t : σ), R s t →
      (retryLoop o b (some f) fuel n s).result = (retryLoop o b none fuel n t).result
        ∧ withoutNotify (retryLoop o b (some f) fuel n s).trace
            = (retryLoop o b none fuel n t).trace := by
  intro fuel
  induction fuel with
  | zero => intro n s t _; simp [retryLoop, withoutNotify]
  | succ fuel ih =>
    intro n s t hR
    rcases h : o s with ⟨r, s1⟩
    rcases h2 : o t with ⟨r2, t1⟩
    have h3 := ho s t hR
    rw [h, h2] at h3
    obtain ⟨h4, hR1⟩ := h3
    simp only at h4 hR1
    subst h4
    cases r with
    | none =>
      rw [retryLoop_ok o b (some f) fuel n s s1 h, retryLoop_ok o b none fuel n t t1 h2]
      simp [withoutNotify, Event.isNotify]
    | some err =>
      rcases hq : b.Next (wrapInt64 (n + 1)) s1 with ⟨⟨wait, r⟩, s2⟩
      rcases hq2 : b.Next (wrapInt64 (n + 1)) t1 with ⟨⟨wait2, r2⟩, t2⟩
      have h5 := hb (wrapInt64 (n + 1)) s1 t1 hR1
      rw [hq, hq2] at h5
      obtain ⟨h6, hR2⟩ := h5
      simp only [Prod.mk.injEq] at h6 hR2
      obtain ⟨rfl, rfl⟩ := h6
      cases r with
      | false =>
        rw [retryLoop_stop o b (some f) fuel n wait s s1 s2 err h hq,
          retryLoop_stop o b none fuel n wait t t1 t2 err h2 hq2]
        simp [withoutNotify, Event.isNotify]
      | true =>
        rw [retryLoop_retry o b (some f) fuel n wait s s1 s2 err h hq,
          retryLoop_retry o b none fuel n wait t t1 t2 err h2 hq2]
        obtain ⟨i1, i2⟩ := ih (wrapInt64 (n + 1)) (f err s2) t2 (hn err s2 t2 hR2)
        refine ⟨i1, ?_⟩
        simp only [notifyState, notifyEvents]
        simp only [withoutNotify] at i2 ⊢
        simp only [List.filter_append, i2]
        rfl

theorem filter_isCall_withoutNotify {ε : Type} (t : List (Event ε)) :
    (withoutNotify t).filter Event.isCall = t.filter Event.isCall := by
  induction t with
  | nil => rfl
  | cons e t ih =>
    cases e with
    | notify err => exact ih
    | call r => exact congrArg (List.cons (Event.call r)) ih
    | next n w r => exact ih
    | sleep w => exact ih

theorem filter_isNext_withoutNotify {ε : Type} (t : List (Event ε)) :
    (withoutNotify t).filter Event.isNext = t.filter Event.isNext := by
  induction t with
  | nil => rfl
  | cons e t ih =>
    cases e with
    | notify err => exact ih
    | call r => exact ih
    | next n w r => exact congrArg (List.cons (Event.next n w r)) ih
    | sleep w => exact ih

/-- C24 as stated fails: a notify callback that changes state the operation
reads changes the run: with it `RetryNotify` returns nil after one policy
query, without it `Retry` returns the error after two. -/
theorem notify_can_affect_loop :
    (RetryNotify failsUntilFlag (maxRetries 1) (some setFlag) 5 0).result = some none
      ∧ (Retry failsUntilFlag (maxRetries 1) 5 0).result = some (some 7)
      ∧ policyQueries (RetryNotify failsUntilFlag (maxRetries 1) (some setFlag) 5 0).trace = 1
      ∧ policyQueries (Retry failsUntilFlag (maxRetries 1) 5 0).trace = 2 := by
  decide

/-- C24, amended: a notify callback that returns and leaves untouched what the
operation and the policy observe of the world (`R` relates two world states
that they cannot tell apart, and the callback keeps a state in relation with
what it was related to) cannot affect the retry loop: `RetryNotify(o, b,
notify)` returns the same result as `Retry(o, b)`, which is `RetryNotify(o, b,
nil)`, and performs the same sequence of operation invocations and policy
queries, indeed the same events apart from the calls of `notify`. -/
theorem notify_cannot_affect_loop {σ ε : Type} (o : Operation σ ε) (b : Backoff σ)
    (f : Notify σ ε) (R : σ → σ → Prop) (fuel : Nat) (s : σ)
    (ho : ∀ s t, R s t → (o s).1 = (o t).1 ∧ R (o s).2 (o t).2)
    (hb : ∀ n s t, R s t → (b.Next n s).1 = (b.Next n t).1 ∧ R (b.Next n s).2 (b.Next n t).2)
    (hn : ∀ e s t, R s t → R (f e s) t)
    (hs : R s s) :
    Retry o b fuel s = RetryNotify o b none fuel s
      ∧ (RetryNotify o b (some f) fuel s).result = (Retry o b fuel s).result
      ∧ withoutNotify (RetryNotify o b (some f) fuel s).trace = (Retry o b fuel s).trace
      ∧ (RetryNotify o b (some f) fuel s).trace.filter Event.isCall
          = (Retry o b fuel s).trace.filter Event.isCall
      ∧ (RetryNotify o b (some f) fuel s).trace.filter Event.isNext
          = (Retry o b fuel s).trace.filter Event.isNext := by
  obtain ⟨h1, h2⟩ := retryLoop_simulation o b f R ho hb hn fuel 0 s s hs
  refine ⟨rfl, h1, h2, ?_, ?_⟩
  · rw [← filter_isCall_withoutNotify]
    exact congrArg (List.filter Event.isCall) h2
  · rw [← filter_isNext_withoutNotify]
    exact congrArg (List.filter Event.isNext) h2

theorem notify_cannot_affect_loop_witness :
    (RetryNotify loggedFailure (loggedMaxRetries 2) (some logError) 10 (0, [])).result
        = (Retry loggedFailure (loggedMaxRetries 2) 10 (0, [])).result
      ∧ (RetryNotify loggedFailure (loggedMaxRetries 2) (some logError) 10 (0, [])).state
        ≠ (Retry loggedFailure (loggedMaxRetries 2) 10 (0, [])).state :=
  ⟨(notify_cannot_affect_loop loggedFailure (loggedMaxRetries 2) logError
      (fun s t => s.1 = t.1) 10 (0, [])
      (fun s t h => by simp only [loggedFailure]; exact ⟨by rw [h], by rw [h]⟩)
      (fun n s t h => ⟨rfl, h⟩)
      (fun e s t h => h) rfl).2.1, by decide⟩

theorem retryLoop_last {σ ε : Type} (o : Operation σ ε) (b : Backoff σ)
    (notify : Option (Notify σ ε)) :
    ∀ (fuel : Nat) (n : Int) (s : σ),
      ((retryLoop o b notify fuel n s).result = none →
          (retryLoop o b notify fuel n s).trace.getLast? = none
            ∨ ∃ w, (retryLoop o b notify fuel n s).trace.getLast? = some (Event.sleep w))
        ∧ ((retryLoop o b notify fuel n s).result = some none →
            (retryLoop o b notify fuel n s).trace.getLast? = some (Event.call none))
        ∧ (∀ err, (retryLoop o b notify fuel n s).result = some (some err) →
            ∃ k w, (retryLoop o b notify fuel n s).trace.getLast?
              = some (Event.next k w false)) := by
  intro fuel
  induction fuel with
  | zero => intro n s; simp [retryLoop]
  | succ fuel ih =>
    intro n s
    rcases h : o s with ⟨_ | err, s1⟩
    · rw [retryLoop_ok o b notify fuel n s s1 h]
      simp
    · rcases hq : b.Next (wrapInt64 (n + 1)) s1 with ⟨⟨wait, _ | _⟩, s2⟩
      · rw [retryLoop_stop o b notify fuel n wait s s1 s2 err h hq]
        simp
      · rw [retryLoop_retry o b notify fuel n wait s s1 s2 err h hq]
        obtain ⟨i1, i2, i3⟩ := ih (wrapInt64 (n + 1)) (notifyState notify err s2)
        refine ⟨?_, ?_, ?_⟩
        · intro hr
          right
          rcases i1 hr with h0 | ⟨w, hw⟩
          · exact ⟨wait, by simp only [List.getLast?_append, h0]; simp⟩
          · exact ⟨w, by simp only [List.getLast?_append, hw]; simp⟩
        · intro hr
          simp only [List.getLast?_append, i2 hr]
          simp
        · intro e hr
          obtain ⟨k, w, hk⟩ := i3 e hr
          exact ⟨k, w, by simp only [List.getLast?_append, hk]; simp⟩

theorem retryLoop_fuel_mono {σ ε : Type} (o : Operation σ ε) (b : Backoff σ)
    (notify : Option (Notify σ ε)) :
    ∀ (fuel : Nat) (n : Int) (s : σ), (retryLoop o b notify fuel n s).result ≠ none →
      ∀ k, retryLoop o b notify (fuel + k) n s = retryLoop o b notify fuel n s := by
  intro fuel
  induction fuel with
  | zero => intro n s h; simp [retryLoop] at h
  | succ fuel ih =>
    intro n s hr k
    have hk : fuel + 1 + k = (fuel + k) + 1 := by omega
    rw [hk]
    rcases h : o s with ⟨_ | err, s1⟩
    · rw [retryLoop_ok o b notify fuel n s s1 h, retryLoop_ok o b notify (fuel + k) n s s1 h]
    · rcases hq : b.Next (wrapInt64 (n + 1)) s1 with ⟨⟨wait, _ | _⟩, s2⟩
      · rw [retryLoop_stop o b notify fuel n wait s s1 s2 err h hq,
          retryLoop_stop o b notify (fuel + k) n wait s s1 s2 err h hq]
      · rw [retryLoop_retry o b notify fuel n wait s s1 s2 err h hq] at hr ⊢
        rw [retryLoop_retry o b notify (fuel + k) n wait s s1 s2 err h hq]
        rw [ih (wrapInt64 (n + 1)) (notifyState notify err s2) hr k]

theorem retryLoop_bounded {σ ε : Type} (o : Operation σ ε) (b : Backoff σ)
    (notify : Option (Notify σ ε)) (N : Nat) (hN : (N : Int) ≤ maxInt)
    (hno : ∀ t, (b.Next (N : Int) t).1.2 = false) :
    ∀ (fuel k : Nat) (s : σ), k < N →
      invocations (retryLoop o b notify fuel k s).trace + k ≤ N
        ∧ (N ≤ fuel + k → (retryLoop o b notify fuel k s).result ≠ none) := by
  intro fuel
  induction fuel with
  | zero =>
    intro k s hk
    simp [retryLoop, invocations]
    omega
  | succ fuel ih =>
    intro k s hk
    rcases h : o s with ⟨_ | err, s1⟩
    · rw [retryLoop_ok o b notify fuel k s s1 h]
      simp [invocations, Event.isCall]
      omega
    · have hw : wrapInt64 ((k : Int) + 1) = ((k + 1 : Nat) : Int) := by
        rw [wrapInt64_of_range _ (by omega) (by omega)]; push_cast; rfl
      rcases hq : b.Next (wrapInt64 ((k : Int) + 1)) s1 with ⟨⟨wait, _ | _⟩, s2⟩
      · rw [retryLoop_stop o b notify fuel k wait s s1 s2 err h hq]
        simp [invocations, Event.isCall, List.countP_cons]
        omega
      · have hne : k + 1 ≠ N := by
          intro he
          have := hno s1
          rw [← he, ← hw, hq] at this
          simp at this
        rw [retryLoop_retry o b notify fuel k wait s s1 s2 err h hq, hw]
        obtain ⟨i1, i2⟩ := ih (k + 1) (notifyState notify err s2) (by omega)
        constructor
        · have hn := invocations_notifyEvents notify err
          simp only [invocations] at i1 hn ⊢
          simp only [List.countP_append, hn]
          simp [Event.isCall, List.countP_cons]
          push_cast at i1
          omega
        · intro hf
          exact i2 (by omega)

theorem queriedCounts_append {ε : Type} (t u : List (Event ε)) :
    queriedCounts (t ++ u) = queriedCounts t ++ queriedCounts u := by
  induction t with
  | nil => rfl
  | cons e t ih => cases e <;> simp [queriedCounts, ih]

theorem queriedCounts_notifyEvents {σ ε : Type} (notify : Option (Notify σ ε)) (err : ε) :
    queriedCounts (notifyEvents notify err) = [] := by
  cases notify <;> rfl

theorem failures_notifyEvents {σ ε : Type} (notify : Option (Notify σ ε)) (err : ε) :
    failures (notifyEvents notify err) = 0 := by
  cases notify <;> simp [notifyEvents, failures, Event.isFailure]

theorem retryLoop_failures {σ ε : Type} (o : Operation σ ε) (b : Backoff σ)
    (notify : Option (Notify σ ε)) :
    ∀ (fuel : Nat) (n : Int) (s : σ),
      failures (retryLoop o b notify fuel n s).trace
        = policyQueries (retryLoop o b notify fuel n s).trace := by
  intro fuel
  induction fuel with
  | zero => intro n s; simp [retryLoop, failures, policyQueries]
  | succ fuel ih =>
    intro n s
    rcases h : o s with ⟨_ | err, s1⟩
    · rw [retryLoop_ok o b notify fuel n s s1 h]
      simp [failures, policyQueries, Event.isFailure, Event.isNext]
    · rcases hq : b.Next (wrapInt64 (n + 1)) s1 with ⟨⟨wait, _ | _⟩, s2⟩
      · rw [retryLoop_stop o b notify fuel n wait s s1 s2 err h hq]
        simp [failures, policyQueries, Event.isFailure, Event.isNext, List.countP_cons]
      · rw [retryLoop_retry o b notify fuel n wait s s1 s2 err h hq]
        have i := ih (wrapInt64 (n + 1)) (notifyState notify err s2)
        have h1 := failures_notifyEvents notify err
        have h2 := policyQueries_notifyEvents notify err
        simp only [failures, policyQueries] at i h1 h2 ⊢
        simp only [List.countP_append, i, h1, h2]
        simp [Event.isFailure, Event.isNext, List.countP_cons]

theorem retryLoop_queriedCounts {σ ε : Type} (o : Operation σ ε) (b : Backoff σ)
    (notify : Option (Notify σ ε)) :
    ∀ (fuel k : Nat) (s : σ),
      (k : Int) + policyQueries (retryLoop o b notify fuel k s).trace ≤ maxInt →
      queriedCounts (retryLoop o b notify fuel k s).trace
        = (List.range (policyQueries (retryLoop o b notify fuel k s).trace)).map
            (fun (i : Nat) => (k : Int) + 1 + (i : Int)) := by
  intro fuel
  induction fuel with
  | zero => intro k s _; simp [retryLoop, queriedCounts, policyQueries]
  | succ fuel ih =>
    intro k s
    rcases h : o s with ⟨_ | err, s1⟩
    · rw [retryLoop_ok o b notify fuel k s s1 h]
      intro _
      simp [queriedCounts, policyQueries, Event.isNext]
    · rcases hq : b.Next (wrapInt64 ((k : Int) + 1)) s1 with ⟨⟨wait, _ | _⟩, s2⟩
      · rw [retryLoop_stop o b notify fuel k wait s s1 s2 err h hq]
        intro hle
        have hp : policyQueries [Event.call (some err),
            Event.next (wrapInt64 ((k : Int) + 1)) wait false] = 1 := by
          simp [policyQueries, Event.isNext, List.countP_cons]
        simp only [hp] at hle ⊢
        have hw : wrapInt64 ((k : Int) + 1) = (k : Int) + 1 :=
          wrapInt64_of_range _ (by omega) (by push_cast at hle; omega)
        simp [queriedCounts, hw, List.range_succ]
      · rw [retryLoop_retry o b notify fuel k wait s s1 s2 err h hq]
        have hp : policyQueries ([Event.call (some err),
              Event.next (wrapInt64 ((k : Int) + 1)) wait true]
              ++ notifyEvents notify err ++ [Event.sleep wait]
              ++ (retryLoop o b notify fuel (wrapInt64 ((k : Int) + 1))
                    (notifyState notify err s2)).trace)
            = policyQueries (retryLoop o b notify fuel (wrapInt64 ((k : Int) + 1))
                    (notifyState notify err s2)).trace + 1 := by
          have h2 := policyQueries_notifyEvents notify err
          simp only [policyQueries] at h2 ⊢
          simp only [List.countP_append, h2]
          simp [Event.isNext, List.countP_cons]
          omega
        simp only [hp]
        intro hle
        have hw : wrapInt64 ((k : Int) + 1) = ((k + 1 : Nat) : Int) := by
          rw [wrapInt64_of_range _ (by omega) (by push_cast at hle; omega)]; push_cast; rfl
        rw [hw] at hle ⊢
        have i := ih (k + 1) (notifyState notify err s2) (by push_cast at hle ⊢; omega)
        simp only [queriedCounts_append, queriedCounts_notifyEvents, i]
        rw [List.range_succ_eq_map]
        simp [queriedCounts, List.map_map, Function.comp_def]
        intro a _
        omega

theorem retryLoop_never_returns {σ ε : Type} (o : Operation σ ε) (b : Backoff σ)
    (notify : Option (Notify σ ε))
    (hop : ∀ t, (o t).1 ≠ none)
    (hyes : ∀ (n : Int) (t : σ), (b.Next n t).1.2 = true) :
    ∀ (fuel : Nat) (n : Int) (s : σ),
      (retryLoop o b notify fuel n s).result = none
        ∧ invocations (retryLoop o b notify fuel n s).trace = fuel := by
  intro fuel
  induction fuel with
  | zero => intro n s; simp [retryLoop, invocations]
  | succ fuel ih =>
    intro n s
    rcases h : o s with ⟨_ | err, s1⟩
    · exact absurd (by rw [h]) (hop s)
    · rcases hq : b.Next (wrapInt64 (n + 1)) s1 with ⟨⟨wait, r⟩, s2⟩
      have hr : r = true := by have := hyes (wrapInt64 (n + 1)) s1; rw [hq] at this; exact this
      subst hr
      rw [retryLoop_retry o b notify fuel n wait s s1 s2 err h hq]
      obtain ⟨i1, i2⟩ := ih (wrapInt64 (n + 1)) (notifyState notify err s2)
      refine ⟨i1, ?_⟩
      have hn := invocations_notifyEvents notify err
      simp only [invocations] at i2 hn ⊢
      simp only [List.countP_append, i2, hn]
      simp [Event.isCall, List.countP_cons]
      omega

/-- C28: `RetryNotify` has no attempt cap of its own. A run has returned
exactly when its last event is a successful invocation or a policy answer
`retry = false`, and more fuel then changes nothing; if the policy answers
`retry = false` at the attempt count `N` (a positive Go `int`), the operation
is invoked at most `N` times and the run returns within `N` iterations; every
failure is followed by one policy query, the i-th with attempt count `i`
(while the count fits a Go `int`); and if the operation always fails and the
policy always answers `retry = true`, the run never returns: after any number
of iterations it has invoked the operation that many times without a result. -/
theorem RetryNotify_terminates_iff {σ ε : Type} (o : Operation σ ε) (b : Backoff σ)
    (notify : Option (Notify σ ε)) (s : σ) :
    (∀ fuel, (RetryNotify o b notify fuel s).result ≠ none ↔
        ((RetryNotify o b notify fuel s).trace.getLast? = some (Event.call none)
          ∨ ∃ n w, (RetryNotify o b notify fuel s).trace.getLast?
              = some (Event.next n w false)))
      ∧ (∀ fuel k, (RetryNotify o b notify fuel s).result ≠ none →
          RetryNotify o b notify (fuel + k) s = RetryNotify o b notify fuel s)
      ∧ (∀ N : Nat, 1 ≤ N → (N : Int) ≤ maxInt → (∀ t, (b.Next (N : Int) t).1.2 = false) →
          (∀ fuel, invocations (RetryNotify o b notify fuel s).trace ≤ N)
            ∧ (∀ fuel, N ≤ fuel → (RetryNotify o b notify fuel s).result ≠ none))
      ∧ (∀ fuel, failures (RetryNotify o b notify fuel s).trace
            = policyQueries (RetryNotify o b notify fuel s).trace
          ∧ ((policyQueries (RetryNotify o b notify fuel s).trace : Int) ≤ maxInt →
              queriedCounts (RetryNotify o b notify fuel s).trace
                = (List.range (policyQueries (RetryNotify o b notify fuel s).trace)).map
                    (fun (i : Nat) => (i : Int) + 1)))
      ∧ ((∀ t, (o t).1 ≠ none) → (∀ (n : Int) (t : σ), (b.Next n t).1.2 = true) →
          ∀ fuel, (RetryNotify o b notify fuel s).result = none
            ∧ invocations (RetryNotify o b notify fuel s).trace = fuel) := by
  refine ⟨?_, ?_, ?_, ?_, ?_⟩
  · intro fuel
    obtain ⟨h1, h2, h3⟩ := retryLoop_last o b notify fuel 0 s
    simp only [RetryNotify]
    constructor
    · intro hr
      cases hres : (retryLoop o b notify fuel 0 s).result with
      | none => exact absurd hres hr
      | some r =>
        cases r with
        | none => exact Or.inl (h2 hres)
        | some err => exact Or.inr (h3 err hres)
    · intro hl hr
      rcases h1 hr with h0 | ⟨w, hw⟩
      · rcases hl with h | ⟨n, w, h⟩ <;> simp [h0] at h
      · rcases hl with h | ⟨n, w2, h⟩ <;> simp [hw] at h
  · intro fuel k hr
    exact retryLoop_fuel_mono o b notify fuel 0 s hr k
  · intro N h1 hN hno
    constructor
    · intro fuel
      have := (retryLoop_bounded o b notify N hN hno fuel 0 s (by omega)).1
      simpa [RetryNotify] using this
    · intro fuel hf
      exact (retryLoop_bounded o b notify N hN hno fuel 0 s (by omega)).2 (by omega)
  · intro fuel
    refine ⟨retryLoop_failures o b notify fuel 0 s, ?_⟩
    intro hle
    have := retryLoop_queriedCounts o b notify fuel 0 s (by simpa [RetryNotify] using hle)
    simp only [RetryNotify]
    simp only [Nat.cast_zero] at this
    rw [this]
    apply List.map_congr_left
    intro a _
    push_cast
    omega
  · intro hop hyes fuel
    exact retryLoop_never_returns o b notify hop hyes fuel 0 s

theorem RetryNotify_terminates_iff_witness :
    (RetryNotify alwaysFails alwaysRetry none 50 0).result = none
      ∧ invocations (RetryNotify alwaysFails alwaysRetry none 50 0).trace = 50
      ∧ invocations (RetryNotify alwaysFails (maxRetries 2) none 50 0).trace ≤ 3
      ∧ (RetryNotify alwaysFails (maxRetries 2) none 3 0).result ≠ none
      ∧ queriedCounts (RetryNotify alwaysFails (maxRetries 2) none 50 0).trace = [1, 2, 3] :=
  ⟨((RetryNotify_terminates_iff alwaysFails alwaysRetry none 0).2.2.2.2
      (fun t => by simp [alwaysFails]) (fun _ _ => rfl) 50).1,
    ((RetryNotify_terminates_iff alwaysFails alwaysRetry none 0).2.2.2.2
      (fun t => by simp [alwaysFails]) (fun _ _ => rfl) 50).2,
    ((RetryNotify_terminates_iff alwaysFails (maxRetries 2) none 0).2.2.1 3 (by decide)
      (by decide) (fun _ => rfl)).1 50,
    ((RetryNotify_terminates_iff alwaysFails (maxRetries 2) none 0).2.2.1 3 (by decide)
      (by decide) (fun _ => rfl)).2 3 (by decide),
    by decide⟩

/-! ## Strings in the update payload -/

theorem payloadKeys_without_doc (r : BulkUpdateRequest) (sj uj : Option String) :
    "doc" ∉ (payloadMembers r none sj uj).map Prod.fst := by
  have h0 : optionalMember "doc" none = [] := rfl
  have h : ((payloadMembers r none sj uj).map Prod.fst).Sublist
      ["detect_noop", "doc_as_upsert", "script", "scripted_upsert", "upsert", "_source"] := by
    simp only [payloadMembers, List.map_append, h0, List.map_nil, List.append_nil]
    exact (((((keys_omitEmptyBoolPtr_sublist "detect_noop" _).append
      (keys_omitEmptyBoolPtr_sublist "doc_as_upsert" _)).append
      (keys_optionalMember_sublist "script" _)).append
      (keys_omitEmptyBoolPtr_sublist "scripted_upsert" _)).append
      (keys_optionalMember_sublist "upsert" _)).append
      (keys_omitEmptyBoolPtr_sublist "_source" _)
  intro hm
  have h2 := h.subset hm
  revert h2
  decide

/-- C30: a string given to `Upsert` is handed to the marshaller as it is, which
writes it as a JSON string literal under `"upsert"`: with `UseEasyJSON(true)`
the payload line is the text so written, otherwise its compaction, which is the
same text when the texts of doc and script are valid JSON without insignificant
white space (as when the request has neither). A `Doc` that is an empty
string, a pointer to an empty string or a nil `*string` is dropped: nothing
reaches the marshaller and the payload has no `"doc"` key. -/
theorem Upsert_string_is_quoted_and_empty_Doc_is_dropped (E : EasyJSON)
    (r : BulkUpdateRequest) (t : String) (sv : Option GoValue) (dt st ut : Option String)
    (hE : E.Generated) (hsv : r.scriptValue = Except.ok sv)
    (hdt : marshalOptional r.docValue = Except.ok dt)
    (hst : marshalOptional sv = Except.ok st)
    (hut : marshalOptional r.upsert = Except.ok ut) :
    ((r.Upsert (some (GoValue.string t))).commandData.Upsert = some (GoValue.string t)
        ∧ marshalOptional (r.Upsert (some (GoValue.string t))).upsert
          = Except.ok (some (encodeString t))
        ∧ ("upsert", encodeString t)
          ∈ payloadMembers (r.Upsert (some (GoValue.string t))) dt st (some (encodeString t))
        ∧ ((r.Upsert (some (GoValue.string t))).useEasyJSON = true →
          ((r.Upsert (some (GoValue.string t))).Source E).1 = Except.ok
            [easyjsonCommand (r.Upsert (some (GoValue.string t))).updateCommand,
              easyjsonObject (payloadMembers (r.Upsert (some (GoValue.string t))) dt st
                (some (encodeString t)))])
        ∧ ((r.Upsert (some (GoValue.string t))).useEasyJSON = false → ∀ line1,
          compact (easyjsonObject (payloadMembers (r.Upsert (some (GoValue.string t))) dt st
            (some (encodeString t)))) = some line1 →
          ((r.Upsert (some (GoValue.string t))).Source E).1 = Except.ok
            [easyjsonCommand (r.Upsert (some (GoValue.string t))).updateCommand, line1])
        ∧ ((∀ x, dt = some x → PassesAsValue [ParseState.objectValue] x.data) →
          (∀ x, st = some x → PassesAsValue [ParseState.objectValue] x.data) →
          ((r.Upsert (some (GoValue.string t))).Source E).1 = Except.ok
            [easyjsonCommand (r.Upsert (some (GoValue.string t))).updateCommand,
              easyjsonObject (payloadMembers (r.Upsert (some (GoValue.string t))) dt st
                (some (encodeString t)))]))
      ∧ (∀ d : GoValue,
          (d = GoValue.string "" ∨ d = GoValue.stringPtr (some "") ∨ d = GoValue.stringPtr none) →
          (r.Doc (some d)).docValue = none
            ∧ (r.Doc (some d)).commandData.Doc = none
            ∧ "doc" ∉ (payloadMembers (r.Doc (some d)) none st ut).map Prod.fst
            ∧ ((r.Doc (some d)).useEasyJSON = true →
              ((r.Doc (some d)).Source E).1 = Except.ok
                [easyjsonCommand (r.Doc (some d)).updateCommand,
                  easyjsonObject (payloadMembers (r.Doc (some d)) none st ut)])
            ∧ ((r.Doc (some d)).useEasyJSON = false → ∀ line1,
              compact (easyjsonObject (payloadMembers (r.Doc (some d)) none st ut))
                = some line1 →
              ((r.Doc (some d)).Source E).1
                = Except.ok [easyjsonCommand (r.Doc (some d)).updateCommand, line1])) := by
  constructor
  · have hm : marshalOptional (r.Upsert (some (GoValue.string t))).upsert
        = Except.ok (some (encodeString t)) := rfl
    have hl := Source_lines E (r.Upsert (some (GoValue.string t))) sv dt st
      (some (encodeString t)) hE rfl hsv hdt hst hm
    refine ⟨rfl, hm, by simp [payloadMembers, optionalMember], hl.1, hl.2.1, ?_⟩
    intro hpd hps
    have hc := compact_payload (r.Upsert (some (GoValue.string t))) dt st
      (some (encodeString t)) hpd hps
      (fun x h => by
        simp only [Option.some.injEq] at h
        subst h
        exact PassesAsValue_encodeString _ t)
    cases hu : (r.Upsert (some (GoValue.string t))).useEasyJSON with
    | true => exact hl.1 hu
    | false => exact hl.2.1 hu _ hc
  · intro d hd
    have hdv : (r.Doc (some d)).docValue = none := by
      rcases hd with rfl | rfl | rfl <;> rfl
    have hm : marshalOptional (r.Doc (some d)).docValue = Except.ok none := by
      rw [hdv]
      rfl
    have hl := Source_lines E (r.Doc (some d)) sv none st ut hE rfl hsv hm hst hut
    exact ⟨hdv, hdv, payloadKeys_without_doc _ st ut, hl.1, hl.2.1⟩

set_option maxRecDepth 100000 in
theorem Upsert_string_is_quoted_and_empty_Doc_is_dropped_witness :
    ((update1Req.Upsert (some (GoValue.string "\x7b\"a\":1\x7d"))).Source generatedEasyJSON).1
        = Except.ok ["\x7b\"update\":\x7b\"_index\":\"opensearch-test\",\"_id\":\"1\"\x7d\x7d",
            "\x7b\"upsert\":\"\x7b\\\"a\\\":1\x7d\"\x7d"]
      ∧ (((update1Req.UseEasyJSON true).Upsert (some (GoValue.string "\x7b\"a\":1\x7d"))).Source
          generatedEasyJSON).1
        = Except.ok ["\x7b\"update\":\x7b\"_index\":\"opensearch-test\",\"_id\":\"1\"\x7d\x7d",
            "\x7b\"upsert\":\"\x7b\\\"a\\\":1\x7d\"\x7d"]
      ∧ ((update1Req.Doc (some (GoValue.string "\x7b\"a\":1\x7d"))).Source generatedEasyJSON).1
        = Except.ok ["\x7b\"update\":\x7b\"_index\":\"opensearch-test\",\"_id\":\"1\"\x7d\x7d",
            "\x7b\"doc\":\x7b\"a\":1\x7d\x7d"]
      ∧ (update1Req.Doc (some (GoValue.string ""))).docValue = none
      ∧ ((update1Req.Doc (some (GoValue.string ""))).Source generatedEasyJSON).1
        = Except.ok ["\x7b\"update\":\x7b\"_index\":\"opensearch-test\",\"_id\":\"1\"\x7d\x7d",
            "\x7b\x7d"]
      ∧ (((update1Req.UseEasyJSON true).Doc (some (GoValue.stringPtr (some "")))).Source
          generatedEasyJSON).1
        = Except.ok ["\x7b\"update\":\x7b\"_index\":\"opensearch-test\",\"_id\":\"1\"\x7d\x7d",
            "\x7b\x7d"] :=
  ⟨(Upsert_string_is_quoted_and_empty_Doc_is_dropped generatedEasyJSON update1Req
      "\x7b\"a\":1\x7d" none none none none generatedEasyJSON_Generated rfl rfl rfl rfl).1.2.2.2.2.2
      (fun _ h => by cases h) (fun _ h => by cases h),
    (Upsert_string_is_quoted_and_empty_Doc_is_dropped generatedEasyJSON
      (update1Req.UseEasyJSON true) "\x7b\"a\":1\x7d" none none none none
      generatedEasyJSON_Generated rfl rfl rfl rfl).1.2.2.2.1 rfl,
    rfl,
    ((Upsert_string_is_quoted_and_empty_Doc_is_dropped generatedEasyJSON update1Req ""
      none none none none generatedEasyJSON_Generated rfl rfl rfl rfl).2
      (GoValue.string "") (Or.inl rfl)).1,
    ((Upsert_string_is_quoted_and_empty_Doc_is_dropped generatedEasyJSON update1Req ""
      none none none none generatedEasyJSON_Generated rfl rfl rfl rfl).2
      (GoValue.string "") (Or.inl rfl)).2.2.2.2 rfl _ (by decide),
    ((Upsert_string_is_quoted_and_empty_Doc_is_dropped generatedEasyJSON
      (update1Req.UseEasyJSON true) "" none none none none generatedEasyJSON_Generated rfl rfl
      rfl rfl).2 (GoValue.stringPtr (some "")) (Or.inr (Or.inl rfl))).2.2.2.1 rfl⟩

/-! ## The transform job service -/

theorem substitute_name (name : String) :
    substitute "/_plugins/_transform/\x7bname\x7d" [("name", name)]
      = Except.ok ("/_plugins/_transform/" ++ name) := by
  have h : substituteLoop [("name", name)] none "/_plugins/_transform/\x7bname\x7d".data
      = Except.ok ("/_plugins/_transform/".data ++ name.data) := by
    simp [substituteLoop, List.lookup]
  simp only [substitute, h]
  congr 1

theorem substitute_name_seqNum_priTerm (name seqNum priTerm : String) :
    substitute
        "/_plugins/_transform/\x7bname\x7d?if_seq_no=\x7bseqNum\x7d&if_primary_term=\x7bpriTerm\x7d"
        [("name", name), ("seqNum", seqNum), ("priTerm", priTerm)]
      = Except.ok ("/_plugins/_transform/" ++ name ++ "?if_seq_no=" ++ seqNum
          ++ "&if_primary_term=" ++ priTerm) := by
  have h : substituteLoop [("name", name), ("seqNum", seqNum), ("priTerm", priTerm)] none
        "/_plugins/_transform/\x7bname\x7d?if_seq_no=\x7bseqNum\x7d&if_primary_term=\x7bpriTerm\x7d".data
      = Except.ok ("/_plugins/_transform/".data ++ name.data ++ "?if_seq_no=".data
          ++ seqNum.data ++ "&if_primary_term=".data ++ priTerm.data) := by
    simp [substituteLoop, List.lookup]
  simp only [substitute, h]
  congr 1

/-- C26: `Validate` returns an error if and only if the name is empty or the
body is nil, and the message lists the missing fields in the order Name, Body.
`buildURL` hands `uritemplates.Expand` the template with the sequence number
and the primary term if and only if both were set, so with an expander that
replaces each expression by the escaped value the path is
`/_plugins/_transform/<name>`, followed by
`?if_seq_no=<seq>&if_primary_term=<term>` exactly when both were set; setting
only one of them adds neither. -/
theorem TransformPutJob_Validate_and_buildURL
    (expand : String → List (String × String) → Except String String)
    (escape : String → String) (s : TransformPutJobService)
    (hshort : ∀ name, expand "/_plugins/_transform/\x7bname\x7d" [("name", name)]
      = Except.ok ("/_plugins/_transform/" ++ escape name))
    (hlong : ∀ name seqNum priTerm,
      expand
          "/_plugins/_transform/\x7bname\x7d?if_seq_no=\x7bseqNum\x7d&if_primary_term=\x7bpriTerm\x7d"
          [("name", name), ("seqNum", seqNum), ("priTerm", priTerm)]
        = Except.ok ("/_plugins/_transform/" ++ escape name ++ "?if_seq_no=" ++ escape seqNum
            ++ "&if_primary_term=" ++ escape priTerm)) :
    ((s.Validate ≠ none ↔ (s.name = "" ∨ s.body = none))
      ∧ (s.name = "" → s.body ≠ none →
          s.Validate = some "missing required fields: [Name]")
      ∧ (s.name ≠ "" → s.body = none →
          s.Validate = some "missing required fields: [Body]")
      ∧ (s.name = "" → s.body = none →
          s.Validate = some "missing required fields: [Name Body]"))
    ∧ (∃ params, s.buildURL expand = Except.ok
        ("/_plugins/_transform/" ++ escape s.name
          ++ (match s.sequenceNumber, s.primaryTerm with
              | some seqNum, some priTerm =>
                "?if_seq_no=" ++ escape (toString seqNum) ++ "&if_primary_term="
                  ++ escape (toString priTerm)
              | _, _ => ""), params))
    ∧ (s.primaryTerm = none → ∀ seqNum, ∃ params,
        (s.SequenceNumber seqNum).buildURL expand
          = Except.ok ("/_plugins/_transform/" ++ escape s.name, params))
    ∧ (s.sequenceNumber = none → ∀ priTerm, ∃ params,
        (s.PrimaryTerm priTerm).buildURL expand
          = Except.ok ("/_plugins/_transform/" ++ escape s.name, params)) := by
  refine ⟨⟨?_, ?_, ?_, ?_⟩, ?_, ?_, ?_⟩
  · cases hb : s.body <;> by_cases hn : s.name = "" <;>
      simp [TransformPutJobService.Validate, hb, hn]
  · intro hn hb
    cases hb2 : s.body with
    | none => exact absurd hb2 hb
    | some v => simp [TransformPutJobService.Validate, hb2, hn, stringsJoin]
  · intro hn hb
    simp [TransformPutJobService.Validate, hb, hn, stringsJoin]
  · intro hn hb
    simp [TransformPutJobService.Validate, hb, hn, stringsJoin]
  · cases hq : s.sequenceNumber with
    | none =>
      cases hp : s.primaryTerm <;>
        simp [TransformPutJobService.buildURL, hq, hp, hshort]
    | some seqNum =>
      cases hp : s.primaryTerm with
      | none => simp [TransformPutJobService.buildURL, hq, hp, hshort]
      | some priTerm =>
        simp [TransformPutJobService.buildURL, hq, hp, hlong, String.append_assoc]
  · intro hp seqNum
    simp [TransformPutJobService.buildURL, TransformPutJobService.SequenceNumber, hp, hshort]
  · intro hq priTerm
    simp [TransformPutJobService.buildURL, TransformPutJobService.PrimaryTerm, hq, hshort]

set_option maxRecDepth 100000 in
theorem TransformPutJob_Validate_and_buildURL_witness :
    (∃ params, putJobService.buildURL substitute
        = Except.ok ("/_plugins/_transform/my-job?if_seq_no=10&if_primary_term=1", params))
      ∧ (∃ params,
          ((NewTransformPutJobService.Name "my-job").SequenceNumber 10).buildURL substitute
            = Except.ok ("/_plugins/_transform/my-job", params))
      ∧ (NewTransformPutJobService.Name "my-job").Validate
          = some "missing required fields: [Body]"
      ∧ NewTransformPutJobService.Validate = some "missing required fields: [Name Body]"
      ∧ ¬ (putJobService.Validate ≠ none) :=
  ⟨(TransformPutJob_Validate_and_buildURL substitute id putJobService substitute_name
      substitute_name_seqNum_priTerm).2.1,
    (TransformPutJob_Validate_and_buildURL substitute id
      (NewTransformPutJobService.Name "my-job") substitute_name
      substitute_name_seqNum_priTerm).2.2.1 rfl 10,
    (TransformPutJob_Validate_and_buildURL substitute id
      (NewTransformPutJobService.Name "my-job") substitute_name
      substitute_name_seqNum_priTerm).1.2.2.1 (by decide) rfl,
    (TransformPutJob_Validate_and_buildURL substitute id NewTransformPutJobService
      substitute_name substitute_name_seqNum_priTerm).1.2.2.2 rfl rfl,
    fun h => absurd ((TransformPutJob_Validate_and_buildURL substitute id putJobService
      substitute_name substitute_name_seqNum_priTerm).1.1.mp h)
      (fun hc => hc.elim (fun hn => absurd hn (by decide)) (fun hb => by cases hb))⟩

/-! ## The pipeline aggregations -/

theorem lookup_cons_eq {α : Type} (k a : String) (b : α) (es : List (String × α)) :
    List.lookup k ((a, b) :: es) = if k = a then some b else List.lookup k es := by
  by_cases h : k = a
  · subst h
    simp [List.lookup]
  · have hb : (k == a) = false := by simp [h]
    simp [List.lookup, hb, h]

theorem lookup_mapSet {α : Type} (m : List (String × α)) (key : String) (v : α) (k : String) :
    List.lookup k (mapSet m key v) = if k = key then some v else List.lookup k m := by
  induction m with
  | nil => simp [mapSet, lookup_cons_eq]
  | cons e rest ih =>
    obtain ⟨k0, x⟩ := e
    unfold mapSet
    by_cases h1 : key.data < k0.data
    · simp [h1, lookup_cons_eq]
    · by_cases h2 : key = k0
      · subst h2
        by_cases h : k = key <;> simp [h1, lookup_cons_eq, h]
      · by_cases h : k = key
        · subst h
          simp [h1, h2, lookup_cons_eq, ih]
        · simp [h1, h2, lookup_cons_eq, ih, h]

theorem lookup_nil (k : String) : List.lookup k ([] : GoMap) = none := rfl

theorem DerivativeAggregation_bucketsPath (a : DerivativeAggregation) :
    bucketsPathOf "derivative" a.Source = bucketsPathValue a.bucketsPaths := by
  unfold DerivativeAggregation.Source bucketsPathOf bucketsPathValue
  rcases a.bucketsPaths with _ | ⟨p, _ | ⟨q, r⟩⟩ <;>
    by_cases hm : a.meta.length > 0 <;> by_cases hf : a.format = "" <;>
    by_cases hg : a.gapPolicy = "" <;> by_cases hu : a.unit = "" <;>
    simp [hm, hf, hg, hu, lookup_mapSet, lookup_nil]

theorem MinBucketAggregation_bucketsPath (a : MinBucketAggregation) :
    bucketsPathOf "min_bucket" a.Source = bucketsPathValue a.bucketsPaths := by
  unfold MinBucketAggregation.Source bucketsPathOf bucketsPathValue
  rcases a.bucketsPaths with _ | ⟨p, _ | ⟨q, r⟩⟩ <;>
    by_cases hm : a.meta.length > 0 <;> by_cases hf : a.format = "" <;>
    by_cases hg : a.gapPolicy = "" <;>
    simp [hm, hf, hg, lookup_mapSet, lookup_nil]

theorem SerialDiffAggregation_bucketsPath (a : SerialDiffAggregation) :
    bucketsPathOf "serial_diff" a.Source = bucketsPathValue a.bucketsPaths := by
  unfold SerialDiffAggregation.Source bucketsPathOf bucketsPathValue
  rcases a.bucketsPaths with _ | ⟨p, _ | ⟨q, r⟩⟩ <;>
    by_cases hm : a.meta.length > 0 <;> by_cases hf : a.format = "" <;>
    by_cases hg : a.gapPolicy = "" <;> cases a.lag <;>
    simp [hm, hf, hg, lookup_mapSet, lookup_nil]

theorem CumulativeSumAggregation_bucketsPath (a : CumulativeSumAggregation) :
    bucketsPathOf "cumulative_sum" a.Source = bucketsPathValue a.bucketsPaths := by
  unfold CumulativeSumAggregation.Source bucketsPathOf bucketsPathValue
  rcases a.bucketsPaths with _ | ⟨p, _ | ⟨q, r⟩⟩ <;>
    by_cases hm : a.meta.length > 0 <;> by_cases hf : a.format = "" <;>
    simp [hm, hf, lookup_mapSet, lookup_nil]

set_option maxRecDepth 100000 in
/-- C27: for the pipeline aggregations Derivative, MinBucket, SerialDiff and
CumulativeSum, `BucketsPath` appends its paths to those accumulated by earlier
calls, in order, and `Source()` emits `"buckets_path"` by the number of
accumulated paths: no entry for none, the string for exactly one, the list in
order for two or more; the JSON of the examples of the tests follows. -/
theorem BucketsPath_accumulates_and_Source_emits_by_count
    (d : DerivativeAggregation) (m : MinBucketAggregation) (s : SerialDiffAggregation)
    (c : CumulativeSumAggregation) (paths more : List String) :
    (((d.BucketsPath paths).BucketsPath more).bucketsPaths = d.bucketsPaths ++ paths ++ more
      ∧ ((m.BucketsPath paths).BucketsPath more).bucketsPaths = m.bucketsPaths ++ paths ++ more
      ∧ ((s.BucketsPath paths).BucketsPath more).bucketsPaths = s.bucketsPaths ++ paths ++ more
      ∧ ((c.BucketsPath paths).BucketsPath more).bucketsPaths = c.bucketsPaths ++ paths ++ more
      ∧ NewDerivativeAggregation.bucketsPaths = [] ∧ NewMinBucketAggregation.bucketsPaths = []
      ∧ NewSerialDiffAggregation.bucketsPaths = []
      ∧ NewCumulativeSumAggregation.bucketsPaths = [])
    ∧ ((∃ v, d.Source = Except.ok v) ∧ (∃ v, m.Source = Except.ok v)
      ∧ (∃ v, s.Source = Except.ok v) ∧ (∃ v, c.Source = Except.ok v))
    ∧ (bucketsPathOf "derivative" d.Source = bucketsPathValue d.bucketsPaths
      ∧ bucketsPathOf "min_bucket" m.Source = bucketsPathValue m.bucketsPaths
      ∧ bucketsPathOf "serial_diff" s.Source = bucketsPathValue s.bucketsPaths
      ∧ bucketsPathOf "cumulative_sum" c.Source = bucketsPathValue c.bucketsPaths)
    ∧ (bucketsPathValue [] = none
      ∧ (∀ p, bucketsPathValue [p] = some (GoValue.string p))
      ∧ (∀ p q r, bucketsPathValue (p :: q :: r)
          = some (GoValue.array ((p :: q :: r).map GoValue.string))))
    ∧ (marshalSource (NewDerivativeAggregation.BucketsPath ["sales"]).Source
        = Except.ok "\x7b\"derivative\":\x7b\"buckets_path\":\"sales\"\x7d\x7d"
      ∧ marshalSource
          ((NewMinBucketAggregation.BucketsPath ["sales_per_month>sales"]).GapPolicy "skip").Source
        = Except.ok
          "\x7b\"min_bucket\":\x7b\"buckets_path\":\"sales_per_month\\u003esales\",\"gap_policy\":\"skip\"\x7d\x7d"
      ∧ marshalSource
          (((NewSerialDiffAggregation.BucketsPath ["a"]).BucketsPath ["b", "c"]).Lag 7).Source
        = Except.ok "\x7b\"serial_diff\":\x7b\"buckets_path\":[\"a\",\"b\",\"c\"],\"lag\":7\x7d\x7d"
      ∧ marshalSource NewCumulativeSumAggregation.Source
        = Except.ok "\x7b\"cumulative_sum\":\x7b\x7d\x7d") := by
  refine ⟨⟨?_, ?_, ?_, ?_, rfl, rfl, rfl, rfl⟩, ⟨⟨_, rfl⟩, ⟨_, rfl⟩, ⟨_, rfl⟩, ⟨_, rfl⟩⟩,
    ⟨DerivativeAggregation_bucketsPath d, MinBucketAggregation_bucketsPath m,
      SerialDiffAggregation_bucketsPath s, CumulativeSumAggregation_bucketsPath c⟩,
    ⟨rfl, fun _ => rfl, fun _ _ _ => rfl⟩, ⟨?_, ?_, ?_, ?_⟩⟩
  · simp [DerivativeAggregation.BucketsPath]
  · simp [MinBucketAggregation.BucketsPath]
  · simp [SerialDiffAggregation.BucketsPath]
  · simp [CumulativeSumAggregation.BucketsPath]
  · rfl
  · rfl
  · rfl
  · rfl

/-! ## The filters aggregation -/

theorem sourceArray_failed (filters : List Query) :
    failed (sourceArray filters) = true ↔ ∃ f ∈ filters, failed f.Source = true := by
  induction filters with
  | nil => simp [sourceArray, failed]
  | cons f rest ih =>
    unfold sourceArray
    cases hf : f.Source with
    | error err => simp [failed, hf]
    | ok src =>
      cases hr : sourceArray rest with
      | error err =>
        rw [hr] at ih
        simp only [failed] at ih ⊢
        simp [hf, failed, ih.mp]
      | ok arr =>
        rw [hr] at ih
        simp only [failed] at ih ⊢
        simp [hf, failed] at ih ⊢
        exact ih

theorem sourceArray_ok (filters : List Query) (arr : List GoValue)
    (h : sourceArray filters = Except.ok arr) :
    arr.map Except.ok = filters.map Query.Source := by
  induction filters generalizing arr with
  | nil =>
    simp [sourceArray] at h
    subst h
    rfl
  | cons f rest ih =>
    unfold sourceArray at h
    cases hf : f.Source with
    | error err => simp [hf] at h
    | ok src =>
      cases hr : sourceArray rest with
      | error err => simp [hf, hr] at h
      | ok arr2 =>
        simp [hf, hr] at h
        subst h
        simp [hf, ih arr2 hr]

theorem sourceDict_failed {α : Type} (source : α → Except String GoValue)
    (entries : List (String × α)) :
    ∀ dict, failed (sourceDict source entries dict) = true
      ↔ ∃ e ∈ entries, failed (source e.2) = true := by
  induction entries with
  | nil => intro dict; simp [sourceDict, failed]
  | cons e rest ih =>
    intro dict
    obtain ⟨key, x⟩ := e
    unfold sourceDict
    cases hx : source x with
    | error err => simp [failed, hx]
    | ok src =>
      simp only []
      rw [ih (mapSet dict key src)]
      simp [hx, failed]

theorem lookup_of_not_mem_keys {α : Type} (k : String) (entries : List (String × α))
    (h : k ∉ entries.map Prod.fst) : List.lookup k entries = none := by
  induction entries with
  | nil => rfl
  | cons e rest ih =>
    obtain ⟨key, x⟩ := e
    simp only [List.map_cons, List.mem_cons, not_or] at h
    rw [lookup_cons_eq, if_neg h.1]
    exact ih h.2

theorem sourceDict_lookup {α : Type} (source : α → Except String GoValue)
    (entries : List (String × α)) :
    ∀ (dict0 dict : GoMap), (entries.map Prod.fst).Nodup →
      sourceDict source entries dict0 = Except.ok dict →
      ∀ k, (List.lookup k dict).map Except.ok
        = (match List.lookup k entries with
          | some x => some (source x)
          | none => (List.lookup k dict0).map Except.ok) := by
  induction entries with
  | nil =>
    intro dict0 dict _ h k
    simp [sourceDict] at h
    subst h
    rfl
  | cons e rest ih =>
    intro dict0 dict hnd h k
    obtain ⟨key, x⟩ := e
    simp only [List.map_cons, List.nodup_cons] at hnd
    unfold sourceDict at h
    cases hx : source x with
    | error err => simp [hx] at h
    | ok src =>
      simp only [hx] at h
      have i := ih (mapSet dict0 key src) dict hnd.2 h k
      rw [i, lookup_cons_eq, lookup_mapSet]
      by_cases hk : k = key
      · subst hk
        simp [lookup_of_not_mem_keys k rest hnd.1, hx]
      · simp [hk]

/-- The result of `Source`, in terms of the results of its three loops. -/
theorem FiltersAggregation_Source_cases (a : FiltersAggregation)
    (hmix : ¬ (a.unnamedFilters ≠ [] ∧ a.namedFilters ≠ [])) :
    (failed a.Source = true ↔
        ((a.unnamedFilters ≠ [] ∧ failed (sourceArray a.unnamedFilters) = true)
          ∨ (a.unnamedFilters = [] ∧ failed (sourceDict Query.Source a.namedFilters []) = true)
          ∨ (a.subAggregations ≠ []
              ∧ failed (sourceDict Aggregation.Source a.subAggregations []) = true)))
      ∧ (failed a.Source = false →
          (a.unnamedFilters ≠ [] → ∃ arr, sourceArray a.unnamedFilters = Except.ok arr
              ∧ filtersOf a.Source = some (GoValue.array arr))
            ∧ (a.unnamedFilters = [] →
                ∃ dict, sourceDict Query.Source a.namedFilters [] = Except.ok dict
                  ∧ filtersOf a.Source = some (GoValue.object dict))) := by
  have hlen : ∀ {β : Type} (l : List β), l.length > 0 ↔ l ≠ [] := by
    intro β l; cases l <;> simp
  have hm : ¬ (a.unnamedFilters.length > 0 ∧ a.namedFilters.length > 0) := by
    rw [hlen, hlen]; exact hmix
  unfold FiltersAggregation.Source
  rw [if_neg hm]
  by_cases hu : a.unnamedFilters = []
  · have hu0 : ¬ a.unnamedFilters.length > 0 := by rw [hlen]; simpa using hu
    simp only [hu0, if_false]
    cases hd : sourceDict Query.Source a.namedFilters [] with
    | error err => simp [failed, hu]
    | ok dict =>
      by_cases hs : a.subAggregations = []
      · have hs0 : ¬ a.subAggregations.length > 0 := by rw [hlen]; simpa using hs
        simp only [hs0, if_false]
        refine ⟨by simp [failed, hu, hs], fun _ => ⟨fun h => absurd hu h, fun _ => ⟨dict, rfl, ?_⟩⟩⟩
        cases a.otherBucket <;> by_cases hk : a.otherBucketKey = "" <;>
          by_cases hme : a.meta.length > 0 <;>
          simp [filtersOf, hk, hme, lookup_mapSet]
      · have hs0 : a.subAggregations.length > 0 := by rw [hlen]; exact hs
        simp only [hs0, if_true]
        cases ha : sourceDict Aggregation.Source a.subAggregations [] with
        | error err => simp [failed, hu, hs]
        | ok aggsMap =>
          refine ⟨by simp [failed, hu, hs],
            fun _ => ⟨fun h => absurd hu h, fun _ => ⟨dict, rfl, ?_⟩⟩⟩
          cases a.otherBucket <;> by_cases hk : a.otherBucketKey = "" <;>
            by_cases hme : a.meta.length > 0 <;>
            simp [filtersOf, hk, hme, lookup_mapSet]
  · have hu0 : a.unnamedFilters.length > 0 := by rw [hlen]; exact hu
    simp only [hu0, if_true]
    cases hd : sourceArray a.unnamedFilters with
    | error err => simp [failed, hu]
    | ok arr =>
      by_cases hs : a.subAggregations = []
      · have hs0 : ¬ a.subAggregations.length > 0 := by rw [hlen]; simpa using hs
        simp only [hs0, if_false]
        refine ⟨by simp [failed, hu, hs], fun _ => ⟨fun _ => ⟨arr, rfl, ?_⟩, fun h => absurd h hu⟩⟩
        cases a.otherBucket <;> by_cases hk : a.otherBucketKey = "" <;>
          by_cases hme : a.meta.length > 0 <;>
          simp [filtersOf, hk, hme, lookup_mapSet]
      · have hs0 : a.subAggregations.length > 0 := by rw [hlen]; exact hs
        simp only [hs0, if_true]
        cases ha : sourceDict Aggregation.Source a.subAggregations [] with
        | error err => simp [failed, hu, hs]
        | ok aggsMap =>
          refine ⟨by simp [failed, hu, hs],
            fun _ => ⟨fun _ => ⟨arr, rfl, ?_⟩, fun h => absurd h hu⟩⟩
          cases a.otherBucket <;> by_cases hk : a.otherBucketKey = "" <;>
            by_cases hme : a.meta.length > 0 <;>
            simp [filtersOf, hk, hme, lookup_mapSet]

/-- C25: `FiltersAggregation.Source()` returns an error if and only if both
unnamed filters (`Filter`, `Filters`) and named filters (`FilterWithName`) were
added, or the `Source()` of a contained filter or sub-aggregation fails.
Otherwise the entry `"filters"` is the array of the sources of the unnamed
filters in the order they were added when there are any, and when there are
none it is an object keyed by name that holds the source of every named
filter, the empty object if no filter was added at all. (`namedFilters` is a
map: it holds one entry per key.) -/
theorem FiltersAggregation_Source_error_iff_mixed (a : FiltersAggregation)
    (hmap : (a.namedFilters.map Prod.fst).Nodup) :
    (failed a.Source = true ↔
        ((a.unnamedFilters ≠ [] ∧ a.namedFilters ≠ [])
          ∨ (∃ f ∈ a.unnamedFilters, failed f.Source = true)
          ∨ (∃ e ∈ a.namedFilters, failed e.2.Source = true)
          ∨ (∃ e ∈ a.subAggregations, failed e.2.Source = true)))
      ∧ (a.unnamedFilters ≠ [] → a.namedFilters ≠ [] →
          a.Source = Except.error
            "opensearch: use either named or unnamed filters with FiltersAggregation but not both")
      ∧ (failed a.Source = false → a.unnamedFilters ≠ [] →
          ∃ arr, filtersOf a.Source = some (GoValue.array arr)
            ∧ arr.map Except.ok = a.unnamedFilters.map Query.Source)
      ∧ (failed a.Source = false → a.unnamedFilters = [] →
          ∃ dict, filtersOf a.Source = some (GoValue.object dict)
            ∧ (∀ k, (List.lookup k dict).map Except.ok
                = (List.lookup k a.namedFilters).map Query.Source)
            ∧ (a.namedFilters = [] → dict = []))
      ∧ ((∀ f, (a.Filter f).unnamedFilters = a.unnamedFilters ++ [f])
          ∧ (∀ fs, (a.Filters fs).unnamedFilters = a.unnamedFilters ++ fs)
          ∧ (∀ name f, List.lookup name (a.FilterWithName name f).namedFilters = some f)
          ∧ NewFiltersAggregation.unnamedFilters = []
          ∧ NewFiltersAggregation.namedFilters = []) := by
  have hlen : ∀ {β : Type} (l : List β), l.length > 0 ↔ l ≠ [] := by
    intro β l; cases l <;> simp
  have hmixed : a.unnamedFilters ≠ [] → a.namedFilters ≠ [] →
      a.Source = Except.error
        "opensearch: use either named or unnamed filters with FiltersAggregation but not both" := by
    intro h1 h2
    unfold FiltersAggregation.Source
    rw [if_pos ⟨(hlen _).mpr h1, (hlen _).mpr h2⟩]
  refine ⟨?_, hmixed, ?_, ?_, ⟨fun _ => rfl, ?_, ?_, rfl, rfl⟩⟩
  · by_cases hmix : a.unnamedFilters ≠ [] ∧ a.namedFilters ≠ []
    · simp [hmixed hmix.1 hmix.2, failed, hmix]
    · rw [(FiltersAggregation_Source_cases a hmix).1, sourceArray_failed, sourceDict_failed,
        sourceDict_failed]
      constructor
      · rintro (⟨_, h⟩ | ⟨_, h⟩ | ⟨_, h⟩)
        · exact Or.inr (Or.inl h)
        · exact Or.inr (Or.inr (Or.inl h))
        · exact Or.inr (Or.inr (Or.inr h))
      · rintro (h | h | h | h)
        · exact absurd h hmix
        · obtain ⟨f, hf, hfail⟩ := h
          exact Or.inl ⟨List.ne_nil_of_mem hf, f, hf, hfail⟩
        · obtain ⟨e, he, hfail⟩ := h
          by_cases hu : a.unnamedFilters = []
          · exact Or.inr (Or.inl ⟨hu, e, he, hfail⟩)
          · exact absurd ⟨hu, List.ne_nil_of_mem he⟩ hmix
        · obtain ⟨e, he, hfail⟩ := h
          exact Or.inr (Or.inr ⟨List.ne_nil_of_mem he, e, he, hfail⟩)
  · intro hok hu
    have hmix : ¬ (a.unnamedFilters ≠ [] ∧ a.namedFilters ≠ []) := by
      intro h
      rw [hmixed h.1 h.2] at hok
      simp [failed] at hok
    obtain ⟨arr, h1, h2⟩ := ((FiltersAggregation_Source_cases a hmix).2 hok).1 hu
    exact ⟨arr, h2, sourceArray_ok _ _ h1⟩
  · intro hok hu
    have hmix : ¬ (a.unnamedFilters ≠ [] ∧ a.namedFilters ≠ []) := fun h => h.1 hu
    obtain ⟨dict, h1, h2⟩ := ((FiltersAggregation_Source_cases a hmix).2 hok).2 hu
    refine ⟨dict, h2, ?_, ?_⟩
    · intro k
      rw [sourceDict_lookup Query.Source a.namedFilters [] dict hmap h1 k]
      cases List.lookup k a.namedFilters <;> rfl
    · intro hn
      rw [hn] at h1
      simp [sourceDict] at h1
      exact h1
  · intro fs
    unfold FiltersAggregation.Filters
    cases fs with
    | nil => simp
    | cons f rest => simp
  · intro name f
    simp [FiltersAggregation.FilterWithName, lookup_mapSet]

set_option maxRecDepth 100000 in
theorem FiltersAggregation_Source_error_iff_mixed_witness :
    (∃ arr, filtersOf
          ((NewFiltersAggregation.Filter (termQuery "error")).Filter (termQuery "warning")).Source
          = some (GoValue.array arr)
        ∧ arr.map Except.ok = [(termQuery "error").Source, (termQuery "warning").Source])
      ∧ ((NewFiltersAggregation.Filter (termQuery "error")).FilterWithName "warnings"
          (termQuery "warning")).Source
        = Except.error
          "opensearch: use either named or unnamed filters with FiltersAggregation but not both"
      ∧ failed (NewFiltersAggregation.FilterWithName "errors" badQuery).Source = true
      ∧ marshalSource
          ((NewFiltersAggregation.FilterWithName "warnings" (termQuery "warning")).FilterWithName
            "errors" (termQuery "error")).Source
        = Except.ok
          "\x7b\"filters\":\x7b\"filters\":\x7b\"errors\":\x7b\"term\":\x7b\"body\":\"error\"\x7d\x7d,\"warnings\":\x7b\"term\":\x7b\"body\":\"warning\"\x7d\x7d\x7d\x7d\x7d"
      ∧ marshalSource NewFiltersAggregation.Source
        = Except.ok "\x7b\"filters\":\x7b\"filters\":\x7b\x7d\x7d\x7d" :=
  ⟨(FiltersAggregation_Source_error_iff_mixed
      ((NewFiltersAggregation.Filter (termQuery "error")).Filter (termQuery "warning"))
      List.nodup_nil).2.2.1 rfl (by simp [FiltersAggregation.Filter]),
    (FiltersAggregation_Source_error_iff_mixed
      ((NewFiltersAggregation.Filter (termQuery "error")).FilterWithName "warnings"
        (termQuery "warning")) (by decide)).2.1
      (by simp [FiltersAggregation.Filter, FiltersAggregation.FilterWithName])
      (by simp [FiltersAggregation.Filter, FiltersAggregation.FilterWithName, mapSet,
        NewFiltersAggregation]),
    (FiltersAggregation_Source_error_iff_mixed
      (NewFiltersAggregation.FilterWithName "errors" badQuery) (by decide)).1.mpr
      (Or.inr (Or.inr (Or.inl ⟨("errors", badQuery), by
        simp [FiltersAggregation.FilterWithName, mapSet, NewFiltersAggregation], rfl⟩))),
    rfl, rfl⟩

end Opensearch
